import Mathlib

/-!
# Event calendar: the reminder worker

A shallow embedding of `internal/event/worker/reminder/reminder.go`.

* The per-task handler `Worker.handleTask` is written once, as a program over the
  operations it performs on the outside world (clock, timers, the cancellation
  context, the two repositories, the sender, the logger).
* `Prog.run` executes such a program sequentially against an arbitrary
  environment and records every operation together with its result.
* `Sys` is the concurrent system: the `Run` loop, the caller of `Stop`, the
  producers, the cancellation context, the clock and the handler goroutines,
  interleaved one operation at a time by an explicit schedule.
-/

namespace reminder

/-! ## Data model -/

/-- The type `uuid.UUID`: an opaque identifier. -/
abbrev UUID := Nat

/-- An instant (`time.Time`), in nanoseconds on one common clock. -/
abbrev Time := Int

/-- The type `time.Duration`: a signed 64-bit count of nanoseconds. -/
abbrev Duration := Int

/-- A Go `error` value that is not nil. -/
abbrev Err := String

/-- The smallest `time.Duration`. -/
def minDuration : Duration := -(2 ^ 63)

/-- The largest `time.Duration`. -/
def maxDuration : Duration := 2 ^ 63 - 1

/-- The method `Time.Sub` of the Go library: the difference `t - u`, saturated to
the range of `time.Duration`. -/
def Sub (t u : Time) : Duration :=
  if t - u < minDuration then minDuration
  else if maxDuration < t - u then maxDuration
  else t - u

/-- The struct `domain.User` (internal/types/domain/user.go). -/
structure User where
  ID : UUID
  Email : String
  PasswordHash : String
  CreatedAt : Time
  UpdatedAt : Time
  deriving DecidableEq, Repr

/-- The struct `domain.Event` (internal/types/domain/event.go). -/
structure Event where
  ID : UUID
  UserID : UUID
  Date : Time
  Description : String
  Sent : Bool
  RemindAt : Option Time
  CreatedAt : Time
  UpdatedAt : Time
  deriving DecidableEq, Repr

/-- The struct `reminder.Task` (reminder.go, lines 26-30). -/
structure Task where
  EventID : UUID
  UserID : UUID
  RemindAt : Time
  deriving DecidableEq, Repr

/-- Log levels of zerolog used by the worker. -/
inductive Level where
  | info
  | error
  deriving DecidableEq, Repr

/-- The channel returned by `time.After`, identified by the instant at which it
delivers. -/
structure Timer where
  deadline : Time
  deriving DecidableEq, Repr

/-- Which case of `select { case <-time.After(delay): case <-ctx.Done(): }` ran. -/
inductive SelectResult where
  | timer
  | ctxDone
  deriving DecidableEq, Repr

/-! ## Programs over the outside world -/

/-- The operations the reminder package performs on the outside world. Log
entries keep their level and message; their structured fields are left out. -/
inductive Op where
  /-- The call `time.Now()`. -/
  | now
  /-- One log entry. -/
  | log (level : Level) (msg : String)
  /-- The call `time.After(d)`. -/
  | after (d : Duration)
  /-- Blocking in `select` on a timer channel and on `ctx.Done()`. -/
  | select (tm : Timer)
  /-- The call `userRepo.GetUserByID(ctx, id)`. -/
  | getUserByID (id : UUID)
  /-- The call `eventRepo.GetEventByID(ctx, id)`. -/
  | getEventByID (id : UUID)
  /-- The call `sender.Send(subject, message, to)`. -/
  | send (subject message recipient : String)
  /-- The call `eventRepo.MarkReminderSent(ctx, id)`. -/
  | markReminderSent (id : UUID)
  /-- The channel send `w.tasks <- t`. -/
  | submit (t : Task)
  deriving DecidableEq, Repr

/-- The result type of each operation. A Go `error` is `none` for nil; a pair
`(value, error)` is an `Except`. -/
@[reducible] def Res : Op → Type
  | .now => Time
  | .log _ _ => Unit
  | .after _ => Timer
  | .select _ => SelectResult
  | .getUserByID _ => Except Err User
  | .getEventByID _ => Except Err Event
  | .send _ _ _ => Option Err
  | .markReminderSent _ => Option Err
  | .submit _ => Unit

/-- A sequential Go function body: it either returns, or performs one operation
and continues with its result. -/
inductive Prog (α : Type) where
  | ret : α → Prog α
  | op : (o : Op) → (Res o → Prog α) → Prog α

/-- The function `time.Until(t)`, as a function of the clock reading. -/
def timeUntil (t now : Time) : Duration := Sub t now

/-- The body of the reminder e-mail: `fmt.Sprintf` of line 108. -/
def reminderMessage (description : String) : String :=
  "Event \"" ++ description ++ "\" is coming up soon. 🔔"

/-- Lines 91-116 of `Worker.handleTask`: the part after the wait. -/
def lookupAndSend (task : Task) : Prog Unit :=
  .op (.log .info "Sending reminder...") fun _ =>
  .op (.getUserByID task.UserID) fun r =>
  match r with
  | .error _ =>
    .op (.log .error "failed to get user by id") fun _ => .ret ()
  | .ok user =>
    .op (.getEventByID task.EventID) fun r =>
    match r with
    | .error _ =>
      .op (.log .error "failed to get event by id") fun _ => .ret ()
    | .ok event =>
      .op (.send "Event reminder" (reminderMessage event.Description) user.Email) fun r =>
      match r with
      | some _ =>
        .op (.log .error "failed to send reminder") fun _ => .ret ()
      | none =>
        .op (.markReminderSent task.EventID) fun r =>
        match r with
        | some _ =>
          .op (.log .error "failed to mark reminder sent") fun _ => .ret ()
        | none => .ret ()

/-- The two cases of the `select` of `Worker.handleTask` (lines 84-88): after the
timer the handler goes on, after `ctx.Done()` it returns. -/
def afterSelect (task : Task) : SelectResult → Prog Unit
  | .timer => lookupAndSend task
  | .ctxDone => .ret ()

/-- The method `Worker.handleTask` (reminder.go, lines 73-117). The second clock
reading is the one made for the `delay` field of the first log entry. -/
def handleTask (task : Task) : Prog Unit :=
  .op .now fun t0 =>
  let delay := timeUntil task.RemindAt t0
  .op .now fun _ =>
  .op (.log .info "Sending reminder...") fun _ =>
  if 0 < delay then
    .op (.after delay) fun tm =>
    .op (.select tm) (afterSelect task)
  else
    lookupAndSend task

/-! ## Sequential execution against an environment -/

/-- One executed operation with the result it produced. -/
abbrev Call := (o : Op) × Res o

/-- The outside world as seen by one sequential run: every operation is
answered from the current state of the world and may change it. -/
structure Env (σ : Type) where
  answer : (o : Op) → σ → Res o × σ

/-- Run a program to its end; the calls made are returned in order. -/
def Prog.run {σ α : Type} (env : Env σ) : Prog α → σ → α × σ × List Call
  | .ret a, s => (a, s, [])
  | .op o k, s =>
    let r := env.answer o s
    let rest := Prog.run env (k r.1) r.2
    (rest.1, rest.2.1, ⟨o, r.1⟩ :: rest.2.2)

/-- The calls a program makes, with their results. -/
def Prog.trace {σ α : Type} (env : Env σ) (p : Prog α) (s : σ) : List Call :=
  (p.run env s).2.2

/-- The operations that are calls to a collaborator (repositories and sender). -/
def Op.isCollab : Op → Bool
  | .getUserByID _ => true
  | .getEventByID _ => true
  | .send _ _ _ => true
  | .markReminderSent _ => true
  | _ => false

/-- The collaborator calls of a trace, in order, without their results. -/
def collabCalls (tr : List Call) : List Op :=
  (tr.map Sigma.fst).filter Op.isCollab

/-- The operations of a trace, in order, without their results. -/
def ops (tr : List Call) : List Op := tr.map Sigma.fst

/-- A world in which every operation has one fixed outcome. -/
structure Script where
  clock : Time
  sel : SelectResult
  user : Except Err User
  event : Except Err Event
  sendErr : Option Err
  markErr : Option Err

/-- The environment that answers from a script. -/
def Script.env (sc : Script) : Env Unit where
  answer o s :=
    match o with
    | .now => (sc.clock, s)
    | .log _ _ => ((), s)
    | .after d => (⟨sc.clock + d⟩, s)
    | .select _ => (sc.sel, s)
    | .getUserByID _ => (sc.user, s)
    | .getEventByID _ => (sc.event, s)
    | .send _ _ _ => (sc.sendErr, s)
    | .markReminderSent _ => (sc.markErr, s)
    | .submit _ => ((), s)

/-- A path in a program: the calls made from one point of it to a later one. -/
inductive Prog.Path {α : Type} : Prog α → List Call → Prog α → Prop where
  | nil (p : Prog α) : Prog.Path p [] p
  | cons (o : Op) (k : Res o → Prog α) (r : Res o) (cs : List Call) (q : Prog α) :
      Prog.Path (k r) cs q → Prog.Path (.op o k) (⟨o, r⟩ :: cs) q

/-- A result of each operation, used where the value does not matter. -/
def Res.default : (o : Op) → Res o
  | .now => (0 : Int)
  | .log _ _ => ()
  | .after _ => ⟨0⟩
  | .select _ => .timer
  | .getUserByID _ => .error ""
  | .getEventByID _ => .error ""
  | .send _ _ _ => none
  | .markReminderSent _ => none
  | .submit _ => ()

/-- The environment that answers each operation with the result recorded for it
at the head of a list of calls. -/
def replayEnv : Env (List Call) where
  answer o s :=
    match s with
    | [] => (Res.default o, [])
    | c :: rest => if h : c.1 = o then (h ▸ c.2, rest) else (Res.default o, rest)

/-! ## The concurrent system -/

/-- The collaborators behind the interfaces `UserRepo`, `EventRepo` and `Sender`,
acting on a store (database and mail system). The Boolean argument of the
repository methods tells whether the context passed to them is cancelled. -/
structure Collab (σ : Type) where
  GetUserByID : Bool → UUID → σ → Except Err User × σ
  GetEventByID : Bool → UUID → σ → Except Err Event × σ
  MarkReminderSent : Bool → UUID → σ → Option Err × σ
  Send : String → String → String → σ → Option Err × σ

/-- A buffered Go channel. -/
structure Chan (α : Type) where
  buf : List α
  cap : Nat
  closed : Bool

/-- Where the goroutine running `Worker.Run` is. -/
inductive RunState where
  | looping
  | returned
  deriving DecidableEq, Repr

/-- Where the caller of `Worker.Stop` is: not yet called, blocked on `<-w.done`
after `close(w.tasks)`, or returned. -/
inductive StopState where
  | idle
  | waiting
  | returned
  deriving DecidableEq, Repr

/-- A goroutine started by `go w.handleTask(ctx, task)`: its task and what is
left of its body. -/
structure Handler where
  task : Task
  prog : Prog Unit

/-- What has happened in the system, for the record. -/
inductive Ev where
  /-- A send `w.tasks <- t` completed, with the clock at `now`. -/
  | submitted (t : Task) (now : Time)
  /-- The context was cancelled. -/
  | cancelled
  /-- The loop of `Run` received `t` and started a handler for it. -/
  | dispatched (t : Task)
  /-- A log entry of `Run` or `Stop`. -/
  | log (msg : String)
  /-- The statement `close(w.done)`. -/
  | doneClosed
  /-- The method `Run` returned. -/
  | runReturned
  /-- The statement `close(w.tasks)`. -/
  | tasksClosed
  /-- The method `Stop` returned. -/
  | stopReturned
  /-- Handler goroutine number `h` performed a call. -/
  | call (h : Nat) (c : Call)
  /-- A goroutine panicked. -/
  | panicked (msg : String)

/-- The state of the worker and of everything around it. -/
structure Sys (σ : Type) where
  store : σ
  clock : Time
  /-- Whether `ctx.Done()` is closed. -/
  cancelled : Bool
  /-- The field `w.tasks`. -/
  tasks : Chan Task
  /-- Whether the field `w.done` is closed. -/
  done : Bool
  run : RunState
  stop : StopState
  handlers : List Handler
  /-- Whether the process died of a panic. -/
  crashed : Bool
  events : List Ev

/-- The steps the scheduler can choose from. -/
inductive Step where
  /-- A producer executes `w.tasks <- t`. -/
  | submit (t : Task)
  /-- The context is cancelled. -/
  | cancel
  /-- Time passes. -/
  | tick (d : Nat)
  /-- The `select` of `Run` takes the case `<-w.tasks`. -/
  | runRecv
  /-- The `select` of `Run` takes the case `<-ctx.Done()`. -/
  | runCtxDone
  /-- The caller of `Stop` executes `close(w.tasks)`. -/
  | stopClose
  /-- The caller of `Stop` gets past `<-w.done` and returns. -/
  | stopWait
  /-- Handler goroutine `i` performs its next operation; `pick` is the case
  taken when that operation is the `select`. -/
  | handler (i : Nat) (pick : SelectResult)
  deriving DecidableEq, Repr

/-- The function `NewWorker` (lines 40-48) followed by `go worker.Run(ctx)`. -/
def Sys.init {σ : Type} (store : σ) (buffer : Nat) (clock : Time) : Sys σ where
  store := store
  clock := clock
  cancelled := false
  tasks := { buf := [], cap := buffer, closed := false }
  done := false
  run := .looping
  stop := .idle
  handlers := []
  crashed := false
  events := []

/-- Line 63 of `Run`: `go w.handleTask(ctx, task)`. -/
def Sys.dispatch {σ : Type} (t : Task) (s : Sys σ) : Sys σ :=
  { s with handlers := s.handlers ++ [{ task := t, prog := handleTask t }],
           events := s.events ++ [.dispatched t] }

/-- Lines 59-61 and 66-68 of `Run`: log, `close(w.done)`, return. Closing a
closed channel panics. -/
def Sys.runReturn {σ : Type} (msg : String) (s : Sys σ) : Sys σ :=
  if s.done then
    { s with crashed := true,
             events := s.events ++ [.log msg, .panicked "close of closed channel"] }
  else
    { s with done := true, run := .returned,
             events := s.events ++ [.log msg, .doneClosed, .runReturned] }

/-- The channel send `w.tasks <- t`: it panics on a closed channel, fills a free
slot of the buffer, hands the value to `Run` blocked in its `select` when the
channel is unbuffered, and blocks otherwise. -/
def Sys.chanSend {σ : Type} (t : Task) (s : Sys σ) : Option (Sys σ) :=
  if s.tasks.closed then
    some { s with crashed := true,
                  events := s.events ++ [.panicked "send on closed channel"] }
  else if s.tasks.buf.length < s.tasks.cap then
    some { s with tasks := { s.tasks with buf := s.tasks.buf ++ [t] },
                  events := s.events ++ [.submitted t s.clock] }
  else if s.tasks.cap = 0 ∧ s.run = .looping then
    some (Sys.dispatch t { s with events := s.events ++ [.submitted t s.clock] })
  else none

/-- One iteration of the loop of `Worker.Run` (lines 54-71) taking the case
`<-w.tasks`: possible when a task is queued or the channel is closed. -/
def Sys.runRecv {σ : Type} (s : Sys σ) : Option (Sys σ) :=
  if s.run = .looping then
    match s.tasks.buf with
    | t :: rest => some (Sys.dispatch t { s with tasks := { s.tasks with buf := rest } })
    | [] =>
      if s.tasks.closed then some (Sys.runReturn "Reminder worker stopped, channel closed" s)
      else none
  else none

/-- One iteration of the loop of `Worker.Run` taking the case `<-ctx.Done()`. -/
def Sys.runCtxDone {σ : Type} (s : Sys σ) : Option (Sys σ) :=
  if s.run = .looping ∧ s.cancelled = true then
    some (Sys.runReturn "Reminder worker stopped by context" s)
  else none

/-- Line 120 of `Worker.Stop`: `close(w.tasks)`. -/
def Sys.stopClose {σ : Type} (s : Sys σ) : Option (Sys σ) :=
  if s.stop = .idle then
    if s.tasks.closed then
      some { s with crashed := true,
                    events := s.events ++ [.panicked "close of closed channel"] }
    else
      some { s with tasks := { s.tasks with closed := true }, stop := .waiting,
                    events := s.events ++ [.tasksClosed] }
  else none

/-- Lines 121-123 of `Worker.Stop`: `<-w.done`, log, return. -/
def Sys.stopWait {σ : Type} (s : Sys σ) : Option (Sys σ) :=
  if s.stop = .waiting ∧ s.done = true then
    some { s with stop := .returned,
                  events := s.events ++ [.log "Reminder worker fully stopped", .stopReturned] }
  else none

/-- What an operation of a handler goroutine does to the system, and its result;
`none` when the goroutine is blocked. -/
def Sys.perform {σ : Type} (c : Collab σ) (s : Sys σ) (pick : SelectResult) :
    (o : Op) → Option (Res o × Sys σ)
  | .now => some (s.clock, s)
  | .log _ _ => some ((), s)
  | .after d => some (⟨s.clock + d⟩, s)
  | .select tm =>
    match pick with
    | .timer => if tm.deadline ≤ s.clock then some (.timer, s) else none
    | .ctxDone => if s.cancelled then some (.ctxDone, s) else none
  | .getUserByID id =>
    some ((c.GetUserByID s.cancelled id s.store).1,
          { s with store := (c.GetUserByID s.cancelled id s.store).2 })
  | .getEventByID id =>
    some ((c.GetEventByID s.cancelled id s.store).1,
          { s with store := (c.GetEventByID s.cancelled id s.store).2 })
  | .send subject message recipient =>
    some ((c.Send subject message recipient s.store).1,
          { s with store := (c.Send subject message recipient s.store).2 })
  | .markReminderSent id =>
    some ((c.MarkReminderSent s.cancelled id s.store).1,
          { s with store := (c.MarkReminderSent s.cancelled id s.store).2 })
  | .submit t => (Sys.chanSend t s).map fun s1 => ((), s1)

/-- Handler goroutine `i` performs the next operation of its body. -/
def Sys.handlerStep {σ : Type} (c : Collab σ) (s : Sys σ) (i : Nat)
    (pick : SelectResult) : Option (Sys σ) :=
  match s.handlers[i]? with
  | none => none
  | some h =>
    match h.prog with
    | .ret _ => none
    | .op o k =>
      (Sys.perform c s pick o).map fun r =>
        { r.2 with handlers := r.2.handlers.set i { task := h.task, prog := k r.1 },
                   events := r.2.events ++ [.call i ⟨o, r.1⟩] }

/-- One step of the system; `none` when the step is not possible. After a panic
nothing runs. -/
def Sys.step {σ : Type} (c : Collab σ) (s : Sys σ) (l : Step) : Option (Sys σ) :=
  if s.crashed then none
  else
    match l with
    | .submit t => Sys.chanSend t s
    | .cancel => some { s with cancelled := true, events := s.events ++ [.cancelled] }
    | .tick d => some { s with clock := s.clock + d }
    | .runRecv => Sys.runRecv s
    | .runCtxDone => Sys.runCtxDone s
    | .stopClose => Sys.stopClose s
    | .stopWait => Sys.stopWait s
    | .handler i pick => Sys.handlerStep c s i pick

/-- Run a schedule from a state. -/
def Sys.exec {σ : Type} (c : Collab σ) : Sys σ → List Step → Option (Sys σ)
  | s, [] => some s
  | s, l :: ls => (Sys.step c s l).bind fun s1 => Sys.exec c s1 ls

/-- The task of a completed submission. -/
def Ev.submittedTask : Ev → Option Task
  | .submitted t _ => some t
  | _ => none

/-- The task of a dispatch. -/
def Ev.dispatchedTask : Ev → Option Task
  | .dispatched t => some t
  | _ => none

/-- The call of an event, when it is a call of handler goroutine `i`. -/
def Ev.callOf (i : Nat) : Ev → Option Call
  | .call h c => if h = i then some c else none
  | _ => none

/-- The tasks whose submission completed, in order. -/
def submittedTasks (evs : List Ev) : List Task := evs.filterMap Ev.submittedTask

/-- The tasks for which `Run` started a handler, in order. -/
def dispatchedTasks (evs : List Ev) : List Task := evs.filterMap Ev.dispatchedTask

/-- The calls made so far by handler goroutine `i`, in order. -/
def callsOf (i : Nat) (evs : List Ev) : List Call := evs.filterMap (Ev.callOf i)

/-- The log entry `Run` writes when it leaves its loop through `<-ctx.Done()`. -/
def stoppedByContext : Ev := .log "Reminder worker stopped by context"

/-- What holds of the worker in every state it can reach. -/
structure Sys.Inv {σ : Type} (s : Sys σ) : Prop where
  /-- Every submitted task is either dispatched or still queued, in order. -/
  conserve : submittedTasks s.events = dispatchedTasks s.events ++ s.tasks.buf
  /-- There is one handler goroutine per dispatched task, in order. -/
  handlersOf : s.handlers.map Handler.task = dispatchedTasks s.events
  /-- The channel `done` is closed exactly when `Run` has returned. -/
  done_iff : s.done = true ↔ s.run = .returned
  /-- The channel `tasks` is closed exactly when `Stop` has been called. -/
  closed_iff : s.tasks.closed = true ↔ s.stop ≠ .idle
  /-- The method `Stop` returns only once `done` is closed. -/
  stop_done : s.stop = .returned → s.done = true
  /-- When `Run` has returned, it has done so through one of its two exits. -/
  ret_cases : s.run = .returned →
    stoppedByContext ∈ s.events ∨ (s.tasks.closed = true ∧ s.tasks.buf = [])
  /-- Each handler goroutine is at the point of `handleTask` its calls lead to. -/
  paths : ∀ i h, s.handlers[i]? = some h →
    Prog.Path (handleTask h.task) (callsOf i s.events) h.prog
  /-- No call is recorded for a goroutine that does not exist yet. -/
  fresh : ∀ i, s.handlers.length ≤ i → callsOf i s.events = []
  /-- The buffer of the intake channel never holds more than its capacity. -/
  bounded : s.tasks.buf.length ≤ s.tasks.cap

/-- What a call of a handler returns when the clock never reads less than
`clock0` and the two lookups succeed. -/
def Call.good (clock0 : Time) : Call → Prop
  | ⟨.now, t⟩ => clock0 ≤ t
  | ⟨.getUserByID _, .error _⟩ => False
  | ⟨.getEventByID _, .error _⟩ => False
  | _ => True

/-- What a call of the handler of a task returns in a system whose lookups
succeed: a clock reading is not before a submission of the task. -/
def Call.goodFor (evs : List Ev) (task : Task) : Call → Prop
  | ⟨.now, t⟩ => ∃ now, Ev.submitted task now ∈ evs ∧ now ≤ t
  | ⟨.getUserByID _, .error _⟩ => False
  | ⟨.getEventByID _, .error _⟩ => False
  | _ => True

/-- What holds of the clock readings and lookups of the handlers when the
lookups succeed: no submission is dated after the clock, and the calls of every
handler are as `Call.goodFor` says. -/
def Sys.Good {σ : Type} (s : Sys σ) : Prop :=
  (∀ t now, Ev.submitted t now ∈ s.events → now ≤ s.clock) ∧
  ∀ (i : Nat) (h : Handler), s.handlers[i]? = some h →
    ∀ c ∈ callsOf i s.events, Call.goodFor s.events h.task c

/-- A step that records no call of a handler: the clock does not go back, the
events are kept, a new submission is dated by the clock, and the handler
goroutines there were are as they were. -/
def Sys.Quiet {σ : Type} (s s1 : Sys σ) : Prop :=
  s.clock ≤ s1.clock ∧
  (∀ e ∈ s.events, e ∈ s1.events) ∧
  (∀ t now, Ev.submitted t now ∈ s1.events → Ev.submitted t now ∈ s.events ∨ now = s.clock) ∧
  (∀ i, callsOf i s1.events = callsOf i s.events) ∧
  ∀ (i : Nat) (h1 : Handler), s1.handlers[i]? = some h1 →
    s.handlers[i]? = some h1 ∨ s.handlers.length ≤ i

/-- Collaborators whose two lookups always succeed. -/
def Collab.lookupsSucceed {σ : Type} (c : Collab σ) : Prop :=
  (∀ b id st, ∃ u, (c.GetUserByID b id st).1 = .ok u) ∧
  (∀ b id st, ∃ ev, (c.GetEventByID b id st).1 = .ok ev)

/-- Collaborators that always succeed, on a store with nothing in it. -/
def okCollab : Collab Unit where
  GetUserByID _ id st := (.ok { ID := id, Email := "user@example.com", PasswordHash := "",
                                CreatedAt := 0, UpdatedAt := 0 }, st)
  GetEventByID _ id st := (.ok { ID := id, UserID := 0, Date := 0, Description := "standup",
                                 Sent := false, RemindAt := none, CreatedAt := 0,
                                 UpdatedAt := 0 }, st)
  MarkReminderSent _ _ st := (none, st)
  Send _ _ _ st := (none, st)

/-- A user, for the worked examples. -/
def exUser : User :=
  { ID := 3, Email := "ann@example.com", PasswordHash := "x", CreatedAt := 0, UpdatedAt := 0 }

/-- An event, for the worked examples. -/
def exEvent : Event :=
  { ID := 7, UserID := 3, Date := 500, Description := "standup", Sent := false,
    RemindAt := some 100, CreatedAt := 0, UpdatedAt := 0 }

/-- A task due at instant 100, for the worked examples. -/
def exTask : Task := { EventID := 7, UserID := 3, RemindAt := 100 }

/-- The script in which the clock reads 0 and everything succeeds. -/
def exScript : Script :=
  { clock := 0, sel := .timer, user := .ok exUser, event := .ok exEvent,
    sendErr := none, markErr := none }

/-- The script in which the owner lookup fails. -/
def exUserFails : Script := { exScript with user := .error "no rows" }

/-- The script in which the subject lookup fails. -/
def exEventFails : Script := { exScript with event := .error "no rows" }

/-- The script in which sending fails. -/
def exSendFails : Script := { exScript with sendErr := some "smtp down" }

/-- The script in which marking the reminder as sent fails. -/
def exMarkFails : Script := { exScript with markErr := some "db down" }

/-- The script in which the clock reads 200, after the task is due. -/
def exLate : Script := { exScript with clock := 200 }

/-- A schedule in which one task is submitted and nothing else happens. -/
def schedSubmit : List Step := [.submit exTask]

/-- The state after `schedSubmit`, from a worker with a buffer of one task and the
clock at 200. -/
def stateSubmit : Sys Unit :=
  { store := (), clock := 200, cancelled := false,
    tasks := { buf := [exTask], cap := 1, closed := false },
    done := false, run := .looping, stop := .idle, handlers := [], crashed := false,
    events := [.submitted exTask 200] }

/-- A normal shutdown: one task is submitted, `Stop` closes the channel, `Run`
dispatches the task, sees the closed channel and returns, `Stop` returns. No
handler goroutine has run. -/
def schedDrain : List Step := [.submit exTask, .stopClose, .runRecv, .runRecv, .stopWait]

/-- The state after `schedDrain`, from a worker with a buffer of one task and the
clock at 200. -/
def stateDrain : Sys Unit :=
  { store := (), clock := 200, cancelled := false,
    tasks := { buf := [], cap := 1, closed := true },
    done := true, run := .returned, stop := .returned,
    handlers := [{ task := exTask, prog := handleTask exTask }], crashed := false,
    events := [.submitted exTask 200, .tasksClosed, .dispatched exTask,
               .log "Reminder worker stopped, channel closed", .doneClosed, .runReturned,
               .log "Reminder worker fully stopped", .stopReturned] }

/-- The shutdown of `main`: one task is submitted, the context is cancelled, `Run`
leaves its loop through `<-ctx.Done()`, then `Stop` is called and returns. -/
def schedCancel : List Step := [.submit exTask, .cancel, .runCtxDone, .stopClose, .stopWait]

/-- What can be compared in a state: where `Stop` and `Run` are, the two channels,
the context, the queued tasks, the tasks submitted and dispatched, the tasks of
the handler goroutines, and the operations each of the first `n` handlers has
performed. -/
def Sys.view {σ : Type} (n : Nat) (s : Sys σ) :
    StopState × RunState × Bool × Bool × Bool × List Task × List Task × List Task ×
      List Task × List (List Op) :=
  (s.stop, s.run, s.tasks.closed, s.done, s.cancelled, s.tasks.buf,
   submittedTasks s.events, dispatchedTasks s.events, s.handlers.map Handler.task,
   (List.range n).map fun i => ops (callsOf i s.events))

/-- A shutdown after the work is done: one task is submitted and dispatched, its
handler goroutine runs to its end, then `Stop` closes the channel, `Run` sees
it and returns, `Stop` returns. -/
def schedSent : List Step :=
  [.submit exTask, .runRecv,
   .handler 0 .timer, .handler 0 .timer, .handler 0 .timer, .handler 0 .timer,
   .handler 0 .timer, .handler 0 .timer, .handler 0 .timer, .handler 0 .timer,
   .stopClose, .runRecv, .stopWait]

/-- The state after `schedSent`, from a worker with a buffer of one task, the
clock at 200 and the collaborators `okCollab`. -/
def stateSent : Sys Unit :=
  { store := (), clock := 200, cancelled := false,
    tasks := { buf := [], cap := 1, closed := true },
    done := true, run := .returned, stop := .returned,
    handlers := [{ task := exTask, prog := .ret () }], crashed := false,
    events :=
      [.submitted exTask 200, .dispatched exTask,
       .call 0 ⟨.now, (200 : Int)⟩, .call 0 ⟨.now, (200 : Int)⟩,
       .call 0 ⟨.log .info "Sending reminder...", ()⟩,
       .call 0 ⟨.log .info "Sending reminder...", ()⟩,
       .call 0 ⟨.getUserByID 3, (okCollab.GetUserByID false 3 ()).1⟩,
       .call 0 ⟨.getEventByID 7, (okCollab.GetEventByID false 7 ()).1⟩,
       .call 0 ⟨.send "Event reminder" (reminderMessage "standup") "user@example.com", none⟩,
       .call 0 ⟨.markReminderSent 7, none⟩,
       .tasksClosed,
       .log "Reminder worker stopped, channel closed", .doneClosed, .runReturned,
       .log "Reminder worker fully stopped", .stopReturned] }

/-- A cancellation during the wait: one task due at 100 is submitted with the
clock at 0 and dispatched, its handler goroutine reads the clock twice, logs and
creates its timer, and then the context is cancelled. -/
def schedWaiting : List Step :=
  [.submit exTask, .runRecv, .handler 0 .timer, .handler 0 .timer, .handler 0 .timer,
   .handler 0 .timer, .cancel]

/-- The handler of the state after `schedWaiting`: blocked in the `select` of
lines 84-88. -/
def handlerWaiting : Handler :=
  { task := exTask,
    prog := .op (.select ⟨100⟩) (afterSelect exTask) }

/-- The state after `schedWaiting`, from a worker with a buffer of one task and
the clock at 0. -/
def stateWaiting : Sys Unit :=
  { store := (), clock := 0, cancelled := true,
    tasks := { buf := [], cap := 1, closed := false },
    done := false, run := .looping, stop := .idle,
    handlers := [handlerWaiting], crashed := false,
    events :=
      [.submitted exTask 0, .dispatched exTask,
       .call 0 ⟨.now, (0 : Int)⟩, .call 0 ⟨.now, (0 : Int)⟩,
       .call 0 ⟨.log .info "Sending reminder...", ()⟩,
       .call 0 ⟨.after 100, ⟨100⟩⟩, .cancelled] }

/-- A second task, for the worked examples. -/
def exTask2 : Task := { EventID := 8, UserID := 4, RemindAt := 300 }

/-- Two submissions and one dispatch. -/
def schedTwo : List Step := [.submit exTask, .submit exTask2, .runRecv]

/-- The state after `schedTwo`, from a worker with a buffer of two tasks and the
clock at 200. -/
def stateTwo : Sys Unit :=
  { store := (), clock := 200, cancelled := false,
    tasks := { buf := [exTask2], cap := 2, closed := false },
    done := false, run := .looping, stop := .idle,
    handlers := [{ task := exTask, prog := handleTask exTask }], crashed := false,
    events := [.submitted exTask 200, .submitted exTask2 200, .dispatched exTask] }

/-- What holds of the clock readings and of the timers of the handlers: a clock
reading is never ahead of the clock, and a timer made by `time.After(d)` does
not deliver before `d` has passed since any earlier clock reading of the same
handler. -/
def Sys.Timed {σ : Type} (s : Sys σ) : Prop :=
  (∀ (i : Nat) (t : Time), (⟨.now, t⟩ : Call) ∈ callsOf i s.events → t ≤ s.clock) ∧
  ∀ (i : Nat) (pre post : List Call) (d : Duration) (tm : Timer),
    callsOf i s.events = pre ++ (⟨.after d, tm⟩ : Call) :: post →
      ∀ t : Time, (⟨.now, t⟩ : Call) ∈ pre → t + d ≤ tm.deadline

/-- The timer fires: time passes in `stateWaiting`'s schedule before any
cancellation, up to the deadline of the timer. -/
def schedTimer : List Step :=
  [.submit exTask, .runRecv, .handler 0 .timer, .handler 0 .timer, .handler 0 .timer,
   .handler 0 .timer, .tick 100]

/-- The state after `schedTimer`, from a worker with a buffer of one task and the
clock at 0: the handler is blocked in its `select`, the clock is at the
deadline of the timer. -/
def stateTimer : Sys Unit :=
  { store := (), clock := 100, cancelled := false,
    tasks := { buf := [], cap := 1, closed := false },
    done := false, run := .looping, stop := .idle,
    handlers := [handlerWaiting], crashed := false,
    events :=
      [.submitted exTask 0, .dispatched exTask,
       .call 0 ⟨.now, (0 : Int)⟩, .call 0 ⟨.now, (0 : Int)⟩,
       .call 0 ⟨.log .info "Sending reminder...", ()⟩,
       .call 0 ⟨.after 100, ⟨100⟩⟩] }

/-- The same world, except that the event fetched by `GetEventByID` is changed by
`f` before the handler sees it. -/
def Env.mapEvent {σ : Type} (env : Env σ) (f : Event → Event) : Env σ where
  answer o s :=
    match o with
    | .getEventByID id =>
      ((env.answer (.getEventByID id) s).1.map f, (env.answer (.getEventByID id) s).2)
    | .now => env.answer .now s
    | .log l m => env.answer (.log l m) s
    | .after d => env.answer (.after d) s
    | .select tm => env.answer (.select tm) s
    | .getUserByID id => env.answer (.getUserByID id) s
    | .send a b c => env.answer (.send a b c) s
    | .markReminderSent id => env.answer (.markReminderSent id) s
    | .submit t => env.answer (.submit t) s

/-- A call, with the event it fetched (if it fetched one) changed by `f`. -/
def Call.mapEvent (f : Event → Event) : Call → Call
  | ⟨.getEventByID id, r⟩ => ⟨.getEventByID id, Except.map f r⟩
  | c => c

/-- The event as it is once its reminder has been sent and it has been moved:
the flag `Sent` is set, and `RemindAt`, `Date` and the timestamps are others. -/
def alreadySent (e : Event) : Event :=
  { e with Sent := true, RemindAt := some 999, Date := 1, CreatedAt := 2, UpdatedAt := 3 }

/-- Whether an event is the statement `close(w.done)`. -/
def Ev.isDoneClosed : Ev → Bool
  | .doneClosed => true
  | _ => false

/-- Whether an event is one of the two log entries `Run` writes on its way out:
on the closed channel (line 59) or on the cancelled context (line 66). -/
def Ev.isRunExit : Ev → Bool
  | .log msg =>
    msg == "Reminder worker stopped, channel closed" ||
      msg == "Reminder worker stopped by context"
  | _ => false

/-- Whether an event is the panic of closing a closed channel. -/
def Ev.isDoubleClose : Ev → Bool
  | .panicked msg => msg == "close of closed channel"
  | _ => false

/-- What holds of the channel `done` in every state the worker can reach: it has
been closed once if it is closed and never otherwise, `Run` has written one of
its two exit log entries if `done` is closed and none otherwise, no goroutine
has panicked closing a closed channel, and nothing was dispatched after `done`
was closed. -/
def Sys.Once {σ : Type} (s : Sys σ) : Prop :=
  s.events.countP Ev.isDoneClosed = (if s.done = true then 1 else 0) ∧
  s.events.countP Ev.isRunExit = (if s.done = true then 1 else 0) ∧
  s.events.countP Ev.isDoubleClose = 0 ∧
  (s.done = true →
    ∃ pre post, s.events = pre ++ Ev.doneClosed :: post ∧ dispatchedTasks post = [])

/-- The collaborator calls among the calls of a handler, with their results. -/
def collabPart (cs : List Call) : List Call := cs.filter fun x => x.1.isCollab

/-- The collaborators `c` answer the calls made for `task` as the script `sc`
says, whatever the store holds and whether or not the context is cancelled:
the lookup of the owner, the lookup of the subject, the sending of the reminder
of that subject to that owner, and the marking of the subject. Nothing is
asked of the answers to calls made for other tasks. -/
def Collab.Follows {σ : Type} (c : Collab σ) (task : Task) (sc : Script) : Prop :=
  (∀ b st, (c.GetUserByID b task.UserID st).1 = sc.user) ∧
  (∀ b st, (c.GetEventByID b task.EventID st).1 = sc.event) ∧
  (∀ u ev st, sc.user = .ok u → sc.event = .ok ev →
    (c.Send "Event reminder" (reminderMessage ev.Description) u.Email st).1 = sc.sendErr) ∧
  (∀ b st, (c.MarkReminderSent b task.EventID st).1 = sc.markErr)

/-- The result of a call is an answer of the collaborators `c`. -/
def answeredBy {σ : Type} (c : Collab σ) : Call → Prop
  | ⟨.getUserByID id, r⟩ => ∃ b st, r = (c.GetUserByID b id st).1
  | ⟨.getEventByID id, r⟩ => ∃ b st, r = (c.GetEventByID b id st).1
  | ⟨.send subject message recipient, r⟩ => ∃ st, r = (c.Send subject message recipient st).1
  | ⟨.markReminderSent id, r⟩ => ∃ b st, r = (c.MarkReminderSent b id st).1
  | _ => True

/-- The result of a call made for `task` is the one the script `sc` gives. -/
def agreesWith (task : Task) (sc : Script) : Call → Prop
  | ⟨.getUserByID id, r⟩ => id = task.UserID → r = sc.user
  | ⟨.getEventByID id, r⟩ => id = task.EventID → r = sc.event
  | ⟨.send subject message recipient, r⟩ =>
    ∀ u ev, sc.user = .ok u → sc.event = .ok ev → subject = "Event reminder" →
      message = reminderMessage ev.Description → recipient = u.Email → r = sc.sendErr
  | ⟨.markReminderSent id, r⟩ => id = task.EventID → r = sc.markErr
  | _ => True

/-- Every result a handler goroutine got from a collaborator is an answer of the
collaborators of the worker. -/
def Sys.Answered {σ : Type} (c : Collab σ) (s : Sys σ) : Prop :=
  ∀ (i : Nat) (x : Call), x ∈ callsOf i s.events → answeredBy c x

/-- The collaborator calls, with their results, of the part of `handleTask`
after the wait when the collaborators answer as the script `sc` says. -/
def expectedCalls (task : Task) (sc : Script) : List Call :=
  collabPart ((lookupAndSend task).trace sc.env ())

/-- Collaborators like `okCollab`, except that the lookup of user 4 fails. -/
def lookupFails : Collab Unit :=
  { okCollab with
    GetUserByID := fun b id st =>
      if id = 4 then (.error "no rows", st) else okCollab.GetUserByID b id st }

/-- What `okCollab` answers to the calls made for `exTask`. -/
def okScript : Script :=
  { clock := 0, sel := .timer, user := (okCollab.GetUserByID false 3 ()).1,
    event := (okCollab.GetEventByID false 7 ()).1, sendErr := none, markErr := none }

/-- Two tasks in one worker: `exTask2` and `exTask` are submitted and dispatched,
the two handler goroutines start, the owner lookup of `exTask2` fails, and
then the handler goroutine of `exTask` makes its four collaborator calls. -/
def schedIsolated : List Step :=
  [.submit exTask2, .submit exTask, .runRecv, .runRecv,
   .handler 0 .timer, .handler 0 .timer, .handler 0 .timer, .handler 0 .timer,
   .handler 1 .timer, .handler 1 .timer, .handler 1 .timer, .handler 1 .timer,
   .handler 0 .timer,
   .handler 1 .timer, .handler 1 .timer, .handler 1 .timer, .handler 1 .timer]

/-- The state after `schedIsolated`, from a worker with a buffer of two tasks, the
clock at 400 and the collaborators `lookupFails`: the handler goroutine of
`exTask2` is about to log its failure, the one of `exTask` has returned. -/
def stateIsolated : Sys Unit :=
  { store := (), clock := 400, cancelled := false,
    tasks := { buf := [], cap := 2, closed := false },
    done := false, run := .looping, stop := .idle,
    handlers :=
      [{ task := exTask2,
         prog := .op (.log .error "failed to get user by id") fun _ => .ret () },
       { task := exTask, prog := .ret () }],
    crashed := false,
    events :=
      [.submitted exTask2 400, .submitted exTask 400, .dispatched exTask2,
       .dispatched exTask,
       .call 0 ⟨.now, (400 : Int)⟩, .call 0 ⟨.now, (400 : Int)⟩,
       .call 0 ⟨.log .info "Sending reminder...", ()⟩,
       .call 0 ⟨.log .info "Sending reminder...", ()⟩,
       .call 1 ⟨.now, (400 : Int)⟩, .call 1 ⟨.now, (400 : Int)⟩,
       .call 1 ⟨.log .info "Sending reminder...", ()⟩,
       .call 1 ⟨.log .info "Sending reminder...", ()⟩,
       .call 0 ⟨.getUserByID 4, .error "no rows"⟩,
       .call 1 ⟨.getUserByID 3, (okCollab.GetUserByID false 3 ()).1⟩,
       .call 1 ⟨.getEventByID 7, (okCollab.GetEventByID false 7 ()).1⟩,
       .call 1 ⟨.send "Event reminder" (reminderMessage "standup") "user@example.com", none⟩,
       .call 1 ⟨.markReminderSent 7, none⟩] }

end reminder

/-! # Programs over a vocabulary of operations

The event service, the janitor and the event repository are written, like the
handler of the reminder worker, as programs over the operations they perform on
the outside world; each has its own vocabulary. -/

/-- A sequential Go function body over the operations `O`, an operation `o`
having a result of type `R o`: it either returns, or performs one operation and
continues with its result. -/
inductive Proc (O : Type) (R : O → Type) (α : Type) where
  | ret : α → Proc O R α
  | op : (o : O) → (R o → Proc O R α) → Proc O R α

/-- Run a program to its end, every operation being answered from the current
state of the world; the value returned, the final state and the calls made, in
order, with their results. -/
def Proc.run {O : Type} {R : O → Type} {α σ : Type} (answer : (o : O) → σ → R o × σ) :
    Proc O R α → σ → α × σ × List ((o : O) × R o)
  | .ret a, s => (a, s, [])
  | .op o k, s =>
    let r := answer o s
    let rest := Proc.run answer (k r.1) r.2
    (rest.1, rest.2.1, ⟨o, r.1⟩ :: rest.2.2)

/-- The operations a run performs, in order, without their results. -/
def Proc.opsOf {O : Type} {R : O → Type} (calls : List ((o : O) × R o)) : List O :=
  calls.map Sigma.fst

namespace service

open reminder

/-! ## The event service (internal/event/service/event.go) -/

/-- The value `uuid.Nil`. -/
def uuidNil : UUID := 0

/-- The zero value of `time.Time`, the origin of the clock. -/
def zeroTime : Time := 0

/-- The method `Time.IsZero`. -/
def IsZero (t : Time) : Bool := t == zeroTime

/-- The struct `dto.CreateEventRequest` (internal/types/dto/event.go). -/
structure CreateEventRequest where
  Date : Time
  Description : String
  RemindAt : Option Time
  deriving DecidableEq, Repr

/-- The operations of `Event.CreateEvent` on the outside world. -/
inductive Op where
  /-- The call `e.eventRepo.CreateEvent(ctx, event)`. -/
  | createEvent (event : Event)
  /-- The channel send `e.reminders <- t`. -/
  | submit (t : Task)
  deriving DecidableEq, Repr

/-- The result type of each operation of the service. -/
@[reducible] def Res : Op → Type
  | .createEvent _ => Except Err UUID
  | .submit _ => Unit

/-- The value of `domainEvent` in `Event.CreateEvent` (lines 40-45): the fields
not named in the literal have their zero values. -/
def createDomainEvent (event : CreateEventRequest) (userID : UUID) : Event :=
  { ID := uuidNil, UserID := userID, Date := event.Date, Description := event.Description,
    Sent := false, RemindAt := event.RemindAt, CreatedAt := zeroTime, UpdatedAt := zeroTime }

/-- The method `Event.CreateEvent` (event.go, lines 37-61). The helper
`errutils.Wrap` is not among the sources and is a parameter; it is given an
error that is not nil and returns one. -/
def CreateEvent (Wrap : String → Err → Err) (event : CreateEventRequest) (userID : UUID) :
    Proc Op Res (UUID × Option Err) :=
  .op (.createEvent (createDomainEvent event userID)) fun r =>
  match r with
  | .error err => .ret (uuidNil, some (Wrap "service.event.Create" err))
  | .ok id =>
    match event.RemindAt with
    | some remindAt =>
      if IsZero remindAt then .ret (id, none)
      else
        .op (.submit { EventID := id, UserID := userID, RemindAt := remindAt }) fun _ =>
        .ret (id, none)
    | none => .ret (id, none)

/-- The tasks `CreateEvent` has to submit for a request: one when `RemindAt` is
set and not the zero time, none otherwise. -/
def tasksFor (event : CreateEventRequest) (userID id : UUID) : List Task :=
  match event.RemindAt with
  | some remindAt =>
    if IsZero remindAt then [] else [{ EventID := id, UserID := userID, RemindAt := remindAt }]
  | none => []

/-- What an operation of a goroutine serving a request does to the system of the
reminder worker, `e.reminders` being the intake channel of the worker; `none`
when the goroutine is blocked. -/
def perform {σ : Type} (repoCreate : Event → σ → Except Err UUID × σ) (s : Sys σ) :
    (o : Op) → Option (Res o × Sys σ)
  | .createEvent event =>
    some ((repoCreate event s.store).1, { s with store := (repoCreate event s.store).2 })
  | .submit t => (Sys.chanSend t s).map fun s1 => ((), s1)

/-- A goroutine serving a request runs a body of the service in the system of
the reminder worker, as far as it gets without another goroutine taking a step:
the value returned and the system afterwards, or `none` when it blocks on the
way. -/
def runOn {σ α : Type} (repoCreate : Event → σ → Except Err UUID × σ) :
    Proc Op Res α → Sys σ → Option (α × Sys σ)
  | .ret a, s => some (a, s)
  | .op o k, s =>
    match perform repoCreate s o with
    | none => none
    | some (r, s1) => runOn repoCreate (k r) s1

/-- A repository that stores nothing and answers a fixed result. -/
def fixedCreate (r : Except Err UUID) : Event → Unit → Except Err UUID × Unit :=
  fun _ s => (r, s)

/-- An environment in which the repository answers a fixed result. -/
def fixedRepo (r : Except Err UUID) : (o : Op) → Unit → Res o × Unit
  | .createEvent _, s => (r, s)
  | .submit _, s => ((), s)

/-- The helper `errutils.Wrap` of the worked examples. -/
def exWrap (op : String) (err : Err) : Err := op ++ ": " ++ err

/-- A request with a reminder, for the worked examples. -/
def exRequest : CreateEventRequest :=
  { Date := 500, Description := "standup", RemindAt := some 100 }

/-- A system whose intake channel, of capacity one, is full. -/
def stateFull : Sys Unit :=
  { store := (), clock := 0, cancelled := false,
    tasks := { buf := [exTask], cap := 1, closed := false },
    done := false, run := .looping, stop := .idle, handlers := [], crashed := false,
    events := [.submitted exTask 0] }

end service

namespace janitor

open reminder

/-! ## The janitor (internal/event/worker/janitor/janitor.go) -/

/-- One second, as a `time.Duration`. -/
def second : Duration := 1000000000

/-- A `context.Context` with a deadline. -/
structure Ctx where
  deadline : Time
  deriving DecidableEq, Repr

/-- The operations of the job of the janitor on the outside world. Log entries
keep their message; their structured fields are left out. -/
inductive Op where
  /-- The call `log.Logger.Print(msg)`. -/
  | print (msg : String)
  /-- The call `time.Now()` made by `context.WithTimeout`. -/
  | now
  /-- The call `w.eventRepo.ArchiveOldEvents(ctx)`. -/
  | archiveOldEvents (ctx : Ctx)
  /-- The log entry `log.Logger.Error().Err(err).Msg(msg)`. -/
  | logError (err : Err) (msg : String)
  /-- The deferred call `cancel()`. -/
  | cancel (ctx : Ctx)
  deriving DecidableEq, Repr

/-- The result type of each operation of the job. -/
@[reducible] def Res : Op → Type
  | .print _ => Unit
  | .now => Time
  | .archiveOldEvents _ => Option Err
  | .logError _ _ => Unit
  | .cancel _ => Unit

/-- The function registered by `Worker.RegisterJobs` (janitor.go, lines 27-36):
one firing of the job. The call `context.WithTimeout(context.Background(), d)` is
`WithDeadline` at `time.Now().Add(d)`. -/
def job : Proc Op Res Unit :=
  .op (.print "[JOB] Archiving old events...\n") fun _ =>
  .op .now fun t =>
  let ctx : Ctx := { deadline := t + 20 * second }
  .op (.archiveOldEvents ctx) fun r =>
  match r with
  | some err =>
    .op (.logError err "[JOB] ArchiveOldEvents failed") fun _ =>
    .op (.cancel ctx) fun _ => .ret ()
  | none => .op (.cancel ctx) fun _ => .ret ()

/-- Whether an operation is a call of `ArchiveOldEvents`. -/
def Op.isArchive : Op → Bool
  | .archiveOldEvents _ => true
  | _ => false

/-- An environment in which the clock reads `clock` and `ArchiveOldEvents`
answers a fixed result. -/
def fixedEnv (clock : Time) (r : Option Err) : (o : Op) → Unit → Res o × Unit
  | .print _, s => ((), s)
  | .now, s => (clock, s)
  | .archiveOldEvents _, s => (r, s)
  | .logError _ _, s => ((), s)
  | .cancel _, s => ((), s)

end janitor

namespace repo

open reminder

/-! ## The archive sweep of the event repository (internal/event/repo/repo.go) -/

/-- A row of the table `events_archive`, with the columns named in the `INSERT`
of `ArchiveOldEvents`. -/
structure ArchiveRow where
  id : UUID
  user_id : UUID
  event_date : Time
  description : String
  archived_at : Time
  original_created_at : Time
  original_updated_at : Time
  deriving DecidableEq, Repr

/-- The two tables the sweep works on: the live table `events`, whose rows are
read into `domain.Event`, and the table `events_archive`. -/
structure Tables where
  events : List Event
  events_archive : List ArchiveRow
  deriving DecidableEq, Repr

/-- The database: the committed tables, the tables as the open transaction sees
them (if one is open), and what `CURRENT_DATE` and `NOW()` evaluate to. -/
structure Db where
  committed : Tables
  tx : Option Tables
  today : Time
  now : Time
  deriving DecidableEq, Repr

/-- The two statements of `ArchiveOldEvents`. -/
inductive Query where
  /-- The statement `INSERT INTO events_archive (...) SELECT ..., NOW(), ... FROM
  events WHERE event_date < CURRENT_DATE`. -/
  | archiveOld
  /-- The statement `DELETE FROM events WHERE event_date < CURRENT_DATE`. -/
  | deleteOld
  deriving DecidableEq, Repr

/-- The row the `SELECT` of the archive statement makes of a live row. -/
def toArchive (now : Time) (e : Event) : ArchiveRow :=
  { id := e.ID, user_id := e.UserID, event_date := e.Date, description := e.Description,
    archived_at := now, original_created_at := e.CreatedAt,
    original_updated_at := e.UpdatedAt }

/-- The condition `event_date < CURRENT_DATE` of both statements. -/
def isOld (today : Time) (e : Event) : Bool := decide (e.Date < today)

/-- What a statement that succeeds does to the tables. -/
def Query.apply (today now : Time) : Query → Tables → Tables
  | .archiveOld, t =>
    { t with events_archive :=
        t.events_archive ++ (t.events.filter (isOld today)).map (toArchive now) }
  | .deleteOld, t =>
    { t with events := t.events.filter fun e => !isOld today e }

/-- The operations of `ArchiveOldEvents` on the database. -/
inductive Op where
  /-- The call `r.db.Begin(ctx)`. -/
  | begin
  /-- The call `tx.Exec(ctx, query)`. -/
  | exec (q : Query)
  /-- The call `tx.Commit(ctx)`. -/
  | commit
  /-- The deferred call `tx.Rollback(ctx)`. -/
  | rollback
  deriving DecidableEq, Repr

/-- The result type of each operation: the error returned. -/
@[reducible] def Res : Op → Type
  | _ => Option Err

/-- The method `EventRepo.ArchiveOldEvents` (repo.go, lines 246-279). The deferred
rollback runs before every return that follows a successful `Begin`. The helper
`errutils.Wrap` is not among the sources and is a parameter; it is given an
error that is not nil and returns one. -/
def ArchiveOldEvents (Wrap : String → Err → Err) : Proc Op Res (Option Err) :=
  .op .begin fun r =>
  match r with
  | some err => .ret (some (Wrap "failed to begin tx" err))
  | none =>
    .op (.exec .archiveOld) fun r =>
    match r with
    | some err =>
      .op .rollback fun _ => .ret (some (Wrap "failed to archive events" err))
    | none =>
      .op (.exec .deleteOld) fun r =>
      match r with
      | some err =>
        .op .rollback fun _ => .ret (some (Wrap "failed to delete old events" err))
      | none =>
        .op .commit fun r =>
        match r with
        | some err =>
          .op .rollback fun _ => .ret (some (Wrap "failed to commit tx" err))
        | none => .op .rollback fun _ => .ret none

/-- The errors the database returns to one call of `ArchiveOldEvents`: for each
of `Begin`, the two statements and `Commit`, nil or an error (lost connection,
expired deadline of the context, violated constraint). An error of `Commit`
comes with whether the server had applied the commit when the error reached
the client: the connection can be lost, or the deadline expire, after the
server received the commit. -/
structure Faults where
  begin : Option Err
  archive : Option Err
  delete : Option Err
  commit : Option (Err × Bool)
  deriving DecidableEq, Repr

/-- The error returned for a statement. -/
def Faults.exec (f : Faults) : Query → Option Err
  | .archiveOld => f.archive
  | .deleteOld => f.delete

/-- The database answering the operations of a transaction: `Begin` opens a
transaction on the committed tables; a statement that succeeds changes the
tables of the transaction only; `Commit` makes them the committed tables; a
`Commit` that returns an error ends the transaction, with the tables of the
transaction committed or not as the fault says; `Rollback` ends the transaction
without effect. On a transaction that is not open every operation fails. -/
def Db.answer (f : Faults) : (o : Op) → Db → Res o × Db
  | .begin, db =>
    match f.begin with
    | some err => (some err, db)
    | none => (none, { db with tx := some db.committed })
  | .exec q, db =>
    match db.tx with
    | none => (some "tx is closed", db)
    | some t =>
      match f.exec q with
      | some err => (some err, db)
      | none => (none, { db with tx := some (q.apply db.today db.now t) })
  | .commit, db =>
    match db.tx with
    | none => (some "tx is closed", db)
    | some t =>
      match f.commit with
      | some (err, applied) =>
        (some err, { db with committed := if applied then t else db.committed, tx := none })
      | none => (none, { db with committed := t, tx := none })
  | .rollback, db =>
    match db.tx with
    | none => (some "tx is closed", db)
    | some _ => (none, { db with tx := none })

/-- One call of `ArchiveOldEvents` on a database with no transaction open: the
error returned, the database afterwards and the calls made. -/
def sweep (Wrap : String → Err → Err) (f : Faults) (today now : Time) (t : Tables) :
    Option Err × Db × List ((o : Op) × Res o) :=
  (ArchiveOldEvents Wrap).run (Db.answer f)
    { committed := t, tx := none, today := today, now := now }

/-- The faults of a call in which nothing fails. -/
def noFaults : Faults := { begin := none, archive := none, delete := none, commit := none }

/-- The faults of a call in which the `DELETE` fails. -/
def deleteFails : Faults := { noFaults with delete := some "connection reset" }

/-- The faults of a call in which the deadline of the context expires during
`Commit`, after the server has applied the commit. -/
def commitLost : Faults :=
  { noFaults with commit := some ("context deadline exceeded", true) }

/-- A live row dated `date`, for the worked examples. -/
def rowAt (id : UUID) (date : Time) : Event :=
  { ID := id, UserID := 3, Date := date, Description := "standup", Sent := false,
    RemindAt := none, CreatedAt := 0, UpdatedAt := 0 }

/-- A store with four live rows, dated 900, 1000, 1200 and 2000, and an empty
archive; in the worked examples the current date is 1000 and the current time
1500. -/
def exTables : Tables :=
  { events := [rowAt 1 900, rowAt 2 1000, rowAt 3 1200, rowAt 4 2000], events_archive := [] }

end repo

/-! # Errors, and the other methods of the services -/

namespace errors

/-- A Go `error` value that is not nil: one made by `errors.New` (a package
variable of the program, or an error of a library), which is equal to itself
only and is told apart by `name`, or an error that wraps another one. -/
inductive Error where
  | new (name : String) (text : String)
  | wrap (text : String) (inner : Error)
  deriving DecidableEq, Repr

/-- The function `errors.Is` of the Go library: whether `err` or an error it
wraps, at any depth, is `target`. -/
def Is (err target : Error) : Bool :=
  match err with
  | .new name text => Error.new name text == target
  | .wrap text inner => Error.wrap text inner == target || Is inner target

/-- What the services need of the helper `errutils.Wrap`, which is not among the
sources: the error it makes matches an error made by `errors.New` exactly when
the error it was given does. The helper is called on errors that are not nil. -/
def KeepsChain (Wrap : String → Error → Error) : Prop :=
  ∀ (op : String) (err : Error) (name text : String),
    Is (Wrap op err) (.new name text) = Is err (.new name text)

/-- A helper that wraps as `fmt.Errorf("%s: %w", op, err)` does, for the worked
examples. -/
def wrapOp (op : String) (err : Error) : Error := .wrap op err

end errors

namespace domain

open errors

/-- The variable `ErrUserExists` of internal/types/domain/errors.go. -/
def ErrUserExists : Error := .new "domain.ErrUserExists" "user exists"

/-- The variable `ErrInvalidCredentials` of internal/types/domain/errors.go. -/
def ErrInvalidCredentials : Error := .new "domain.ErrInvalidCredentials" "invalid credentials"

/-- The variable `ErrEventNotFound` of internal/types/domain/errors.go. -/
def ErrEventNotFound : Error := .new "domain.ErrEventNotFound" "event not found"

end domain

namespace repo

open errors

/-- The variable `ErrEventNotFound` of internal/event/repo/repo.go. -/
def ErrEventNotFound : Error := .new "repo.ErrEventNotFound" "event not found"

end repo

namespace userrepo

open errors

/-- The variable `ErrUserExists` of internal/user/repo/repo.go. -/
def ErrUserExists : Error := .new "userrepo.ErrUserExists" "user exists"

/-- The variable `ErrUserNotFound` of internal/user/repo/repo.go. -/
def ErrUserNotFound : Error := .new "userrepo.ErrUserNotFound" "user not found"

end userrepo

/-- A Go slice: `none` is the nil slice. -/
abbrev Slice (α : Type) := Option (List α)

/-- The elements a `for ... range` loop over a slice visits, in order. -/
def Slice.elems {α : Type} (s : Slice α) : List α := s.getD []

/-- The built-in `append(s, x)`. -/
def Slice.append {α : Type} (s : Slice α) (x : α) : Slice α := some (s.elems ++ [x])

/-- One function body calling another: `p`, then `f` on what `p` returned. -/
def Proc.bind {O : Type} {R : O → Type} {α β : Type} :
    Proc O R α → (α → Proc O R β) → Proc O R β
  | .ret a, f => f a
  | .op o k, f => .op o fun r => Proc.bind (k r) f

/-- Run a program in a world in which an operation may block: the value returned
and the world afterwards, or `none` when the program blocks on the way. -/
def Proc.runIn {O : Type} {R : O → Type} {α σ : Type}
    (perform : σ → (o : O) → Option (R o × σ)) : Proc O R α → σ → Option (α × σ)
  | .ret a, s => some (a, s)
  | .op o k, s =>
    match perform s o with
    | none => none
    | some (r, s1) => Proc.runIn perform (k r) s1

namespace dto

open reminder

/-- The struct `dto.UpdateEventRequest` (internal/types/dto/event.go). -/
structure UpdateEventRequest where
  Date : Time
  Description : String
  RemindAt : Option Time
  deriving DecidableEq, Repr

/-- The struct `dto.Event` (internal/types/dto/event.go). -/
structure Event where
  ID : UUID
  UserID : UUID
  Date : Time
  Description : String
  deriving DecidableEq, Repr

/-- The struct `dto.GetEventsResponse` (internal/types/dto/event.go). -/
structure GetEventsResponse where
  Events : Slice Event
  deriving DecidableEq, Repr

end dto

namespace service

open reminder errors

/-- What the methods of `Event` other than `CreateEvent` can do to the outside
world: the calls of the other five methods of the interface `EventRepo`, and the
channel send on the field `reminders`. -/
inductive EventOp where
  /-- The call `e.eventRepo.UpdateEvent(ctx, event)`. -/
  | updateEvent (event : Event)
  /-- The call `e.eventRepo.DeleteEvent(ctx, eventID, userID)`. -/
  | deleteEvent (eventID userID : UUID)
  /-- The call `e.eventRepo.GetEventsForDay(ctx, userID, date)`. -/
  | getEventsForDay (userID : UUID) (date : Time)
  /-- The call `e.eventRepo.GetEventsForWeek(ctx, userID, start)`. -/
  | getEventsForWeek (userID : UUID) (start : Time)
  /-- The call `e.eventRepo.GetEventsForMonth(ctx, userID, start)`. -/
  | getEventsForMonth (userID : UUID) (start : Time)
  /-- The channel send `e.reminders <- t`. -/
  | submit (t : Task)
  deriving DecidableEq, Repr

/-- The result type of each of these operations. -/
@[reducible] def EventRes : EventOp → Type
  | .updateEvent _ => Option Error
  | .deleteEvent _ _ => Option Error
  | .getEventsForDay _ _ => Except Error (Slice Event)
  | .getEventsForWeek _ _ => Except Error (Slice Event)
  | .getEventsForMonth _ _ => Except Error (Slice Event)
  | .submit _ => Unit

/-- The value of `domainEvent` in `Event.UpdateEvent` (lines 66-72): the fields
not named in the literal have their zero values. -/
def updateDomainEvent (event : dto.UpdateEventRequest) (eventID userID : UUID) : Event :=
  { ID := eventID, UserID := userID, Date := event.Date, Description := event.Description,
    Sent := false, RemindAt := event.RemindAt, CreatedAt := zeroTime, UpdatedAt := zeroTime }

/-- The method `Event.UpdateEvent` (event.go, lines 63-82). -/
def UpdateEvent (Wrap : String → Error → Error) (event : dto.UpdateEventRequest)
    (eventID userID : UUID) : Proc EventOp EventRes (Option Error) :=
  .op (.updateEvent (updateDomainEvent event eventID userID)) fun r =>
  match r with
  | some err =>
    if Is err repo.ErrEventNotFound then
      .ret (some (Wrap "service.event.Update" domain.ErrEventNotFound))
    else .ret (some (Wrap "service.event.Update" err))
  | none => .ret none

/-- The method `Event.DeleteEvent` (event.go, lines 84-95). -/
def DeleteEvent (Wrap : String → Error → Error) (eventID userID : UUID) :
    Proc EventOp EventRes (Option Error) :=
  .op (.deleteEvent eventID userID) fun r =>
  match r with
  | some err =>
    if Is err repo.ErrEventNotFound then
      .ret (some (Wrap "service.event.Delete" domain.ErrEventNotFound))
    else .ret (some (Wrap "service.event.Delete" err))
  | none => .ret none

/-- The body of the loop of `domainToGetEventsResponse` (converter.go, lines
11-16). -/
def toDtoEvent (e : Event) : dto.Event :=
  { ID := e.ID, UserID := e.UserID, Date := e.Date, Description := e.Description }

/-- The function `domainToGetEventsResponse` (converter.go, lines 8-22): the
slice made by `make([]dto.Event, 0, len(domainEvents))` is not nil, and the loop
appends to it one element for each domain event, in order. -/
def domainToGetEventsResponse (domainEvents : Slice Event) : dto.GetEventsResponse :=
  { Events :=
      domainEvents.elems.foldl (fun events e => Slice.append events (toDtoEvent e)) (some []) }

/-- The method `Event.GetEventsForDay` (event.go, lines 97-106). -/
def GetEventsForDay (Wrap : String → Error → Error) (userID : UUID) (date : Time) :
    Proc EventOp EventRes (dto.GetEventsResponse × Option Error) :=
  .op (.getEventsForDay userID date) fun r =>
  match r with
  | .error err => .ret ({ Events := none }, some (Wrap "service.event.GetForDay" err))
  | .ok domainEvents => .ret (domainToGetEventsResponse domainEvents, none)

/-- The method `Event.GetEventsForWeek` (event.go, lines 108-117). -/
def GetEventsForWeek (Wrap : String → Error → Error) (userID : UUID) (date : Time) :
    Proc EventOp EventRes (dto.GetEventsResponse × Option Error) :=
  .op (.getEventsForWeek userID date) fun r =>
  match r with
  | .error err => .ret ({ Events := none }, some (Wrap "service.event.GetForWeek" err))
  | .ok domainEvents => .ret (domainToGetEventsResponse domainEvents, none)

/-- The method `Event.GetEventsForMonth` (event.go, lines 119-128). -/
def GetEventsForMonth (Wrap : String → Error → Error) (userID : UUID) (date : Time) :
    Proc EventOp EventRes (dto.GetEventsResponse × Option Error) :=
  .op (.getEventsForMonth userID date) fun r =>
  match r with
  | .error err => .ret ({ Events := none }, some (Wrap "service.event.GetForMonth" err))
  | .ok domainEvents => .ret (domainToGetEventsResponse domainEvents, none)

/-- What an operation of a goroutine serving a request does to the process: a
call of the repository acts on the store, the send acts on the intake channel of
the reminder worker and blocks as a channel send does. -/
def performEvent {σ : Type} (repository : (o : EventOp) → σ → EventRes o × σ) (s : Sys σ) :
    (o : EventOp) → Option (EventRes o × Sys σ)
  | .submit t => (Sys.chanSend t s).map fun s1 => ((), s1)
  | .updateEvent event =>
    some ((repository (.updateEvent event) s.store).1,
      { s with store := (repository (.updateEvent event) s.store).2 })
  | .deleteEvent eventID userID =>
    some ((repository (.deleteEvent eventID userID) s.store).1,
      { s with store := (repository (.deleteEvent eventID userID) s.store).2 })
  | .getEventsForDay userID date =>
    some ((repository (.getEventsForDay userID date) s.store).1,
      { s with store := (repository (.getEventsForDay userID date) s.store).2 })
  | .getEventsForWeek userID date =>
    some ((repository (.getEventsForWeek userID date) s.store).1,
      { s with store := (repository (.getEventsForWeek userID date) s.store).2 })
  | .getEventsForMonth userID date =>
    some ((repository (.getEventsForMonth userID date) s.store).1,
      { s with store := (repository (.getEventsForMonth userID date) s.store).2 })

/-- A repository that answers `UpdateEvent` and `DeleteEvent` with a fixed
result and finds no events. -/
def fixedUpdate (r : Option Error) : (o : EventOp) → Unit → EventRes o × Unit
  | .updateEvent _, s => (r, s)
  | .deleteEvent _ _, s => (r, s)
  | .getEventsForDay _ _, s => (.ok none, s)
  | .getEventsForWeek _ _, s => (.ok none, s)
  | .getEventsForMonth _ _, s => (.ok none, s)
  | .submit _, s => ((), s)

/-- A repository that answers the three queries with a fixed result. -/
def fixedEvents (r : Except Error (Slice Event)) : (o : EventOp) → Unit → EventRes o × Unit
  | .updateEvent _, s => (none, s)
  | .deleteEvent _ _, s => (none, s)
  | .getEventsForDay _ _, s => (r, s)
  | .getEventsForWeek _ _, s => (r, s)
  | .getEventsForMonth _ _, s => (r, s)
  | .submit _, s => ((), s)

/-- An update that sets a new reminder, for the worked examples. -/
def exUpdate : dto.UpdateEventRequest :=
  { Date := 600, Description := "standup, moved", RemindAt := some 400 }

end service

namespace userservice

open reminder errors

/-! ## The user service (internal/user/service/user.go) -/

/-- The struct `dto.LoginUser`. Its declaration is not among the sources; `Login`
uses its fields `Email` and `Password`. -/
structure LoginUser where
  Email : String
  Password : String
  deriving DecidableEq, Repr

/-- The method `UUID.String`; identifiers being numbers here, their decimal
form. -/
def uuidString (id : UUID) : String := toString id

/-- The operations of `User.Login` on the outside world. -/
inductive Op where
  /-- The call `u.repo.GetUserByEmail(ctx, email)`. -/
  | getUserByEmail (email : String)
  /-- The call `bcrypt.CompareHashAndPassword(hash, password)`. -/
  | compareHashAndPassword (hash password : String)
  /-- The call `u.manager.NewToken(userID, ttl)`. -/
  | newToken (userID : String) (ttl : Duration)
  deriving DecidableEq, Repr

/-- The result type of each operation of the user service. -/
@[reducible] def Res : Op → Type
  | .getUserByEmail _ => Except Error User
  | .compareHashAndPassword _ _ => Option Error
  | .newToken _ _ => Except Error String

/-- The method `User.Login` (user.go, lines 63-84), of a service made by
`NewUser(repo, manager, tokenTTL)`. -/
def Login (Wrap : String → Error → Error) (tokenTTL : Duration) (creds : LoginUser) :
    Proc Op Res (String × Option Error) :=
  .op (.getUserByEmail creds.Email) fun r =>
  match r with
  | .error err =>
    if Is err userrepo.ErrUserNotFound then
      .ret ("", some (Wrap "service.user.Login" domain.ErrInvalidCredentials))
    else .ret ("", some (Wrap "service.user.Login" err))
  | .ok user =>
    .op (.compareHashAndPassword user.PasswordHash creds.Password) fun r =>
    match r with
    | some _ => .ret ("", some (Wrap "service.user.Login" domain.ErrInvalidCredentials))
    | none =>
      .op (.newToken (uuidString user.ID) tokenTTL) fun r =>
      match r with
      | .error err => .ret ("", some (Wrap "service.user.Login" err))
      | .ok token => .ret (token, none)

/-- Whether an operation is a call of `NewToken`. -/
def Op.isNewToken : Op → Bool
  | .newToken _ _ => true
  | _ => false

/-- A world in which the repository, the comparison of the password with its
hash and the token manager each answer a fixed result. -/
def fixedWorld (user : Except Error User) (cmp : Option Error) (token : Except Error String) :
    (o : Op) → Unit → Res o × Unit
  | .getUserByEmail _, s => (user, s)
  | .compareHashAndPassword _ _, s => (cmp, s)
  | .newToken _ _, s => (token, s)

/-- The error `bcrypt.ErrMismatchedHashAndPassword` of the library. -/
def ErrMismatchedHashAndPassword : Error :=
  .new "bcrypt.ErrMismatchedHashAndPassword"
    "crypto/bcrypt: hashedPassword is not the hash of the given password"

/-- The credentials of the worked examples. -/
def exCreds : LoginUser := { Email := "ann@example.com", Password := "123456" }

end userservice

namespace rest

open reminder errors

/-! ## The handler of `GET /event` (internal/event/rest/rest.go) -/

/-- What `EventHandler.GetEvents` reads of the `gin.Context`: the query
parameters `period` and `date` (the empty string when absent) and the value the
authentication middleware stored under the key `user_id`, if any. -/
structure Request where
  period : String
  date : String
  user_id : Option String
  deriving DecidableEq, Repr

/-- The body written by `c.JSON`: an `ErrorResponse` of the package `response`,
or the events. -/
inductive Body where
  | error (code message : String)
  | events (resp : dto.GetEventsResponse)
  deriving DecidableEq, Repr

/-- The answer written by `c.JSON(status, body)`. -/
structure Response where
  status : Nat
  body : Body
  deriving DecidableEq, Repr

/-- The function `response.BadRequest`. -/
def BadRequest (message : String) : Response :=
  { status := 400, body := .error "BAD_REQUEST" message }

/-- The function `response.Unauthorized`. -/
def Unauthorized (message : String) : Response :=
  { status := 401, body := .error "UNAUTHORIZED" message }

/-- The function `response.InternalServerError`. -/
def InternalServerError : Response :=
  { status := 500, body := .error "INTERNAL_ERROR" "internal server error, try again later" }

/-- The operations of `GetEvents` on the outside world: the three methods of the
interface `Event` it can call, and the log entries (which keep their message). -/
inductive Op where
  /-- The call `h.event.GetEventsForDay(ctx, userID, date)`. -/
  | getEventsForDay (userID : UUID) (date : Time)
  /-- The call `h.event.GetEventsForWeek(ctx, userID, date)`. -/
  | getEventsForWeek (userID : UUID) (date : Time)
  /-- The call `h.event.GetEventsForMonth(ctx, userID, date)`. -/
  | getEventsForMonth (userID : UUID) (date : Time)
  /-- A log entry at level error. -/
  | logError (msg : String)
  /-- A log entry at level warn. -/
  | logWarn (msg : String)
  deriving DecidableEq, Repr

/-- The result type of each operation of the handler: a method of the service
returns a response and an error. -/
@[reducible] def Res : Op → Type
  | .getEventsForDay _ _ => dto.GetEventsResponse × Option Error
  | .getEventsForWeek _ _ => dto.GetEventsResponse × Option Error
  | .getEventsForMonth _ _ => dto.GetEventsResponse × Option Error
  | .logError _ => Unit
  | .logWarn _ => Unit

/-- Whether an operation is a call of the service. -/
def Op.isService : Op → Bool
  | .getEventsForDay _ _ => true
  | .getEventsForWeek _ _ => true
  | .getEventsForMonth _ _ => true
  | _ => false

/-- The method `EventHandler.getUserData` (rest.go, lines 178-194): the user
identifier, or the answer written when there is none. The function `uuid.Parse`
of the library is a parameter. -/
def getUserData (Parse : String → Except Error UUID) (req : Request) :
    Proc Op Res (Except Response UUID) :=
  match req.user_id with
  | none =>
    .op (.logError "failed to get user_id from ctx") fun _ =>
    .ret (.error (Unauthorized "missing user_id in token"))
  | some userID =>
    match Parse userID with
    | .error _ =>
      .op (.logWarn "failed to parse user id into uuid") fun _ =>
      .ret (.error (Unauthorized "user_id must be uuid format"))
    | .ok userUUID => .ret (.ok userUUID)

/-- Lines 103-114 of `GetEvents`: what follows the call of the service. -/
def respond (r : dto.GetEventsResponse × Option Error) : Proc Op Res Response :=
  match r.2 with
  | some _ => .op (.logError "failed to update event") fun _ => .ret InternalServerError
  | none => .ret { status := 200, body := .events r.1 }

/-- The `switch` of `GetEvents` (lines 91-102), on the period in lower case. -/
def dispatch (lower : String) (userID : UUID) (date : Time) : Proc Op Res Response :=
  if lower = "day" then .op (.getEventsForDay userID date) respond
  else if lower = "week" then .op (.getEventsForWeek userID date) respond
  else if lower = "month" then .op (.getEventsForMonth userID date) respond
  else
    .ret (BadRequest
      "unexpected query param \x27period\x27: must be \x27day\x27, \x27week\x27 or \x27month\x27")

/-- The method `EventHandler.GetEvents` (rest.go, lines 70-115). The functions
`strings.ToLower`, `time.Parse(time.DateOnly, ·)` and `uuid.Parse` of the
libraries are parameters. -/
def GetEvents (ToLower : String → String) (ParseDate : String → Except Error Time)
    (Parse : String → Except Error UUID) (req : Request) : Proc Op Res Response :=
  if req.period = "" then
    .ret (BadRequest
      "empty query param \x27period\x27: must be \x27day\x27, \x27week\x27 or \x27month\x27")
  else
    match ParseDate req.date with
    | .error _ =>
      .ret (BadRequest "invalid query param \x27date\x27 format, must be YYYY-MM-DD")
    | .ok date =>
      (getUserData Parse req).bind fun r =>
      match r with
      | .error resp => .ret resp
      | .ok userID => dispatch (ToLower req.period) userID date

/-- A service that answers the three queries with a fixed result. -/
def fixedService (r : dto.GetEventsResponse × Option Error) : (o : Op) → Unit → Res o × Unit
  | .getEventsForDay _ _, s => (r, s)
  | .getEventsForWeek _ _, s => (r, s)
  | .getEventsForMonth _ _, s => (r, s)
  | .logError _, s => ((), s)
  | .logWarn _, s => ((), s)

/-- A parser of dates for the worked examples: it knows one date. -/
def exParseDate (text : String) : Except Error Time :=
  if text = "2025-01-01" then .ok 1735689600 else .error (.new "time.ParseError" text)

/-- A parser of identifiers for the worked examples: it knows one identifier. -/
def exParse (text : String) : Except Error UUID :=
  if text = "3" then .ok 3 else .error (.new "uuid.Parse" text)

/-- The function `strings.ToLower` on texts of ASCII letters, for the worked
examples. -/
def asciiLower (text : String) : String := String.mk (text.data.map Char.toLower)

/-- A request for the events of a week, the period in upper case. -/
def exRequest : Request := { period := "WEEK", date := "2025-01-01", user_id := some "3" }

end rest

namespace janitor

open reminder

/-! ## The janitor in the process: the scheduler, `Stop`, and the reminder worker -/

/-- Whether a function body has run to its end. -/
def isRet {α : Type} : Proc Op Res α → Bool
  | .ret _ => true
  | .op _ _ => false

/-- The scheduler `cron.Cron` of the library robfig/cron with the one job of the
janitor, after `Worker.Start`, and the caller of `Worker.Stop`: whether the
scheduler is running, the goroutines it has started (one for each firing, with
what is left of the body of the job), and where the caller of `Stop` is. -/
structure Cron (σ : Type) where
  store : σ
  running : Bool
  jobs : List (Proc Op Res Unit)
  stop : StopState

/-- The steps the Go scheduler can choose from. -/
inductive CronStep where
  /-- The schedule of the job is due: the scheduler starts a goroutine that runs
  the job. It does so only while it is running. -/
  | fire
  /-- The goroutine of firing `j` performs its next operation. -/
  | job (j : Nat)
  /-- Lines 50-51 of `Worker.Stop`: the log entry and `ctx := w.cron.Stop()`, which
  stops the scheduler and returns a context that is done once the goroutines of
  all firings have returned. -/
  | stopCall
  /-- Line 52 of `Worker.Stop`: the caller gets past `<-ctx.Done()` and returns. -/
  | stopWait
  deriving DecidableEq, Repr

/-- The scheduler after `Worker.Start` (lines 43-47): the job is registered and
the scheduler is running. -/
def Cron.init {σ : Type} (store : σ) : Cron σ :=
  { store := store, running := true, jobs := [], stop := .idle }

/-- One step of the janitor; `none` when the step is not possible. The world
answers the operations of the job. -/
def Cron.step {σ : Type} (answer : (o : Op) → σ → Res o × σ) (s : Cron σ) :
    CronStep → Option (Cron σ)
  | .fire => if s.running then some { s with jobs := s.jobs ++ [job] } else none
  | .job j =>
    match s.jobs[j]? with
    | some (.op o k) =>
      some { s with store := (answer o s.store).2, jobs := s.jobs.set j (k (answer o s.store).1) }
    | _ => none
  | .stopCall =>
    if s.stop = .idle then some { s with running := false, stop := .waiting } else none
  | .stopWait =>
    if s.stop = .waiting ∧ s.jobs.all isRet = true then some { s with stop := .returned }
    else none

/-- Run a schedule of the janitor from a state. -/
def Cron.exec {σ : Type} (answer : (o : Op) → σ → Res o × σ) :
    Cron σ → List CronStep → Option (Cron σ)
  | s, [] => some s
  | s, l :: ls => (Cron.step answer s l).bind fun s1 => Cron.exec answer s1 ls

/-- What holds of the janitor in every state it can reach: once `Stop` has been
called the scheduler is not running, and once `Stop` has returned every firing
has run to its end. -/
def Cron.Inv {σ : Type} (s : Cron σ) : Prop :=
  (s.stop ≠ .idle → s.running = false) ∧
  (s.stop = .returned → ∀ p ∈ s.jobs, isRet p = true)

/-- A shutdown during a firing: the job is started and has logged and read the
clock when `Stop` is called; it then calls `ArchiveOldEvents` and runs to its
end, and `Stop` returns. -/
def schedStop : List CronStep :=
  [.fire, .job 0, .job 0, .stopCall, .job 0, .job 0, .stopWait]

/-- The state after `schedStop`. -/
def stateStop : Cron Unit :=
  { store := (), running := false, jobs := [.ret ()], stop := .returned }

/-- Whether the goroutine of a firing is at its call of `ArchiveOldEvents`. -/
def atArchive : Proc Op Res Unit → Bool
  | .op (.archiveOldEvents _) _ => true
  | _ => false

/-- One firing up to its call of `ArchiveOldEvents`: the job is started, logs and
reads the clock. -/
def schedFiring : List CronStep := [.fire, .job 0, .job 0]

/-- A second firing, started while the first is at its call of
`ArchiveOldEvents`, up to its own call. -/
def schedSecond : List CronStep := [.fire, .job 1, .job 1]

/-- The process as far as the janitor and the reminder worker go: the tables of
the database and the reminder worker. -/
structure World (σ : Type) where
  tables : repo.Tables
  worker : Sys σ

/-- The process answering the operations of the job: `ArchiveOldEvents` is the
method of the repository, run on the tables with the errors `f` of the
database, `today` being the current date; the clock is that of the process;
the log entries and `cancel` change nothing. -/
def World.answer {σ : Type} (Wrap : String → Err → Err) (f : repo.Faults) (today : Time) :
    (o : Op) → World σ → Res o × World σ
  | .print _, w => ((), w)
  | .now, w => (w.worker.clock, w)
  | .archiveOldEvents _, w =>
    ((repo.sweep Wrap f today w.worker.clock w.tables).1,
     { w with tables := (repo.sweep Wrap f today w.worker.clock w.tables).2.1.committed })
  | .logError _ _, w => ((), w)
  | .cancel _, w => ((), w)

/-- A live row with a reminder that is due and has not been sent. -/
def pendingRow : Event :=
  { ID := 9, UserID := 3, Date := 2000, Description := "dentist", Sent := false,
    RemindAt := some 1400, CreatedAt := 0, UpdatedAt := 0 }

/-- A process whose store holds a reminder that is due, the clock being at 1500,
and whose reminder worker has just been started. -/
def exWorld : World Unit :=
  { tables := { events := [pendingRow], events_archive := [] },
    worker := Sys.init () 100 1500 }

end janitor

namespace app

open reminder

/-! ## The shutdown of the process (cmd/app/main.go) -/

/-- The operations of the end of `main` on the outside world. -/
inductive Op where
  /-- The receive `<-ctx.Done()`: the process got `SIGTERM` or `SIGINT`. -/
  | waitCtxDone
  /-- The call `time.Now()` made by `context.WithTimeout`. -/
  | now
  /-- The call `server.Shutdown(withTimeout)`. -/
  | serverShutdown (ctx : janitor.Ctx)
  /-- The log entry `log.Logger.Error().Err(err).Msg(msg)`. -/
  | logError (err : Err) (msg : String)
  /-- The call `DB.Close()`. -/
  | dbClose
  /-- The call `janitorWorker.Stop()`, to its return. -/
  | janitorStop
  /-- The call `reminderWorker.Stop()`, to its return. -/
  | reminderStop
  /-- The deferred `cancel()` of the context with a timeout. -/
  | cancelTimeout (ctx : janitor.Ctx)
  /-- The deferred `cancel()` of the context of the signals. -/
  | cancelSignal
  /-- The deferred `asyncLog.Stop()`. -/
  | asyncLogStop
  deriving DecidableEq, Repr

/-- The result type of each operation of the shutdown. -/
@[reducible] def Res : Op → Type
  | .now => Time
  | .serverShutdown _ => Option Err
  | _ => Unit

/-- Lines 103-108 of `main`, and the deferred calls in the order in which they
run. -/
def release (withTimeout : janitor.Ctx) : Proc Op Res Unit :=
  .op .dbClose fun _ =>
  .op .janitorStop fun _ =>
  .op .reminderStop fun _ =>
  .op (.cancelTimeout withTimeout) fun _ =>
  .op .cancelSignal fun _ =>
  .op .asyncLogStop fun _ => .ret ()

/-- Lines 93-108 of `main`: the graceful shutdown. -/
def shutdown : Proc Op Res Unit :=
  .op .waitCtxDone fun _ =>
  .op .now fun t =>
  let withTimeout : janitor.Ctx := { deadline := t + 3 * janitor.second }
  .op (.serverShutdown withTimeout) fun r =>
  match r with
  | some err => .op (.logError err "server shutdown failed") fun _ => release withTimeout
  | none => release withTimeout

/-- A world in which the clock reads `clock` and the server shuts down with the
result `r`. -/
def fixedEnv (clock : Time) (r : Option Err) : (o : Op) → Unit → Res o × Unit
  | .waitCtxDone, s => ((), s)
  | .now, s => (clock, s)
  | .serverShutdown _, s => (r, s)
  | .logError _ _, s => ((), s)
  | .dbClose, s => ((), s)
  | .janitorStop, s => ((), s)
  | .reminderStop, s => ((), s)
  | .cancelTimeout _, s => ((), s)
  | .cancelSignal, s => ((), s)
  | .asyncLogStop, s => ((), s)

end app

namespace reminder

/-! ## Sequential execution: general facts -/

@[simp] theorem Prog.trace_ret {σ α : Type} (env : Env σ) (a : α) (s : σ) :
    (Prog.ret a).trace env s = [] := rfl

@[simp] theorem Prog.trace_op {σ α : Type} (env : Env σ) (o : Op)
    (k : Res o → Prog α) (s : σ) :
    (Prog.op o k).trace env s =
      ⟨o, (env.answer o s).1⟩ :: (k (env.answer o s).1).trace env (env.answer o s).2 := rfl

/-- The saturated difference is positive exactly when the instant is later. -/
theorem Sub_pos_iff (t u : Time) : 0 < Sub t u ↔ u < t := by
  have h63 : (2 : Int) ^ 63 = 9223372036854775808 := by norm_num
  simp only [Sub, minDuration, maxDuration, Duration, Time, h63]
  split_ifs <;> omega

/-- The five ways lines 91-116 of `handleTask` can go. -/
theorem lookupAndSend_trace_cases {σ : Type} (env : Env σ) (task : Task) (s : σ) :
    (∃ e, (lookupAndSend task).trace env s =
        [⟨.log .info "Sending reminder...", ()⟩,
         ⟨.getUserByID task.UserID, .error e⟩,
         ⟨.log .error "failed to get user by id", ()⟩]) ∨
    (∃ u e, (lookupAndSend task).trace env s =
        [⟨.log .info "Sending reminder...", ()⟩,
         ⟨.getUserByID task.UserID, .ok u⟩,
         ⟨.getEventByID task.EventID, .error e⟩,
         ⟨.log .error "failed to get event by id", ()⟩]) ∨
    (∃ u ev e, (lookupAndSend task).trace env s =
        [⟨.log .info "Sending reminder...", ()⟩,
         ⟨.getUserByID task.UserID, .ok u⟩,
         ⟨.getEventByID task.EventID, .ok ev⟩,
         ⟨.send "Event reminder" (reminderMessage ev.Description) u.Email, some e⟩,
         ⟨.log .error "failed to send reminder", ()⟩]) ∨
    (∃ u ev e, (lookupAndSend task).trace env s =
        [⟨.log .info "Sending reminder...", ()⟩,
         ⟨.getUserByID task.UserID, .ok u⟩,
         ⟨.getEventByID task.EventID, .ok ev⟩,
         ⟨.send "Event reminder" (reminderMessage ev.Description) u.Email, none⟩,
         ⟨.markReminderSent task.EventID, some e⟩,
         ⟨.log .error "failed to mark reminder sent", ()⟩]) ∨
    (∃ u ev, (lookupAndSend task).trace env s =
        [⟨.log .info "Sending reminder...", ()⟩,
         ⟨.getUserByID task.UserID, .ok u⟩,
         ⟨.getEventByID task.EventID, .ok ev⟩,
         ⟨.send "Event reminder" (reminderMessage ev.Description) u.Email, none⟩,
         ⟨.markReminderSent task.EventID, none⟩]) := by
  simp only [lookupAndSend, Prog.trace_op]
  generalize (env.answer (.log .info "Sending reminder...") s).2 = s1
  rcases hu : env.answer (.getUserByID task.UserID) s1 with ⟨ru, s2⟩
  cases ru with
  | error e => left; exact ⟨e, by simp⟩
  | ok u =>
    right
    rcases hev : env.answer (.getEventByID task.EventID) s2 with ⟨rev, s3⟩
    cases rev with
    | error e => left; exact ⟨u, e, by simp [hev]⟩
    | ok ev =>
      right
      rcases hs : env.answer
        (.send "Event reminder" (reminderMessage ev.Description) u.Email) s3 with ⟨rs, s4⟩
      cases rs with
      | some e => left; exact ⟨u, ev, e, by simp [hev, hs]⟩
      | none =>
        right
        rcases hm : env.answer (.markReminderSent task.EventID) s4 with ⟨rm, s5⟩
        cases rm with
        | some e => left; exact ⟨u, ev, e, by simp [hev, hs, hm]⟩
        | none => right; exact ⟨u, ev, by simp [hev, hs, hm]⟩

/-- The three ways lines 73-89 of `handleTask` can go: no wait, a wait that runs
to its end, a wait cut short by the cancellation of the context. -/
theorem handleTask_trace_cases {σ : Type} (env : Env σ) (task : Task) (s : σ) :
    ∃ t1 s1,
      (¬ 0 < timeUntil task.RemindAt (env.answer .now s).1 ∧
        (handleTask task).trace env s =
          ⟨.now, (env.answer .now s).1⟩ :: ⟨.now, t1⟩ ::
          ⟨.log .info "Sending reminder...", ()⟩ ::
          (lookupAndSend task).trace env s1) ∨
      (0 < timeUntil task.RemindAt (env.answer .now s).1 ∧ ∃ tm,
        (handleTask task).trace env s =
          ⟨.now, (env.answer .now s).1⟩ :: ⟨.now, t1⟩ ::
          ⟨.log .info "Sending reminder...", ()⟩ ::
          ⟨.after (timeUntil task.RemindAt (env.answer .now s).1), tm⟩ ::
          ⟨.select tm, .timer⟩ ::
          (lookupAndSend task).trace env s1) ∨
      (0 < timeUntil task.RemindAt (env.answer .now s).1 ∧ ∃ tm,
        (handleTask task).trace env s =
          [⟨.now, (env.answer .now s).1⟩, ⟨.now, t1⟩,
           ⟨.log .info "Sending reminder...", ()⟩,
           ⟨.after (timeUntil task.RemindAt (env.answer .now s).1), tm⟩,
           ⟨.select tm, .ctxDone⟩]) := by
  simp only [handleTask, Prog.trace_op]
  generalize (env.answer .now s).1 = t0
  generalize (env.answer .now s).2 = sa
  generalize (env.answer .now sa).1 = t1
  generalize (env.answer .now sa).2 = sb
  generalize (env.answer (.log .info "Sending reminder...") sb).2 = sc
  by_cases hd : 0 < timeUntil task.RemindAt t0
  · simp only [hd, if_true]
    simp only [Prog.trace_op]
    generalize (env.answer (.after (timeUntil task.RemindAt t0)) sc).1 = tm
    generalize (env.answer (.after (timeUntil task.RemindAt t0)) sc).2 = sd
    rcases hsel : env.answer (.select tm) sd with ⟨r, se⟩
    cases r with
    | timer => exact ⟨t1, se, Or.inr (Or.inl ⟨trivial, tm, by simp [afterSelect]⟩)⟩
    | ctxDone => exact ⟨t1, se, Or.inr (Or.inr ⟨trivial, tm, by simp [afterSelect]⟩)⟩
  · simp only [hd, if_false]
    exact ⟨t1, sc, Or.inl ⟨not_false, rfl⟩⟩

/-! ## The handler, one task at a time (C1-C6, C10) -/

/-- C1: in a run of `handleTask` in which the wait is not cut short and the two
lookups and the send succeed, the collaborator calls are exactly
`GetUserByID(task.UserID)`, `GetEventByID(task.EventID)`,
`Send("Event reminder", message, fetched user's e-mail)` where the message is
`Event "<Description of the fetched event>" is coming up soon. 🔔`, and
`MarkReminderSent(task.EventID)`, in this order. -/
theorem handleTask_calls_on_success {σ : Type} (env : Env σ) (task : Task) (s : σ)
    (hwait : ∀ tm, (⟨.select tm, .ctxDone⟩ : Call) ∉ (handleTask task).trace env s)
    (huser : ∀ id e, (⟨.getUserByID id, .error e⟩ : Call) ∉ (handleTask task).trace env s)
    (hevent : ∀ id e, (⟨.getEventByID id, .error e⟩ : Call) ∉ (handleTask task).trace env s)
    (hsend : ∀ sub msg rcpt e,
      (⟨.send sub msg rcpt, some e⟩ : Call) ∉ (handleTask task).trace env s) :
    ∃ user event,
      (⟨.getUserByID task.UserID, .ok user⟩ : Call) ∈ (handleTask task).trace env s ∧
      (⟨.getEventByID task.EventID, .ok event⟩ : Call) ∈ (handleTask task).trace env s ∧
      collabCalls ((handleTask task).trace env s) =
        [.getUserByID task.UserID, .getEventByID task.EventID,
         .send "Event reminder" ("Event \"" ++ event.Description ++ "\" is coming up soon. 🔔")
           user.Email,
         .markReminderSent task.EventID] := by
  obtain ⟨t1, s1, h⟩ := handleTask_trace_cases env task s
  have hl := lookupAndSend_trace_cases env task s1
  rcases h with ⟨_, h⟩ | ⟨_, tm, h⟩ | ⟨_, tm, h⟩
  · rw [h] at hwait huser hevent hsend ⊢
    rcases hl with ⟨e, hl⟩ | ⟨u, e, hl⟩ | ⟨u, ev, e, hl⟩ | ⟨u, ev, e, hl⟩ | ⟨u, ev, hl⟩ <;>
      rw [hl] at hwait huser hevent hsend ⊢
    · exact absurd (by simp) (huser task.UserID e)
    · exact absurd (by simp) (hevent task.EventID e)
    · exact absurd (by simp) (hsend "Event reminder" (reminderMessage ev.Description) u.Email e)
    · exact ⟨u, ev, by simp, by simp, by simp [collabCalls, Op.isCollab, reminderMessage]⟩
    · exact ⟨u, ev, by simp, by simp, by simp [collabCalls, Op.isCollab, reminderMessage]⟩
  · rw [h] at hwait huser hevent hsend ⊢
    rcases hl with ⟨e, hl⟩ | ⟨u, e, hl⟩ | ⟨u, ev, e, hl⟩ | ⟨u, ev, e, hl⟩ | ⟨u, ev, hl⟩ <;>
      rw [hl] at hwait huser hevent hsend ⊢
    · exact absurd (by simp) (huser task.UserID e)
    · exact absurd (by simp) (hevent task.EventID e)
    · exact absurd (by simp) (hsend "Event reminder" (reminderMessage ev.Description) u.Email e)
    · exact ⟨u, ev, by simp, by simp, by simp [collabCalls, Op.isCollab, reminderMessage]⟩
    · exact ⟨u, ev, by simp, by simp, by simp [collabCalls, Op.isCollab, reminderMessage]⟩
  · rw [h] at hwait
    exact absurd (by simp) (hwait tm)

/-- The run of the worked example in which everything succeeds. -/
theorem exScript_trace :
    (handleTask exTask).trace exScript.env () =
      [⟨.now, (0 : Int)⟩, ⟨.now, (0 : Int)⟩, ⟨.log .info "Sending reminder...", ()⟩,
       ⟨.after 100, ⟨100⟩⟩, ⟨.select ⟨100⟩, .timer⟩,
       ⟨.log .info "Sending reminder...", ()⟩,
       ⟨.getUserByID 3, .ok exUser⟩, ⟨.getEventByID 7, .ok exEvent⟩,
       ⟨.send "Event reminder" (reminderMessage "standup") "ann@example.com", none⟩,
       ⟨.markReminderSent 7, none⟩] := rfl

/-- The run of the worked example in which the owner lookup fails. -/
theorem exUserFails_trace :
    (handleTask exTask).trace exUserFails.env () =
      [⟨.now, (0 : Int)⟩, ⟨.now, (0 : Int)⟩, ⟨.log .info "Sending reminder...", ()⟩,
       ⟨.after 100, ⟨100⟩⟩, ⟨.select ⟨100⟩, .timer⟩,
       ⟨.log .info "Sending reminder...", ()⟩,
       ⟨.getUserByID 3, .error "no rows"⟩,
       ⟨.log .error "failed to get user by id", ()⟩] := rfl

/-- The run of the worked example in which the subject lookup fails. -/
theorem exEventFails_trace :
    (handleTask exTask).trace exEventFails.env () =
      [⟨.now, (0 : Int)⟩, ⟨.now, (0 : Int)⟩, ⟨.log .info "Sending reminder...", ()⟩,
       ⟨.after 100, ⟨100⟩⟩, ⟨.select ⟨100⟩, .timer⟩,
       ⟨.log .info "Sending reminder...", ()⟩,
       ⟨.getUserByID 3, .ok exUser⟩,
       ⟨.getEventByID 7, .error "no rows"⟩,
       ⟨.log .error "failed to get event by id", ()⟩] := rfl

/-- Witness of C1: the worked example in which everything succeeds; the message
of the reminder for the event "standup" is written out. -/
theorem handleTask_calls_on_success_witness :
    (∃ user event,
      (⟨.getUserByID exTask.UserID, .ok user⟩ : Call) ∈
        (handleTask exTask).trace exScript.env () ∧
      (⟨.getEventByID exTask.EventID, .ok event⟩ : Call) ∈
        (handleTask exTask).trace exScript.env () ∧
      collabCalls ((handleTask exTask).trace exScript.env ()) =
        [.getUserByID exTask.UserID, .getEventByID exTask.EventID,
         .send "Event reminder" ("Event \"" ++ event.Description ++ "\" is coming up soon. 🔔")
           user.Email,
         .markReminderSent exTask.EventID]) ∧
    collabCalls ((handleTask exTask).trace exScript.env ()) =
      [.getUserByID 3, .getEventByID 7,
       .send "Event reminder" "Event \"standup\" is coming up soon. 🔔" "ann@example.com",
       .markReminderSent 7] :=
  ⟨handleTask_calls_on_success exScript.env exTask ()
    (by intro tm; rw [exScript_trace]; simp)
    (by intro id e; rw [exScript_trace]; simp)
    (by intro id e; rw [exScript_trace]; simp)
    (by intro sub msg rcpt e; rw [exScript_trace]; simp), by decide⟩

/-- A run of `handleTask` in which the `select` takes the case `<-ctx.Done()`
makes no collaborator call, ends with that `select`, and started before the due
instant. -/
theorem handleTask_trace_cancelled {σ : Type} (env : Env σ) (task : Task) (s : σ)
    (tm : Timer)
    (hcancel : (⟨.select tm, .ctxDone⟩ : Call) ∈ (handleTask task).trace env s) :
    (∃ t1 d, (handleTask task).trace env s =
      [⟨.now, (env.answer .now s).1⟩, ⟨.now, t1⟩, ⟨.log .info "Sending reminder...", ()⟩,
       ⟨.after d, tm⟩] ++ [⟨.select tm, .ctxDone⟩]) ∧
    (env.answer .now s).1 < task.RemindAt := by
  obtain ⟨t1, s1, h⟩ := handleTask_trace_cases env task s
  have hl := lookupAndSend_trace_cases env task s1
  rcases h with ⟨_, h⟩ | ⟨_, tm1, h⟩ | ⟨hd, tm1, h⟩
  · rw [h] at hcancel
    rcases hl with ⟨e, hl⟩ | ⟨u, e, hl⟩ | ⟨u, ev, e, hl⟩ | ⟨u, ev, e, hl⟩ | ⟨u, ev, hl⟩ <;>
      rw [hl] at hcancel <;> simp at hcancel
  · rw [h] at hcancel
    rcases hl with ⟨e, hl⟩ | ⟨u, e, hl⟩ | ⟨u, ev, e, hl⟩ | ⟨u, ev, e, hl⟩ | ⟨u, ev, hl⟩ <;>
      rw [hl] at hcancel <;> simp at hcancel
  · rw [h] at hcancel ⊢
    have htm : tm = tm1 := by simpa using hcancel
    subst htm
    exact ⟨⟨t1, _, rfl⟩, (Sub_pos_iff _ _).1 hd⟩

/-- C3: when `GetUserByID` returns an error, `handleTask` logs it and returns:
the only collaborator call of the run is that one `GetUserByID(task.UserID)`;
there is no `GetEventByID`, no `Send`, no `MarkReminderSent`. -/
theorem handleTask_user_lookup_fails {σ : Type} (env : Env σ) (task : Task) (s : σ)
    (id : UUID) (e : Err)
    (hfail : (⟨.getUserByID id, .error e⟩ : Call) ∈ (handleTask task).trace env s) :
    collabCalls ((handleTask task).trace env s) = [.getUserByID task.UserID] ∧
    ((handleTask task).trace env s).getLast? =
      some ⟨.log .error "failed to get user by id", ()⟩ := by
  obtain ⟨t1, s1, h⟩ := handleTask_trace_cases env task s
  have hl := lookupAndSend_trace_cases env task s1
  rcases h with ⟨_, h⟩ | ⟨_, tm1, h⟩ | ⟨hd, tm1, h⟩
  · rw [h] at hfail ⊢
    rcases hl with ⟨e, hl⟩ | ⟨u, e, hl⟩ | ⟨u, ev, e, hl⟩ | ⟨u, ev, e, hl⟩ | ⟨u, ev, hl⟩ <;>
      rw [hl] at hfail ⊢ <;> simp [collabCalls, Op.isCollab] at hfail ⊢
  · rw [h] at hfail ⊢
    rcases hl with ⟨e, hl⟩ | ⟨u, e, hl⟩ | ⟨u, ev, e, hl⟩ | ⟨u, ev, e, hl⟩ | ⟨u, ev, hl⟩ <;>
      rw [hl] at hfail ⊢ <;> simp [collabCalls, Op.isCollab] at hfail ⊢
  · rw [h] at hfail
    simp at hfail

/-- Witness of C3: the worked example with a failing owner lookup. -/
theorem handleTask_user_lookup_fails_witness :
    collabCalls ((handleTask exTask).trace exUserFails.env ()) =
      [.getUserByID exTask.UserID] ∧
    ((handleTask exTask).trace exUserFails.env ()).getLast? =
      some ⟨.log .error "failed to get user by id", ()⟩ :=
  handleTask_user_lookup_fails exUserFails.env exTask ()
    3 "no rows" (by rw [exUserFails_trace]; simp)

/-- C4: when `GetUserByID` succeeds and `GetEventByID` returns an error,
`handleTask` logs it and returns: the collaborator calls of the run are
`GetUserByID(task.UserID)` and `GetEventByID(task.EventID)` and nothing else, so
there is no `Send` and no `MarkReminderSent`. -/
theorem handleTask_event_lookup_fails {σ : Type} (env : Env σ) (task : Task) (s : σ)
    (uid : UUID) (user : User) (id : UUID) (e : Err)
    (huser : (⟨.getUserByID uid, .ok user⟩ : Call) ∈ (handleTask task).trace env s)
    (hfail : (⟨.getEventByID id, .error e⟩ : Call) ∈ (handleTask task).trace env s) :
    uid = task.UserID ∧
    collabCalls ((handleTask task).trace env s) =
      [.getUserByID task.UserID, .getEventByID task.EventID] ∧
    ((handleTask task).trace env s).getLast? =
      some ⟨.log .error "failed to get event by id", ()⟩ := by
  obtain ⟨t1, s1, h⟩ := handleTask_trace_cases env task s
  have hl := lookupAndSend_trace_cases env task s1
  rcases h with ⟨_, h⟩ | ⟨_, tm1, h⟩ | ⟨hd, tm1, h⟩
  · rw [h] at hfail huser ⊢
    rcases hl with ⟨e, hl⟩ | ⟨u, e, hl⟩ | ⟨u, ev, e, hl⟩ | ⟨u, ev, e, hl⟩ | ⟨u, ev, hl⟩ <;>
      rw [hl] at hfail huser ⊢ <;> simp [collabCalls, Op.isCollab] at hfail huser ⊢
    exact huser.1
  · rw [h] at hfail huser ⊢
    rcases hl with ⟨e, hl⟩ | ⟨u, e, hl⟩ | ⟨u, ev, e, hl⟩ | ⟨u, ev, e, hl⟩ | ⟨u, ev, hl⟩ <;>
      rw [hl] at hfail huser ⊢ <;> simp [collabCalls, Op.isCollab] at hfail huser ⊢
    exact huser.1
  · rw [h] at hfail
    simp at hfail

/-- Witness of C4: the worked example with a failing subject lookup. -/
theorem handleTask_event_lookup_fails_witness :
    (3 : UUID) = exTask.UserID ∧
    collabCalls ((handleTask exTask).trace exEventFails.env ()) =
      [.getUserByID exTask.UserID, .getEventByID exTask.EventID] ∧
    ((handleTask exTask).trace exEventFails.env ()).getLast? =
      some ⟨.log .error "failed to get event by id", ()⟩ :=
  handleTask_event_lookup_fails exEventFails.env exTask ()
    3 exUser 7 "no rows" (by rw [exEventFails_trace]; simp) (by rw [exEventFails_trace]; simp)

/-- The run of the worked example in which sending fails. -/
theorem exSendFails_trace :
    (handleTask exTask).trace exSendFails.env () =
      [⟨.now, (0 : Int)⟩, ⟨.now, (0 : Int)⟩, ⟨.log .info "Sending reminder...", ()⟩,
       ⟨.after 100, ⟨100⟩⟩, ⟨.select ⟨100⟩, .timer⟩,
       ⟨.log .info "Sending reminder...", ()⟩,
       ⟨.getUserByID 3, .ok exUser⟩, ⟨.getEventByID 7, .ok exEvent⟩,
       ⟨.send "Event reminder" (reminderMessage "standup") "ann@example.com",
         some "smtp down"⟩,
       ⟨.log .error "failed to send reminder", ()⟩] := rfl

/-- The run of the worked example in which marking fails. -/
theorem exMarkFails_trace :
    (handleTask exTask).trace exMarkFails.env () =
      [⟨.now, (0 : Int)⟩, ⟨.now, (0 : Int)⟩, ⟨.log .info "Sending reminder...", ()⟩,
       ⟨.after 100, ⟨100⟩⟩, ⟨.select ⟨100⟩, .timer⟩,
       ⟨.log .info "Sending reminder...", ()⟩,
       ⟨.getUserByID 3, .ok exUser⟩, ⟨.getEventByID 7, .ok exEvent⟩,
       ⟨.send "Event reminder" (reminderMessage "standup") "ann@example.com", none⟩,
       ⟨.markReminderSent 7, some "db down"⟩,
       ⟨.log .error "failed to mark reminder sent", ()⟩] := rfl

/-- The run of the worked example in which the task is already due. -/
theorem exLate_trace :
    (handleTask exTask).trace exLate.env () =
      [⟨.now, (200 : Int)⟩, ⟨.now, (200 : Int)⟩, ⟨.log .info "Sending reminder...", ()⟩,
       ⟨.log .info "Sending reminder...", ()⟩,
       ⟨.getUserByID 3, .ok exUser⟩, ⟨.getEventByID 7, .ok exEvent⟩,
       ⟨.send "Event reminder" (reminderMessage "standup") "ann@example.com", none⟩,
       ⟨.markReminderSent 7, none⟩] := rfl

/-- C5: when `Send` returns an error, the run of `handleTask` has made exactly
one `Send`, after the two lookups, makes no `MarkReminderSent`, never sends the
task to the intake channel again, and ends with the log entry. And in every run,
a call of `MarkReminderSent` comes after a `Send` that returned nil. -/
theorem handleTask_send_fails {σ : Type} (env : Env σ) (task : Task) (s : σ) :
    (∀ sub msg rcpt e,
      (⟨.send sub msg rcpt, some e⟩ : Call) ∈ (handleTask task).trace env s →
        collabCalls ((handleTask task).trace env s) =
          [.getUserByID task.UserID, .getEventByID task.EventID, .send sub msg rcpt] ∧
        (∀ t, Op.submit t ∉ ops ((handleTask task).trace env s)) ∧
        ((handleTask task).trace env s).getLast? =
          some ⟨.log .error "failed to send reminder", ()⟩) ∧
    (∀ id, Op.markReminderSent id ∈ ops ((handleTask task).trace env s) →
      ∃ pre post sub msg rcpt r,
        (handleTask task).trace env s =
          pre ++ (⟨.send sub msg rcpt, none⟩ : Call) :: ⟨.markReminderSent id, r⟩ :: post ∧
        (∀ id1, Op.markReminderSent id1 ∉ ops pre) ∧
        (∀ id1, Op.markReminderSent id1 ∉ ops post)) := by
  obtain ⟨t1, s1, h⟩ := handleTask_trace_cases env task s
  have hl := lookupAndSend_trace_cases env task s1
  constructor
  · intro sub msg rcpt e hfail
    rcases h with ⟨_, h⟩ | ⟨_, tm1, h⟩ | ⟨hd, tm1, h⟩
    · rw [h] at hfail ⊢
      rcases hl with ⟨e, hl⟩ | ⟨u, e, hl⟩ | ⟨u, ev, e, hl⟩ | ⟨u, ev, e, hl⟩ | ⟨u, ev, hl⟩ <;>
        rw [hl] at hfail ⊢ <;> simp [collabCalls, Op.isCollab, ops] at hfail ⊢
      exact ⟨hfail.1.1.symm, hfail.1.2.1.symm, hfail.1.2.2.symm⟩
    · rw [h] at hfail ⊢
      rcases hl with ⟨e, hl⟩ | ⟨u, e, hl⟩ | ⟨u, ev, e, hl⟩ | ⟨u, ev, e, hl⟩ | ⟨u, ev, hl⟩ <;>
        rw [hl] at hfail ⊢ <;> simp [collabCalls, Op.isCollab, ops] at hfail ⊢
      exact ⟨hfail.1.1.symm, hfail.1.2.1.symm, hfail.1.2.2.symm⟩
    · rw [h] at hfail
      simp at hfail
  · intro id hmark
    rcases h with ⟨_, h⟩ | ⟨_, tm1, h⟩ | ⟨hd, tm1, h⟩
    · rw [h] at hmark ⊢
      rcases hl with ⟨e, hl⟩ | ⟨u, e, hl⟩ | ⟨u, ev, e, hl⟩ | ⟨u, ev, e, hl⟩ | ⟨u, ev, hl⟩ <;>
        rw [hl] at hmark ⊢ <;> simp [ops] at hmark
      · subst hmark
        exact ⟨_ :: _ :: _ :: _ :: _ :: [_], [_], _, _, _, _, rfl, by simp [ops], by simp [ops]⟩
      · subst hmark
        exact ⟨_ :: _ :: _ :: _ :: _ :: [_], [], _, _, _, _, rfl, by simp [ops], by simp [ops]⟩
    · rw [h] at hmark ⊢
      rcases hl with ⟨e, hl⟩ | ⟨u, e, hl⟩ | ⟨u, ev, e, hl⟩ | ⟨u, ev, e, hl⟩ | ⟨u, ev, hl⟩ <;>
        rw [hl] at hmark ⊢ <;> simp [ops] at hmark
      · subst hmark
        exact ⟨_ :: _ :: _ :: _ :: _ :: _ :: _ :: [_], [_], _, _, _, _, rfl,
          by simp [ops], by simp [ops]⟩
      · subst hmark
        exact ⟨_ :: _ :: _ :: _ :: _ :: _ :: _ :: [_], [], _, _, _, _, rfl,
          by simp [ops], by simp [ops]⟩
    · rw [h] at hmark
      simp [ops] at hmark

/-- Witness of C5: the worked example with a failing send, and the one in which
everything succeeds. -/
theorem handleTask_send_fails_witness :
    (collabCalls ((handleTask exTask).trace exSendFails.env ()) =
        [.getUserByID exTask.UserID, .getEventByID exTask.EventID,
         .send "Event reminder" (reminderMessage "standup") "ann@example.com"] ∧
      (∀ t, Op.submit t ∉ ops ((handleTask exTask).trace exSendFails.env ())) ∧
      ((handleTask exTask).trace exSendFails.env ()).getLast? =
        some ⟨.log .error "failed to send reminder", ()⟩) ∧
    (∃ pre post sub msg rcpt r,
      (handleTask exTask).trace exScript.env () =
        pre ++ (⟨.send sub msg rcpt, none⟩ : Call) :: ⟨.markReminderSent 7, r⟩ :: post ∧
      (∀ id1, Op.markReminderSent id1 ∉ ops pre) ∧
      (∀ id1, Op.markReminderSent id1 ∉ ops post)) :=
  ⟨(handleTask_send_fails exSendFails.env exTask ()).1
      "Event reminder" (reminderMessage "standup") "ann@example.com" "smtp down"
      (by rw [exSendFails_trace]; simp),
   (handleTask_send_fails exScript.env exTask ()).2 7
      (by rw [exScript_trace]; simp [ops])⟩

/-- C6: whatever the collaborators answer, the collaborator calls of one run of
`handleTask` are an initial segment of `GetUserByID`, `GetEventByID`, `Send`,
`MarkReminderSent`, so that each is called at most once; and when
`MarkReminderSent` fails the run is these four calls, once each, followed by
the log entry and the return. -/
theorem handleTask_calls_initial_segment {σ : Type} (env : Env σ) (task : Task) (s : σ) :
    (∃ msg rcpt,
      collabCalls ((handleTask task).trace env s) <+:
        [.getUserByID task.UserID, .getEventByID task.EventID,
         .send "Event reminder" msg rcpt, .markReminderSent task.EventID]) ∧
    (∀ id e,
      (⟨.markReminderSent id, some e⟩ : Call) ∈ (handleTask task).trace env s →
        (∃ msg rcpt, collabCalls ((handleTask task).trace env s) =
          [.getUserByID task.UserID, .getEventByID task.EventID,
           .send "Event reminder" msg rcpt, .markReminderSent task.EventID]) ∧
        ((handleTask task).trace env s).getLast? =
          some ⟨.log .error "failed to mark reminder sent", ()⟩) := by
  obtain ⟨t1, s1, h⟩ := handleTask_trace_cases env task s
  have hl := lookupAndSend_trace_cases env task s1
  constructor
  · rcases h with ⟨_, h⟩ | ⟨_, tm1, h⟩ | ⟨hd, tm1, h⟩
    · rw [h]
      rcases hl with ⟨e, hl⟩ | ⟨u, e, hl⟩ | ⟨u, ev, e, hl⟩ | ⟨u, ev, e, hl⟩ | ⟨u, ev, hl⟩ <;>
        rw [hl]
      · exact ⟨"", "", [.getEventByID task.EventID, .send "Event reminder" "" "",
          .markReminderSent task.EventID], by simp [collabCalls, Op.isCollab]⟩
      · exact ⟨"", "", [.send "Event reminder" "" "", .markReminderSent task.EventID],
          by simp [collabCalls, Op.isCollab]⟩
      · exact ⟨reminderMessage ev.Description, u.Email, [.markReminderSent task.EventID],
          by simp [collabCalls, Op.isCollab]⟩
      · exact ⟨reminderMessage ev.Description, u.Email, [],
          by simp [collabCalls, Op.isCollab]⟩
      · exact ⟨reminderMessage ev.Description, u.Email, [],
          by simp [collabCalls, Op.isCollab]⟩
    · rw [h]
      rcases hl with ⟨e, hl⟩ | ⟨u, e, hl⟩ | ⟨u, ev, e, hl⟩ | ⟨u, ev, e, hl⟩ | ⟨u, ev, hl⟩ <;>
        rw [hl]
      · exact ⟨"", "", [.getEventByID task.EventID, .send "Event reminder" "" "",
          .markReminderSent task.EventID], by simp [collabCalls, Op.isCollab]⟩
      · exact ⟨"", "", [.send "Event reminder" "" "", .markReminderSent task.EventID],
          by simp [collabCalls, Op.isCollab]⟩
      · exact ⟨reminderMessage ev.Description, u.Email, [.markReminderSent task.EventID],
          by simp [collabCalls, Op.isCollab]⟩
      · exact ⟨reminderMessage ev.Description, u.Email, [],
          by simp [collabCalls, Op.isCollab]⟩
      · exact ⟨reminderMessage ev.Description, u.Email, [],
          by simp [collabCalls, Op.isCollab]⟩
    · rw [h]
      exact ⟨"", "", [.getUserByID task.UserID, .getEventByID task.EventID,
        .send "Event reminder" "" "", .markReminderSent task.EventID],
        by simp [collabCalls, Op.isCollab]⟩
  · intro id e hfail
    rcases h with ⟨_, h⟩ | ⟨_, tm1, h⟩ | ⟨hd, tm1, h⟩
    · rw [h] at hfail ⊢
      rcases hl with ⟨e, hl⟩ | ⟨u, e, hl⟩ | ⟨u, ev, e, hl⟩ | ⟨u, ev, e, hl⟩ | ⟨u, ev, hl⟩ <;>
        rw [hl] at hfail ⊢ <;> simp [collabCalls, Op.isCollab] at hfail ⊢
    · rw [h] at hfail ⊢
      rcases hl with ⟨e, hl⟩ | ⟨u, e, hl⟩ | ⟨u, ev, e, hl⟩ | ⟨u, ev, e, hl⟩ | ⟨u, ev, hl⟩ <;>
        rw [hl] at hfail ⊢ <;> simp [collabCalls, Op.isCollab] at hfail ⊢
    · rw [h] at hfail
      simp at hfail

/-- Witness of C6: the worked example with a failing `MarkReminderSent`. -/
theorem handleTask_calls_initial_segment_witness :
    (∃ msg rcpt, collabCalls ((handleTask exTask).trace exMarkFails.env ()) =
      [.getUserByID exTask.UserID, .getEventByID exTask.EventID,
       .send "Event reminder" msg rcpt, .markReminderSent exTask.EventID]) ∧
    ((handleTask exTask).trace exMarkFails.env ()).getLast? =
      some ⟨.log .error "failed to mark reminder sent", ()⟩ :=
  (handleTask_calls_initial_segment exMarkFails.env exTask ()).2 7 "db down"
    (by rw [exMarkFails_trace]; simp)

/-- C10: when the task is due at or before the first clock reading of
`handleTask` (`delay = fireAt - now ≤ 0`), the run creates no timer and never
blocks in a `select`: after the two clock readings and the two log entries the
next thing it does is `GetUserByID(task.UserID)`. -/
theorem handleTask_no_wait_when_due {σ : Type} (env : Env σ) (task : Task) (s : σ)
    (hdue : task.RemindAt ≤ (env.answer .now s).1) :
    (∀ d, Op.after d ∉ ops ((handleTask task).trace env s)) ∧
    (∀ tm, Op.select tm ∉ ops ((handleTask task).trace env s)) ∧
    ∃ t1 r rest,
      (handleTask task).trace env s =
        ⟨.now, (env.answer .now s).1⟩ :: ⟨.now, t1⟩ ::
        ⟨.log .info "Sending reminder...", ()⟩ ::
        ⟨.log .info "Sending reminder...", ()⟩ ::
        ⟨.getUserByID task.UserID, r⟩ :: rest := by
  have hnot : ¬ 0 < timeUntil task.RemindAt (env.answer .now s).1 := by
    intro hpos
    have := (Sub_pos_iff _ _).1 hpos
    exact absurd hdue (not_le.2 this)
  obtain ⟨t1, s1, h⟩ := handleTask_trace_cases env task s
  have hl := lookupAndSend_trace_cases env task s1
  rcases h with ⟨_, h⟩ | ⟨hd, _, _⟩ | ⟨hd, _, _⟩
  · rw [h]
    rcases hl with ⟨e, hl⟩ | ⟨u, e, hl⟩ | ⟨u, ev, e, hl⟩ | ⟨u, ev, e, hl⟩ | ⟨u, ev, hl⟩ <;>
      rw [hl] <;>
      exact ⟨by simp [ops], by simp [ops], t1, _, _, rfl⟩
  · exact absurd hd hnot
  · exact absurd hd hnot

/-- Witness of C10: the worked example with the clock at 200, past the due
instant 100. -/
theorem handleTask_no_wait_when_due_witness :
    (∀ d, Op.after d ∉ ops ((handleTask exTask).trace exLate.env ())) ∧
    (∀ tm, Op.select tm ∉ ops ((handleTask exTask).trace exLate.env ())) ∧
    ∃ t1 r rest,
      (handleTask exTask).trace exLate.env () =
        ⟨.now, (exLate.env.answer .now ()).1⟩ :: ⟨.now, t1⟩ ::
        ⟨.log .info "Sending reminder...", ()⟩ ::
        ⟨.log .info "Sending reminder...", ()⟩ ::
        ⟨.getUserByID exTask.UserID, r⟩ :: rest :=
  handleTask_no_wait_when_due exLate.env exTask () (by decide)

/-! ## The concurrent system: what holds in every reachable state -/

@[simp] theorem submittedTasks_append (a b : List Ev) :
    submittedTasks (a ++ b) = submittedTasks a ++ submittedTasks b := by
  simp [submittedTasks]

@[simp] theorem dispatchedTasks_append (a b : List Ev) :
    dispatchedTasks (a ++ b) = dispatchedTasks a ++ dispatchedTasks b := by
  simp [dispatchedTasks]

@[simp] theorem callsOf_append (i : Nat) (a b : List Ev) :
    callsOf i (a ++ b) = callsOf i a ++ callsOf i b := by
  simp [callsOf]

@[simp] theorem submittedTasks_nil : submittedTasks [] = [] := rfl

@[simp] theorem dispatchedTasks_nil : dispatchedTasks [] = [] := rfl

@[simp] theorem callsOf_nil (i : Nat) : callsOf i [] = [] := rfl

@[simp] theorem submittedTasks_cons (e : Ev) (l : List Ev) :
    submittedTasks (e :: l) = e.submittedTask.toList ++ submittedTasks l := by
  simp only [submittedTasks, List.filterMap_cons]
  cases e.submittedTask <;> rfl

@[simp] theorem dispatchedTasks_cons (e : Ev) (l : List Ev) :
    dispatchedTasks (e :: l) = e.dispatchedTask.toList ++ dispatchedTasks l := by
  simp only [dispatchedTasks, List.filterMap_cons]
  cases e.dispatchedTask <;> rfl

@[simp] theorem callsOf_cons (i : Nat) (e : Ev) (l : List Ev) :
    callsOf i (e :: l) = (e.callOf i).toList ++ callsOf i l := by
  simp only [callsOf, List.filterMap_cons]
  cases e.callOf i <;> rfl

/-- A path extended by the next operation of the program it leads to. -/
theorem Prog.Path.snoc {α : Type} {p : Prog α} {cs : List Call} {o : Op}
    {k : Res o → Prog α} (h : Prog.Path p cs (.op o k)) (r : Res o) :
    Prog.Path p (cs ++ [⟨o, r⟩]) (k r) := by
  generalize hq : Prog.op o k = q at h
  induction h with
  | nil p => subst hq; exact .cons o k r [] (k r) (.nil _)
  | cons o1 k1 r1 cs1 q1 _ ih => exact .cons o1 k1 r1 _ _ (ih hq)

/-- Replaying a recorded call gives back its result. -/
theorem replayEnv_answer (o : Op) (r : Res o) (cs : List Call) :
    replayEnv.answer o (⟨o, r⟩ :: cs) = (r, cs) := by
  simp [replayEnv]

/-- A path to the end of a program is the trace of the run that replays it. -/
theorem Prog.Path.trace_replay {α : Type} {p q : Prog α} {cs : List Call}
    (h : Prog.Path p cs q) (a : α) (hq : q = .ret a) :
    p.trace replayEnv cs = cs := by
  induction h with
  | nil p => subst hq; rfl
  | cons o k r cs q _ ih =>
    rw [Prog.trace_op, replayEnv_answer, ih hq]

/-- The state after `NewWorker` and `go worker.Run(ctx)` is as it should be. -/
theorem Sys.Inv.init {σ : Type} (store : σ) (buffer : Nat) (clock : Time) :
    (Sys.init store buffer clock).Inv := by
  constructor <;> simp [Sys.init]

/-- Events that are no submission, no dispatch and no call of a handler leave
the invariant alone, whatever happens to the store, the clock and the flags
`cancelled` and `crashed`. -/
theorem Sys.Inv.inert {σ : Type} {s : Sys σ} (h : s.Inv) (store : σ) (clock : Time)
    (cancelled crashed : Bool) (evs : List Ev)
    (hs : submittedTasks evs = []) (hd : dispatchedTasks evs = [])
    (hc : ∀ i, callsOf i evs = []) :
    Sys.Inv { s with store := store, clock := clock, cancelled := cancelled,
                     crashed := crashed, events := s.events ++ evs } := by
  obtain ⟨h1, h2, h3, h4, h5, h6, h7, h8, h9⟩ := h
  constructor
  · simpa [hs, hd] using h1
  · simpa [hd] using h2
  · simpa using h3
  · simpa using h4
  · simpa using h5
  · intro hr
    rcases h6 hr with hm | hm
    · exact Or.inl (List.mem_append_left _ hm)
    · exact Or.inr hm
  · intro i hh hi
    simpa [hc] using h7 i hh hi
  · intro i hi
    simpa [hc] using h8 i hi
  · exact h9

/-- Starting a handler for a task keeps the invariant, when `Run` is in its loop
and the task is the oldest one not yet dispatched. -/
theorem Sys.Inv.dispatch {σ : Type} {s : Sys σ} (h : s.Inv) (hrun : s.run = .looping)
    (t : Task) (rest : List Task) (evs : List Ev)
    (hsub : submittedTasks (s.events ++ evs) = dispatchedTasks s.events ++ t :: rest)
    (hd : dispatchedTasks evs = []) (hc : ∀ i, callsOf i evs = [])
    (hlen : rest.length ≤ s.tasks.cap) :
    Sys.Inv (Sys.dispatch t
      { s with tasks := { s.tasks with buf := rest }, events := s.events ++ evs }) := by
  obtain ⟨h1, h2, h3, h4, h5, h6, h7, h8, h9⟩ := h
  constructor
  · simpa [Sys.dispatch, hd, Ev.submittedTask, Ev.dispatchedTask] using hsub
  · simpa [Sys.dispatch, hd, Ev.dispatchedTask] using h2
  · simpa [Sys.dispatch] using h3
  · simpa [Sys.dispatch] using h4
  · simpa [Sys.dispatch] using h5
  · intro hr
    simp [Sys.dispatch, hrun] at hr
  · intro i hh hi
    have hcalls : callsOf i (Sys.dispatch t
        { s with tasks := { s.tasks with buf := rest }, events := s.events ++ evs }).events =
        callsOf i s.events := by
      simp [Sys.dispatch, hc, Ev.callOf]
    rw [hcalls]
    simp only [Sys.dispatch] at hi
    by_cases hlt : i < s.handlers.length
    · rw [List.getElem?_append_left hlt] at hi
      exact h7 i hh hi
    · have hge : s.handlers.length ≤ i := Nat.le_of_not_lt hlt
      rw [List.getElem?_append_right hge] at hi
      rw [h8 i hge]
      cases hk : i - s.handlers.length with
      | zero =>
        rw [hk] at hi
        simp at hi
        subst hi
        exact .nil _
      | succ n =>
        rw [hk] at hi
        simp at hi
  · intro i hi
    simp only [Sys.dispatch, List.length_append, List.length_singleton] at hi
    have := h8 i (by omega)
    simpa [Sys.dispatch, hc, Ev.callOf] using this
  · simpa [Sys.dispatch] using hlen


/-- Leaving the loop of `Run` keeps the invariant, through either exit. -/
theorem Sys.Inv.runReturn {σ : Type} {s : Sys σ} (h : s.Inv) (msg : String)
    (hexit : Ev.log msg = stoppedByContext ∨ (s.tasks.closed = true ∧ s.tasks.buf = [])) :
    (Sys.runReturn msg s).Inv := by
  unfold Sys.runReturn
  split
  · exact h.inert s.store s.clock s.cancelled true _ (by simp [Ev.submittedTask])
      (by simp [Ev.dispatchedTask]) (by intro i; simp [Ev.callOf])
  · obtain ⟨h1, h2, h3, h4, h5, h6, h7, h8, h9⟩ := h
    constructor
    · simpa [Ev.submittedTask, Ev.dispatchedTask] using h1
    · simpa [Ev.dispatchedTask] using h2
    · simp
    · simpa using h4
    · simp
    · intro _
      rcases hexit with hm | hm
      · left
        simp [← hm]
      · exact Or.inr hm
    · intro i hh hi
      simpa [Ev.callOf] using h7 i hh hi
    · intro i hi
      simpa [Ev.callOf] using h8 i hi
    · exact h9

/-- A channel send keeps the invariant. -/
theorem Sys.Inv.chanSend {σ : Type} {s s1 : Sys σ} (h : s.Inv) (t : Task)
    (hstep : Sys.chanSend t s = some s1) : s1.Inv := by
  unfold Sys.chanSend at hstep
  split at hstep
  · cases hstep
    exact h.inert s.store s.clock s.cancelled true _ (by simp [Ev.submittedTask])
      (by simp [Ev.dispatchedTask]) (by intro i; simp [Ev.callOf])
  · rename_i hopen
    split at hstep
    · rename_i hroom
      cases hstep
      obtain ⟨h1, h2, h3, h4, h5, h6, h7, h8, h9⟩ := h
      constructor
      · simp [Ev.submittedTask, Ev.dispatchedTask, h1]
      · simpa [Ev.dispatchedTask] using h2
      · simpa using h3
      · simpa using h4
      · simpa using h5
      · intro hr
        rcases h6 hr with hm | hm
        · exact Or.inl (List.mem_append_left _ hm)
        · exact absurd hm.1 hopen
      · intro i hh hi
        simpa [Ev.callOf] using h7 i hh hi
      · intro i hi
        simpa [Ev.callOf] using h8 i hi
      · simpa using hroom
    · split at hstep
      · rename_i hfull hhand
        cases hstep
        have hbuf : s.tasks.buf = [] := by
          have := h.bounded
          rw [hhand.1] at this
          exact List.length_eq_zero.1 (Nat.le_zero.1 this)
        have hinv := h.dispatch hhand.2 t [] [.submitted t s.clock]
          (by simp [Ev.submittedTask, h.conserve, hbuf])
          (by simp [Ev.dispatchedTask]) (by intro i; simp [Ev.callOf]) (by simp)
        have hs : ({ s with tasks := { s.tasks with buf := [] },
                            events := s.events ++ [.submitted t s.clock] } : Sys σ) =
            { s with events := s.events ++ [.submitted t s.clock] } := by
          rw [← hbuf]
        rw [hs] at hinv
        exact hinv
      · cases hstep

/-- An iteration of `Run` on the case `<-w.tasks` keeps the invariant. -/
theorem Sys.Inv.runRecv {σ : Type} {s s1 : Sys σ} (h : s.Inv)
    (hstep : Sys.runRecv s = some s1) : s1.Inv := by
  unfold Sys.runRecv at hstep
  split at hstep
  · rename_i hrun
    split at hstep
    · rename_i t rest hbuf
      cases hstep
      have hinv := h.dispatch hrun t rest []
        (by simp [h.conserve, hbuf]) (by simp) (by intro i; simp)
        (by have := h.bounded; rw [hbuf] at this; simp at this; omega)
      simpa using hinv
    · rename_i hbuf
      split at hstep
      · rename_i hclosed
        cases hstep
        exact h.runReturn _ (Or.inr ⟨hclosed, hbuf⟩)
      · cases hstep
  · cases hstep

/-- An iteration of `Run` on the case `<-ctx.Done()` keeps the invariant. -/
theorem Sys.Inv.runCtxDone {σ : Type} {s s1 : Sys σ} (h : s.Inv)
    (hstep : Sys.runCtxDone s = some s1) : s1.Inv := by
  unfold Sys.runCtxDone at hstep
  split at hstep
  · cases hstep
    exact h.runReturn _ (Or.inl rfl)
  · cases hstep

/-- The statement `close(w.tasks)` of `Stop` keeps the invariant. -/
theorem Sys.Inv.stopClose {σ : Type} {s s1 : Sys σ} (h : s.Inv)
    (hstep : Sys.stopClose s = some s1) : s1.Inv := by
  unfold Sys.stopClose at hstep
  split at hstep
  · rename_i hidle
    split at hstep
    · cases hstep
      exact h.inert s.store s.clock s.cancelled true _ (by simp [Ev.submittedTask])
        (by simp [Ev.dispatchedTask]) (by intro i; simp [Ev.callOf])
    · rename_i hopen
      cases hstep
      obtain ⟨h1, h2, h3, h4, h5, h6, h7, h8, h9⟩ := h
      constructor
      · simpa [Ev.submittedTask, Ev.dispatchedTask] using h1
      · simpa [Ev.dispatchedTask] using h2
      · simpa using h3
      · simp
      · simp
      · intro hr
        rcases h6 hr with hm | hm
        · exact Or.inl (List.mem_append_left _ hm)
        · exact absurd hm.1 hopen
      · intro i hh hi
        simpa [Ev.callOf] using h7 i hh hi
      · intro i hi
        simpa [Ev.callOf] using h8 i hi
      · exact h9
  · cases hstep

/-- The return of `Stop` keeps the invariant. -/
theorem Sys.Inv.stopWait {σ : Type} {s s1 : Sys σ} (h : s.Inv)
    (hstep : Sys.stopWait s = some s1) : s1.Inv := by
  unfold Sys.stopWait at hstep
  split at hstep
  · rename_i hw
    cases hstep
    obtain ⟨h1, h2, h3, h4, h5, h6, h7, h8, h9⟩ := h
    constructor
    · simpa [Ev.submittedTask, Ev.dispatchedTask] using h1
    · simpa [Ev.dispatchedTask] using h2
    · simpa using h3
    · have := h4.2 (by rw [hw.1]; simp)
      simp [this]
    · intro _
      exact hw.2
    · intro hr
      rcases h6 hr with hm | hm
      · exact Or.inl (List.mem_append_left _ hm)
      · exact Or.inr hm
    · intro i hh hi
      simpa [Ev.callOf] using h7 i hh hi
    · intro i hi
      simpa [Ev.callOf] using h8 i hi
    · exact h9
  · cases hstep


/-- Writing back the element found at a position changes nothing. -/
theorem set_of_getElem? {α : Type} (l : List α) (i : Nat) (a : α) (h : l[i]? = some a) :
    l.set i a = l := by
  induction l generalizing i with
  | nil => rfl
  | cons x xs ih =>
    cases i with
    | zero =>
      simp at h
      simp [h]
    | succ n =>
      simp at h
      simp [ih n h]

/-- Recording a call of handler goroutine `i` and moving it to the rest of its
body keeps the invariant. -/
theorem Sys.Inv.record {σ : Type} {s : Sys σ} (h : s.Inv) (i : Nat) (t : Task) (o : Op)
    (k : Res o → Prog Unit) (r : Res o)
    (hi : s.handlers[i]? = some { task := t, prog := .op o k }) :
    Sys.Inv { s with handlers := s.handlers.set i { task := t, prog := k r },
                     events := s.events ++ [.call i ⟨o, r⟩] } := by
  obtain ⟨h1, h2, h3, h4, h5, h6, h7, h8, h9⟩ := h
  have hlt : i < s.handlers.length := (List.getElem?_eq_some_iff.1 hi).1
  constructor
  · simpa [Ev.submittedTask, Ev.dispatchedTask] using h1
  · have hmap : (s.handlers.map Handler.task)[i]? = some t := by
      rw [List.getElem?_map, hi]; rfl
    simp only [List.map_set, dispatchedTasks_append, dispatchedTasks_cons,
      dispatchedTasks_nil, Ev.dispatchedTask, Option.toList, List.append_nil]
    rw [set_of_getElem? _ _ _ hmap]
    exact h2
  · simpa using h3
  · simpa using h4
  · simpa using h5
  · intro hr
    rcases h6 hr with hm | hm
    · exact Or.inl (List.mem_append_left _ hm)
    · exact Or.inr hm
  · intro j hh hj
    by_cases hji : i = j
    · subst hji
      simp only [List.getElem?_set_self hlt, Option.some.injEq] at hj
      subst hj
      have hp := (h7 i _ hi).snoc r
      simpa [Ev.callOf] using hp
    · simp only [List.getElem?_set_ne hji] at hj
      have hp := h7 j hh hj
      simpa [Ev.callOf, hji] using hp
  · intro j hj
    simp only [List.length_set] at hj
    have hji : i ≠ j := by omega
    simpa [Ev.callOf, hji] using h8 j hj
  · exact h9

/-- What an operation of a handler does to the system keeps the invariant and the
handler goroutines there are. -/
theorem Sys.Inv.perform {σ : Type} {s s1 : Sys σ} (h : s.Inv) (c : Collab σ)
    (pick : SelectResult) (o : Op) (r : Res o)
    (hp : Sys.perform c s pick o = some (r, s1)) :
    s1.Inv ∧ ∀ (i : Nat) (hh : Handler), s.handlers[i]? = some hh → s1.handlers[i]? = some hh := by
  have hstore : ∀ st : σ, Sys.Inv { s with store := st } := fun st =>
    by simpa using h.inert st s.clock s.cancelled s.crashed [] rfl rfl (fun _ => rfl)
  cases o with
  | now => simp [Sys.perform] at hp; obtain ⟨_, rfl⟩ := hp; exact ⟨h, fun _ _ x => x⟩
  | log l m => simp [Sys.perform] at hp; subst hp; exact ⟨h, fun _ _ x => x⟩
  | after d => simp [Sys.perform] at hp; obtain ⟨_, rfl⟩ := hp; exact ⟨h, fun _ _ x => x⟩
  | select tm =>
    cases pick <;> simp [Sys.perform] at hp <;> obtain ⟨_, _, rfl⟩ := hp <;>
      exact ⟨h, fun _ _ x => x⟩
  | getUserByID id =>
    simp [Sys.perform] at hp; obtain ⟨_, rfl⟩ := hp; exact ⟨hstore _, fun _ _ x => x⟩
  | getEventByID id =>
    simp [Sys.perform] at hp; obtain ⟨_, rfl⟩ := hp; exact ⟨hstore _, fun _ _ x => x⟩
  | send a b d =>
    simp [Sys.perform] at hp; obtain ⟨_, rfl⟩ := hp; exact ⟨hstore _, fun _ _ x => x⟩
  | markReminderSent id =>
    simp [Sys.perform] at hp; obtain ⟨_, rfl⟩ := hp; exact ⟨hstore _, fun _ _ x => x⟩
  | submit t =>
    simp only [Sys.perform] at hp
    cases hs2 : Sys.chanSend t s with
    | none => rw [hs2] at hp; cases hp
    | some s2 =>
    rw [hs2] at hp
    cases hp
    refine ⟨h.chanSend t hs2, ?_⟩
    intro i hh hi
    unfold Sys.chanSend at hs2
    split at hs2
    · cases hs2; exact hi
    · split at hs2
      · cases hs2; exact hi
      · split at hs2
        · cases hs2
          have hlt : i < s.handlers.length := (List.getElem?_eq_some_iff.1 hi).1
          simp only [Sys.dispatch]
          rw [List.getElem?_append_left hlt]
          exact hi
        · cases hs2


/-- A step of a handler goroutine keeps the invariant. -/
theorem Sys.Inv.handlerStep {σ : Type} {s s1 : Sys σ} (h : s.Inv) (c : Collab σ) (i : Nat)
    (pick : SelectResult) (hstep : Sys.handlerStep c s i pick = some s1) : s1.Inv := by
  unfold Sys.handlerStep at hstep
  cases hi : s.handlers[i]? with
  | none => rw [hi] at hstep; cases hstep
  | some hh =>
    rw [hi] at hstep
    obtain ⟨t, p⟩ := hh
    cases p with
    | ret a => cases hstep
    | op o k =>
      simp only at hstep
      cases hp : Sys.perform c s pick o with
      | none => rw [hp] at hstep; cases hstep
      | some rs =>
        obtain ⟨r, s2⟩ := rs
        rw [hp] at hstep
        cases hstep
        obtain ⟨hinv, hkeep⟩ := h.perform c pick o r hp
        exact hinv.record i t o k r (hkeep i _ hi)

/-- Every step of the system keeps the invariant. -/
theorem Sys.Inv.of_step {σ : Type} {s s1 : Sys σ} (h : s.Inv) (c : Collab σ) (l : Step)
    (hstep : Sys.step c s l = some s1) : s1.Inv := by
  unfold Sys.step at hstep
  split at hstep
  · cases hstep
  · cases l with
    | submit t => exact h.chanSend t hstep
    | cancel =>
      cases hstep
      exact h.inert s.store s.clock true s.crashed _ (by simp [Ev.submittedTask])
        (by simp [Ev.dispatchedTask]) (by intro i; simp [Ev.callOf])
    | tick d =>
      cases hstep
      simpa using h.inert s.store (s.clock + d) s.cancelled s.crashed [] rfl rfl (fun _ => rfl)
    | runRecv => exact h.runRecv hstep
    | runCtxDone => exact h.runCtxDone hstep
    | stopClose => exact h.stopClose hstep
    | stopWait => exact h.stopWait hstep
    | handler i pick => exact h.handlerStep c i pick hstep

/-- The invariant holds after every schedule. -/
theorem Sys.Inv.of_exec {σ : Type} (c : Collab σ) (sched : List Step) :
    ∀ {s s1 : Sys σ}, s.Inv → Sys.exec c s sched = some s1 → s1.Inv := by
  induction sched with
  | nil =>
    intro s s1 h hexec
    cases hexec
    exact h
  | cons l ls ih =>
    intro s s1 h hexec
    simp only [Sys.exec] at hexec
    cases hstep : Sys.step c s l with
    | none => rw [hstep] at hexec; cases hexec
    | some s2 =>
      rw [hstep] at hexec
      exact ih (h.of_step c l hstep) hexec


/-- Leaving the loop while `done` is still open closes it and returns. -/
theorem Sys.runReturn_open {σ : Type} (msg : String) (s : Sys σ) (hdone : s.done = false) :
    Sys.runReturn msg s =
      { s with done := true, run := .returned,
               events := s.events ++ [.log msg, .doneClosed, .runReturned] } := by
  simp [Sys.runReturn, hdone]

/-- A channel send moves neither `Run` nor `Stop`, and leaves the clock, the
context and `done` alone. -/
theorem Sys.chanSend_frame {σ : Type} {s s1 : Sys σ} (t : Task)
    (hstep : Sys.chanSend t s = some s1) :
    s1.run = s.run ∧ s1.done = s.done ∧ s1.stop = s.stop ∧ s1.clock = s.clock ∧
    s1.cancelled = s.cancelled ∧ ∀ i, callsOf i s1.events = callsOf i s.events := by
  unfold Sys.chanSend at hstep
  split at hstep
  · cases hstep; simp [Ev.callOf]
  · split at hstep
    · cases hstep; simp [Ev.callOf]
    · split at hstep
      · cases hstep; simp [Sys.dispatch, Ev.callOf]
      · cases hstep

/-- An operation of a handler moves neither `Run` nor `Stop`, and leaves the
clock, the context and `done` alone. -/
theorem Sys.perform_frame {σ : Type} {s s1 : Sys σ} (c : Collab σ) (pick : SelectResult)
    (o : Op) (r : Res o) (hp : Sys.perform c s pick o = some (r, s1)) :
    s1.run = s.run ∧ s1.done = s.done ∧ s1.stop = s.stop ∧ s1.clock = s.clock ∧
    s1.cancelled = s.cancelled ∧ ∀ i, callsOf i s1.events = callsOf i s.events := by
  cases o with
  | now => simp [Sys.perform] at hp; obtain ⟨_, rfl⟩ := hp; simp
  | log l m => simp [Sys.perform] at hp; subst hp; simp
  | after d => simp [Sys.perform] at hp; obtain ⟨_, rfl⟩ := hp; simp
  | select tm =>
    cases pick <;> simp [Sys.perform] at hp <;> obtain ⟨_, _, rfl⟩ := hp <;> simp
  | getUserByID id => simp [Sys.perform] at hp; obtain ⟨_, rfl⟩ := hp; simp
  | getEventByID id => simp [Sys.perform] at hp; obtain ⟨_, rfl⟩ := hp; simp
  | send a b d => simp [Sys.perform] at hp; obtain ⟨_, rfl⟩ := hp; simp
  | markReminderSent id => simp [Sys.perform] at hp; obtain ⟨_, rfl⟩ := hp; simp
  | submit t =>
    simp only [Sys.perform] at hp
    cases hs2 : Sys.chanSend t s with
    | none => rw [hs2] at hp; cases hp
    | some s2 =>
      rw [hs2] at hp
      cases hp
      exact Sys.chanSend_frame t hs2

/-- A step of a handler goroutine moves neither `Run` nor `Stop`, and leaves the
clock, the context and `done` alone. -/
theorem Sys.handlerStep_frame {σ : Type} {s s1 : Sys σ} (c : Collab σ) (i : Nat)
    (pick : SelectResult) (hstep : Sys.handlerStep c s i pick = some s1) :
    s1.run = s.run ∧ s1.done = s.done ∧ s1.stop = s.stop ∧ s1.clock = s.clock ∧
    s1.cancelled = s.cancelled := by
  unfold Sys.handlerStep at hstep
  cases hi : s.handlers[i]? with
  | none => rw [hi] at hstep; cases hstep
  | some hh =>
    rw [hi] at hstep
    obtain ⟨t, p⟩ := hh
    cases p with
    | ret a => cases hstep
    | op o k =>
      simp only at hstep
      cases hp : Sys.perform c s pick o with
      | none => rw [hp] at hstep; cases hstep
      | some rs =>
        obtain ⟨r, s2⟩ := rs
        rw [hp] at hstep
        cases hstep
        obtain ⟨h1, h2, h3, h4, h5, _⟩ := Sys.perform_frame c pick o r hp
        exact ⟨h1, h2, h3, h4, h5⟩

/-- Appending events that are no submission and no call of a handler, with the
handlers kept, is a quiet step. -/
theorem Sys.Quiet.of_append {σ : Type} (s s1 : Sys σ) (evs : List Ev)
    (hclock : s.clock ≤ s1.clock) (hev : s1.events = s.events ++ evs)
    (hsub : ∀ t now, Ev.submitted t now ∈ evs → now = s.clock)
    (hc : ∀ i, callsOf i evs = [])
    (hh : ∀ (i : Nat) (h1 : Handler), s1.handlers[i]? = some h1 →
      s.handlers[i]? = some h1 ∨ s.handlers.length ≤ i) :
    s.Quiet s1 := by
  refine ⟨hclock, ?_, ?_, ?_, hh⟩
  · intro e he
    rw [hev]
    exact List.mem_append_left _ he
  · intro t now hmem
    rw [hev, List.mem_append] at hmem
    rcases hmem with hmem | hmem
    · exact Or.inl hmem
    · exact Or.inr (hsub t now hmem)
  · intro i
    rw [hev, callsOf_append, hc i, List.append_nil]

/-- The handlers after a dispatch are the handlers before it and a new one. -/
theorem Sys.dispatch_handlers {σ : Type} (t : Task) (s : Sys σ) (i : Nat) (h1 : Handler)
    (hi : (Sys.dispatch t s).handlers[i]? = some h1) :
    s.handlers[i]? = some h1 ∨ s.handlers.length ≤ i := by
  by_cases hlt : i < s.handlers.length
  · simp only [Sys.dispatch] at hi
    rw [List.getElem?_append_left hlt] at hi
    exact Or.inl hi
  · exact Or.inr (Nat.le_of_not_lt hlt)

/-- A channel send is a quiet step. -/
theorem Sys.chanSend_quiet {σ : Type} {s s1 : Sys σ} (t : Task)
    (hstep : Sys.chanSend t s = some s1) : s.Quiet s1 := by
  unfold Sys.chanSend at hstep
  split at hstep
  · cases hstep
    exact Sys.Quiet.of_append _ _ [.panicked "send on closed channel"] (le_refl _) rfl
      (by simp) (by simp [Ev.callOf]) (fun _ _ hi => Or.inl hi)
  · split at hstep
    · cases hstep
      exact Sys.Quiet.of_append _ _ [.submitted t s.clock] (le_refl _) rfl
        (by simp) (by simp [Ev.callOf]) (fun _ _ hi => Or.inl hi)
    · split at hstep
      · cases hstep
        exact Sys.Quiet.of_append _ _ [.submitted t s.clock, .dispatched t] (le_refl _)
          (by simp [Sys.dispatch]) (by simp) (by simp [Ev.callOf])
          (fun i h1 hi => Sys.dispatch_handlers t _ i h1 hi)
      · cases hstep

/-- An iteration of `Run` on the case `<-w.tasks` is a quiet step. -/
theorem Sys.runRecv_quiet {σ : Type} {s s1 : Sys σ} (hstep : Sys.runRecv s = some s1) :
    s.Quiet s1 := by
  unfold Sys.runRecv at hstep
  split at hstep
  · split at hstep
    · rename_i t rest hbuf
      cases hstep
      exact Sys.Quiet.of_append _ _ [.dispatched t] (le_refl _) (by simp [Sys.dispatch])
        (by simp) (by simp [Ev.callOf]) (fun i h1 hi => Sys.dispatch_handlers t _ i h1 hi)
    · split at hstep
      · cases hstep
        unfold Sys.runReturn
        split
        · exact Sys.Quiet.of_append _ _ _ (le_refl _) rfl (by simp) (by simp [Ev.callOf])
            (fun _ _ hi => Or.inl hi)
        · exact Sys.Quiet.of_append _ _ _ (le_refl _) rfl (by simp) (by simp [Ev.callOf])
            (fun _ _ hi => Or.inl hi)
      · cases hstep
  · cases hstep

/-- The exit of `Run` on cancellation is a quiet step. -/
theorem Sys.runCtxDone_quiet {σ : Type} {s s1 : Sys σ} (hstep : Sys.runCtxDone s = some s1) :
    s.Quiet s1 := by
  unfold Sys.runCtxDone at hstep
  split at hstep
  · cases hstep
    unfold Sys.runReturn
    split
    · exact Sys.Quiet.of_append _ _ _ (le_refl _) rfl (by simp) (by simp [Ev.callOf])
        (fun _ _ hi => Or.inl hi)
    · exact Sys.Quiet.of_append _ _ _ (le_refl _) rfl (by simp) (by simp [Ev.callOf])
        (fun _ _ hi => Or.inl hi)
  · cases hstep

/-- The statement `close(w.tasks)` is a quiet step. -/
theorem Sys.stopClose_quiet {σ : Type} {s s1 : Sys σ} (hstep : Sys.stopClose s = some s1) :
    s.Quiet s1 := by
  unfold Sys.stopClose at hstep
  split at hstep
  · split at hstep <;> cases hstep <;>
      exact Sys.Quiet.of_append _ _ _ (le_refl _) rfl (by simp) (by simp [Ev.callOf])
        (fun _ _ hi => Or.inl hi)
  · cases hstep

/-- The return of `Stop` is a quiet step. -/
theorem Sys.stopWait_quiet {σ : Type} {s s1 : Sys σ} (hstep : Sys.stopWait s = some s1) :
    s.Quiet s1 := by
  unfold Sys.stopWait at hstep
  split at hstep
  · cases hstep
    exact Sys.Quiet.of_append _ _ _ (le_refl _) rfl (by simp) (by simp [Ev.callOf])
      (fun _ _ hi => Or.inl hi)
  · cases hstep

/-- What an operation of a handler does to the system, before its call is
recorded, is a quiet step. -/
theorem Sys.perform_quiet {σ : Type} {s s1 : Sys σ} (c : Collab σ) (pick : SelectResult)
    (o : Op) (r : Res o) (hp : Sys.perform c s pick o = some (r, s1)) : s.Quiet s1 := by
  have hsame : ∀ st : σ, s.Quiet { s with store := st } := fun st =>
    Sys.Quiet.of_append _ _ [] (le_refl _) (by simp) (by simp) (by simp)
      (fun _ _ hi => Or.inl hi)
  have hself : s.Quiet s := by simpa using hsame s.store
  cases o with
  | now => simp [Sys.perform] at hp; obtain ⟨_, rfl⟩ := hp; exact hself
  | log l m => simp [Sys.perform] at hp; subst hp; exact hself
  | after d => simp [Sys.perform] at hp; obtain ⟨_, rfl⟩ := hp; exact hself
  | select tm =>
    cases pick <;> simp [Sys.perform] at hp <;> obtain ⟨_, _, rfl⟩ := hp <;> exact hself
  | getUserByID id => simp [Sys.perform] at hp; obtain ⟨_, rfl⟩ := hp; exact hsame _
  | getEventByID id => simp [Sys.perform] at hp; obtain ⟨_, rfl⟩ := hp; exact hsame _
  | send a b d => simp [Sys.perform] at hp; obtain ⟨_, rfl⟩ := hp; exact hsame _
  | markReminderSent id => simp [Sys.perform] at hp; obtain ⟨_, rfl⟩ := hp; exact hsame _
  | submit t =>
    simp only [Sys.perform] at hp
    cases hs2 : Sys.chanSend t s with
    | none => rw [hs2] at hp; cases hp
    | some s2 =>
      rw [hs2] at hp
      cases hp
      exact Sys.chanSend_quiet t hs2

/-- More events keep a call good. -/
theorem Call.goodFor_mono {evs evs1 : List Ev} (task : Task) (c : Call)
    (hsub : ∀ e ∈ evs, e ∈ evs1) (h : Call.goodFor evs task c) :
    Call.goodFor evs1 task c := by
  obtain ⟨o, r⟩ := c
  cases o with
  | now =>
    obtain ⟨now, hmem, hle⟩ := h
    exact ⟨now, hsub _ hmem, hle⟩
  | log l m => trivial
  | after d => trivial
  | select tm => trivial
  | getUserByID id => cases r <;> exact h
  | getEventByID id => cases r <;> exact h
  | send a b d => trivial
  | markReminderSent id => trivial
  | submit t => trivial

/-- A quiet step keeps the calls of the handlers good. -/
theorem Sys.Good.good_quiet {σ : Type} {s s1 : Sys σ} (h : s.Good) (hinv : s.Inv)
    (hq : s.Quiet s1) : s1.Good := by
  obtain ⟨hclock, hsub, hnew, hcalls, hhand⟩ := hq
  constructor
  · intro t now hmem
    rcases hnew t now hmem with hold | hnow
    · exact le_trans (h.1 t now hold) hclock
    · rw [hnow]; exact hclock
  · intro i h1 hi call hmem
    rw [hcalls i] at hmem
    rcases hhand i h1 hi with hold | hlen
    · exact Call.goodFor_mono _ _ hsub (h.2 i h1 hold call hmem)
    · rw [hinv.fresh i hlen] at hmem
      cases hmem

/-- The result of an operation of the handler of a task is good, when the
lookups succeed. -/
theorem Sys.perform_good {σ : Type} {s s1 : Sys σ} (c : Collab σ) (hc : c.lookupsSucceed)
    (h : s.Good) (hinv : s.Inv) (i : Nat) (hh : Handler) (hi : s.handlers[i]? = some hh)
    (pick : SelectResult) (o : Op) (r : Res o)
    (hp : Sys.perform c s pick o = some (r, s1)) : Call.goodFor s.events hh.task ⟨o, r⟩ := by
  cases o with
  | now =>
    simp [Sys.perform] at hp
    obtain ⟨rfl, _⟩ := hp
    have hmem : hh.task ∈ submittedTasks s.events := by
      rw [hinv.conserve, ← hinv.handlersOf]
      exact List.mem_append_left _ (List.mem_map.2 ⟨hh, List.getElem?_mem hi, rfl⟩)
    obtain ⟨e, he, htask⟩ := List.mem_filterMap.1 hmem
    cases e <;> simp [Ev.submittedTask] at htask
    rename_i t now
    subst htask
    exact ⟨now, he, h.1 _ now he⟩
  | log l m => trivial
  | after d => trivial
  | select tm => trivial
  | getUserByID id =>
    simp [Sys.perform] at hp
    obtain ⟨rfl, _⟩ := hp
    obtain ⟨u, hu⟩ := hc.1 s.cancelled id s.store
    rw [hu]
    trivial
  | getEventByID id =>
    simp [Sys.perform] at hp
    obtain ⟨rfl, _⟩ := hp
    obtain ⟨u, hu⟩ := hc.2 s.cancelled id s.store
    rw [hu]
    trivial
  | send a b d => trivial
  | markReminderSent id => trivial
  | submit t => trivial

/-- Recording a good call of handler goroutine `i` keeps the calls good. -/
theorem Sys.Good.good_record {σ : Type} {s : Sys σ} (h : s.Good) (i : Nat) (t : Task) (o : Op)
    (k : Res o → Prog Unit) (r : Res o)
    (hi : s.handlers[i]? = some { task := t, prog := .op o k })
    (hr : Call.goodFor s.events t ⟨o, r⟩) :
    Sys.Good { s with handlers := s.handlers.set i { task := t, prog := k r },
                      events := s.events ++ [.call i ⟨o, r⟩] } := by
  have hlt : i < s.handlers.length := (List.getElem?_eq_some_iff.1 hi).1
  have hsub : ∀ e ∈ s.events, e ∈ s.events ++ [Ev.call i ⟨o, r⟩] :=
    fun e he => List.mem_append_left _ he
  constructor
  · intro t1 now hmem
    simp only [List.mem_append, List.mem_singleton] at hmem
    rcases hmem with hmem | hmem
    · exact h.1 t1 now hmem
    · cases hmem
  · intro j h1 hj call hmem
    show Call.goodFor (s.events ++ [Ev.call i ⟨o, r⟩]) h1.task call
    simp only [callsOf_append, callsOf_cons, callsOf_nil, Ev.callOf, List.append_nil,
      List.mem_append] at hmem
    by_cases hji : i = j
    · subst hji
      simp only [List.getElem?_set_self hlt, Option.some.injEq] at hj
      subst hj
      rcases hmem with hmem | hmem
      · exact Call.goodFor_mono _ _ hsub (h.2 i _ hi call hmem)
      · simp only [if_true, Option.toList, List.mem_singleton] at hmem
        subst hmem
        exact Call.goodFor_mono _ _ hsub hr
    · simp only [List.getElem?_set_ne hji] at hj
      rcases hmem with hmem | hmem
      · exact Call.goodFor_mono _ _ hsub (h.2 j h1 hj call hmem)
      · simp [hji] at hmem

/-- When every task was due at the time of its submission, a good call of the
handler of a task is good with respect to the due instant of the task. -/
theorem Call.good_of_goodFor {evs : List Ev} (task : Task) (c : Call)
    (hdue : ∀ t now, Ev.submitted t now ∈ evs → t.RemindAt ≤ now)
    (h : Call.goodFor evs task c) : Call.good task.RemindAt c := by
  obtain ⟨o, r⟩ := c
  cases o with
  | now =>
    obtain ⟨now, hmem, hle⟩ := h
    exact le_trans (hdue task now hmem) hle
  | log l m => trivial
  | after d => trivial
  | select tm => trivial
  | getUserByID id => cases r <;> exact h
  | getEventByID id => cases r <;> exact h
  | send a b d => trivial
  | markReminderSent id => trivial
  | submit t => trivial

/-- Every step keeps the calls of the handlers good, when the lookups succeed. -/
theorem Sys.Good.good_step {σ : Type} {s s1 : Sys σ} (c : Collab σ) (hc : c.lookupsSucceed)
    (h : s.Good) (hinv : s.Inv) (l : Step) (hstep : Sys.step c s l = some s1) :
    s1.Good := by
  have hcr : s.crashed = false := by
    cases hb : s.crashed with
    | false => rfl
    | true => simp [Sys.step, hb] at hstep
  simp only [Sys.step, hcr, Bool.false_eq_true, if_false] at hstep
  cases l with
  | submit t => exact h.good_quiet hinv (Sys.chanSend_quiet t hstep)
  | cancel =>
    simp only [Option.some.injEq] at hstep
    subst hstep
    exact h.good_quiet hinv (Sys.Quiet.of_append _ _ [.cancelled] (le_refl _) rfl (by simp)
      (by simp [Ev.callOf]) (fun _ _ hi => Or.inl hi))
  | tick d =>
    simp only [Option.some.injEq] at hstep
    subst hstep
    exact h.good_quiet hinv (Sys.Quiet.of_append _ _ []
      (le_add_of_nonneg_right (Int.ofNat_nonneg d)) (by simp) (by simp) (by simp)
      (fun _ _ hi => Or.inl hi))
  | runRecv => exact h.good_quiet hinv (Sys.runRecv_quiet hstep)
  | runCtxDone => exact h.good_quiet hinv (Sys.runCtxDone_quiet hstep)
  | stopClose => exact h.good_quiet hinv (Sys.stopClose_quiet hstep)
  | stopWait => exact h.good_quiet hinv (Sys.stopWait_quiet hstep)
  | handler i pick =>
    simp only [Sys.handlerStep] at hstep
    cases hi : s.handlers[i]? with
    | none => rw [hi] at hstep; cases hstep
    | some hh =>
      rw [hi] at hstep
      obtain ⟨t, p⟩ := hh
      cases p with
      | ret a => cases hstep
      | op o k =>
        simp only at hstep
        cases hp : Sys.perform c s pick o with
        | none => rw [hp] at hstep; cases hstep
        | some rs =>
          obtain ⟨r, s2⟩ := rs
          rw [hp] at hstep
          cases hstep
          have hq := Sys.perform_quiet c pick o r hp
          obtain ⟨_, hkeep⟩ := hinv.perform c pick o r hp
          have hr := Sys.perform_good c hc h hinv i _ hi pick o r hp
          exact (h.good_quiet hinv hq).good_record i t o k r (hkeep i _ hi)
            (Call.goodFor_mono _ _ hq.2.1 hr)

/-- The calls of the handlers are good after every schedule, when the lookups
succeed. -/
theorem Sys.Good.good_exec {σ : Type} (c : Collab σ) (hc : c.lookupsSucceed)
    (sched : List Step) :
    ∀ {s s1 : Sys σ}, s.Good → s.Inv → Sys.exec c s sched = some s1 → s1.Good := by
  induction sched with
  | nil =>
    intro s s1 h _ hexec
    cases hexec
    exact h
  | cons l ls ih =>
    intro s s1 h hinv hexec
    simp only [Sys.exec] at hexec
    cases hstep : Sys.step c s l with
    | none => rw [hstep] at hexec; cases hexec
    | some s2 =>
      rw [hstep] at hexec
      exact ih (h.good_step c hc hinv l hstep) (hinv.of_step c l hstep) hexec

/-- From a program that has returned there is no way on. -/
theorem Prog.Path.of_ret {α : Type} {a : α} {cs : List Call} {q : Prog α}
    (h : Prog.Path (.ret a) cs q) : cs = [] ∧ q = .ret a := by
  cases h
  exact ⟨rfl, rfl⟩

/-- A path without calls leads nowhere else. -/
theorem Prog.Path.of_nil {α : Type} {p q : Prog α} {cs : List Call}
    (h : Prog.Path p cs q) (hcs : cs = []) : p = q := by
  cases h with
  | nil => rfl
  | cons => cases hcs

/-- Paths compose. -/
theorem Prog.Path.trans {α : Type} {p q r : Prog α} {cs ds : List Call}
    (h1 : Prog.Path p cs q) (h2 : Prog.Path q ds r) : Prog.Path p (cs ++ ds) r := by
  induction h1 with
  | nil p => exact h2
  | cons o k x cs q _ ih => exact .cons o k x _ _ (ih h2)

/-- Every program can be run to its end. -/
theorem Prog.Path.complete {α : Type} (q : Prog α) :
    ∃ cs a, Prog.Path q cs (.ret a) := by
  induction q with
  | ret a => exact ⟨[], a, .nil _⟩
  | op o k ih =>
    obtain ⟨cs, a, h⟩ := ih (Res.default o)
    exact ⟨_ :: cs, a, .cons o k (Res.default o) cs _ h⟩

/-- A run of `handleTask` starts with a clock reading. -/
theorem handleTask_trace_head {σ : Type} (env : Env σ) (task : Task) (s : σ) :
    ∃ rest, (handleTask task).trace env s = ⟨.now, (env.answer .now s).1⟩ :: rest := by
  simp only [handleTask, Prog.trace_op]
  exact ⟨_, rfl⟩

/-- A run of `handleTask` whose first clock reading is not before the due
instant creates no timer and has no `select`. -/
theorem handleTask_trace_no_wait {σ : Type} (env : Env σ) (task : Task) (s : σ)
    (hdue : ¬ 0 < timeUntil task.RemindAt (env.answer .now s).1) :
    (∀ d, Op.after d ∉ ops ((handleTask task).trace env s)) ∧
    (∀ tm, Op.select tm ∉ ops ((handleTask task).trace env s)) := by
  obtain ⟨t1, s1, h⟩ := handleTask_trace_cases env task s
  have hl := lookupAndSend_trace_cases env task s1
  rcases h with ⟨_, h⟩ | ⟨hd, _, _⟩ | ⟨hd, _, _⟩
  · rw [h]
    rcases hl with ⟨e, hl⟩ | ⟨u, e, hl⟩ | ⟨u, ev, e, hl⟩ | ⟨u, ev, e, hl⟩ | ⟨u, ev, hl⟩ <;>
      rw [hl] <;> exact ⟨by simp [ops], by simp [ops]⟩
  · exact absurd hd hdue
  · exact absurd hd hdue

/-- A run of `handleTask` that does not wait and whose lookups succeed makes a
`Send`. -/
theorem handleTask_trace_send {σ : Type} (env : Env σ) (task : Task) (s : σ)
    (clock0 : Time) (hdue : ¬ 0 < timeUntil task.RemindAt (env.answer .now s).1)
    (hgood : ∀ c ∈ (handleTask task).trace env s, Call.good clock0 c) :
    ∃ sub msg rcpt r, (⟨.send sub msg rcpt, r⟩ : Call) ∈ (handleTask task).trace env s := by
  obtain ⟨t1, s1, h⟩ := handleTask_trace_cases env task s
  have hl := lookupAndSend_trace_cases env task s1
  rcases h with ⟨_, h⟩ | ⟨hd, _, _⟩ | ⟨hd, _, _⟩
  · rw [h] at hgood ⊢
    rcases hl with ⟨e, hl⟩ | ⟨u, e, hl⟩ | ⟨u, ev, e, hl⟩ | ⟨u, ev, e, hl⟩ | ⟨u, ev, hl⟩ <;>
      rw [hl] at hgood ⊢
    · exact absurd (hgood ⟨.getUserByID task.UserID, .error e⟩ (by simp)) (by simp [Call.good])
    · exact absurd (hgood ⟨.getEventByID task.EventID, .error e⟩ (by simp))
        (by simp [Call.good])
    · exact ⟨"Event reminder", reminderMessage ev.Description, u.Email, some e, by simp⟩
    · exact ⟨"Event reminder", reminderMessage ev.Description, u.Email, none, by simp⟩
    · exact ⟨"Event reminder", reminderMessage ev.Description, u.Email, none, by simp⟩
  · exact absurd hd hdue
  · exact absurd hd hdue

/-- A handler goroutine for a task that was due when the clock started, in a
system whose lookups succeed: it has not waited, and if it has finished it has
made a `Send`. -/
theorem handler_due_progress (task : Task) (cs : List Call) (q : Prog Unit) (clock0 : Time)
    (hpath : Prog.Path (handleTask task) cs q) (hgood : ∀ c ∈ cs, Call.good clock0 c)
    (hdue : task.RemindAt ≤ clock0) :
    (∀ d, Op.after d ∉ ops cs) ∧ (∀ tm, Op.select tm ∉ ops cs) ∧
    (q = .ret () → ∃ sub msg rcpt r, (⟨.send sub msg rcpt, r⟩ : Call) ∈ cs) := by
  have hnowait : ∀ full : List Call, (handleTask task).trace replayEnv full = full →
      (∃ c rest, full = c :: rest ∧ Call.good clock0 c) →
      ¬ 0 < timeUntil task.RemindAt (replayEnv.answer .now full).1 := by
    intro full htr hhead hpos
    obtain ⟨c0, rest, hfull, hc0⟩ := hhead
    subst hfull
    obtain ⟨rest1, hrest⟩ := handleTask_trace_head replayEnv task (c0 :: rest)
    rw [htr] at hrest
    have hc : c0 = ⟨.now, (replayEnv.answer .now (c0 :: rest)).1⟩ := (List.cons.inj hrest).1
    have hle : clock0 ≤ (replayEnv.answer .now (c0 :: rest)).1 := by
      have h2 := hc0
      rw [hc] at h2
      exact h2
    have hlt := (Sub_pos_iff _ _).1 hpos
    exact absurd (le_trans hdue hle) (not_le.2 hlt)
  have hwait : (∀ d, Op.after d ∉ ops cs) ∧ (∀ tm, Op.select tm ∉ ops cs) := by
    cases cs with
    | nil => exact ⟨by simp [ops], by simp [ops]⟩
    | cons c0 cs1 =>
      obtain ⟨ds, a, hq⟩ := Prog.Path.complete q
      have hfull := hpath.trans hq
      have htr := hfull.trace_replay a rfl
      have hd := hnowait _ htr ⟨c0, cs1 ++ ds, rfl, hgood c0 (by simp)⟩
      have hnw := handleTask_trace_no_wait replayEnv task _ hd
      rw [htr] at hnw
      constructor
      · intro d hmem
        exact hnw.1 d (by simp only [ops, List.map_append, List.mem_append] at hmem ⊢
                          exact Or.inl hmem)
      · intro tm hmem
        exact hnw.2 tm (by simp only [ops, List.map_append, List.mem_append] at hmem ⊢
                           exact Or.inl hmem)
  refine ⟨hwait.1, hwait.2, ?_⟩
  intro hret
  subst hret
  have htr := hpath.trace_replay () rfl
  cases cs with
  | nil =>
    obtain ⟨rest1, hrest⟩ := handleTask_trace_head replayEnv task []
    rw [htr] at hrest
    cases hrest
  | cons c0 cs1 =>
    have hd := hnowait _ htr ⟨c0, cs1, rfl, hgood c0 (by simp)⟩
    have hsend := handleTask_trace_send replayEnv task _ clock0 hd (by rw [htr]; exact hgood)
    rw [htr] at hsend
    exact hsend

/-! ## The loop of `Run` and `Stop` (C7-C9) -/

/-- The schedule `schedSubmit` leads to `stateSubmit`. -/
theorem exec_schedSubmit :
    Sys.exec okCollab (Sys.init () 1 200) schedSubmit = some stateSubmit := rfl

/-- The schedule `schedDrain` leads to `stateDrain`. -/
theorem exec_schedDrain :
    Sys.exec okCollab (Sys.init () 1 200) schedDrain = some stateDrain := rfl

/-- C9: in every reachable state in which `Run` is in its loop, an iteration of
the loop either receives from the closed and empty intake channel, logs, closes
`done` and returns; or observes the cancelled context, logs, closes `done` and
returns; or dequeues the oldest task, starts a handler goroutine for it and
stays in the loop. No step of another goroutine makes `Run` return or closes
`done`. -/
theorem Run_returns_only_when_closed_or_cancelled {σ : Type} (c : Collab σ) (store : σ)
    (buffer : Nat) (clock : Time) (sched : List Step) (s s1 : Sys σ) (l : Step)
    (hreach : Sys.exec c (Sys.init store buffer clock) sched = some s)
    (hrun : s.run = .looping) (hstep : Sys.step c s l = some s1) :
    (l = .runRecv ∨ l = .runCtxDone →
      (l = .runRecv ∧ s.tasks.closed = true ∧ s.tasks.buf = [] ∧
        s1.run = .returned ∧ s1.done = true ∧ s1.handlers = s.handlers ∧
        s1.events = s.events ++
          [.log "Reminder worker stopped, channel closed", .doneClosed, .runReturned]) ∨
      (l = .runCtxDone ∧ s.cancelled = true ∧
        s1.run = .returned ∧ s1.done = true ∧ s1.handlers = s.handlers ∧
        s1.tasks.buf = s.tasks.buf ∧
        s1.events = s.events ++
          [.log "Reminder worker stopped by context", .doneClosed, .runReturned]) ∨
      (l = .runRecv ∧ ∃ t rest, s.tasks.buf = t :: rest ∧ s1.tasks.buf = rest ∧
        s1.handlers = s.handlers ++ [{ task := t, prog := handleTask t }] ∧
        s1.events = s.events ++ [.dispatched t] ∧
        s1.run = .looping ∧ s1.done = false)) ∧
    (l ≠ .runRecv → l ≠ .runCtxDone → s1.run = .looping ∧ s1.done = false) := by
  have hinv : s.Inv := Sys.Inv.of_exec c sched (Sys.Inv.init store buffer clock) hreach
  have hdone : s.done = false := by
    cases hd : s.done with
    | false => rfl
    | true =>
      have := hinv.done_iff.1 hd
      rw [hrun] at this
      cases this
  have hcr : s.crashed = false := by
    cases hb : s.crashed with
    | false => rfl
    | true => simp [Sys.step, hb] at hstep
  simp only [Sys.step, hcr, Bool.false_eq_true, if_false] at hstep
  cases l with
    | runRecv =>
      refine ⟨fun _ => ?_, fun h _ => absurd rfl h⟩
      simp only [Sys.runRecv] at hstep
      rw [if_pos hrun] at hstep
      split at hstep
      · rename_i t rest hbuf
        cases hstep
        exact Or.inr (Or.inr ⟨rfl, t, rest, hbuf, rfl, rfl, rfl, hrun, hdone⟩)
      · rename_i hbuf
        split at hstep
        · rename_i hclosed
          cases hstep
          rw [Sys.runReturn_open _ _ hdone]
          exact Or.inl ⟨rfl, hclosed, hbuf, rfl, rfl, rfl, rfl⟩
        · cases hstep
    | runCtxDone =>
      refine ⟨fun _ => ?_, fun _ h => absurd rfl h⟩
      simp only [Sys.runCtxDone] at hstep
      split at hstep
      · rename_i hc
        cases hstep
        rw [Sys.runReturn_open _ _ hdone]
        exact Or.inr (Or.inl ⟨rfl, hc.2, rfl, rfl, rfl, rfl, rfl⟩)
      · cases hstep
    | submit t =>
      refine ⟨fun h => (by rcases h with h | h <;> cases h), fun _ _ => ?_⟩
      obtain ⟨h1, h2, _⟩ := Sys.chanSend_frame t hstep
      exact ⟨h1.trans hrun, h2.trans hdone⟩
    | cancel =>
      refine ⟨fun h => (by rcases h with h | h <;> cases h), fun _ _ => ?_⟩
      cases hstep; exact ⟨hrun, hdone⟩
    | tick d =>
      refine ⟨fun h => (by rcases h with h | h <;> cases h), fun _ _ => ?_⟩
      cases hstep; exact ⟨hrun, hdone⟩
    | stopClose =>
      refine ⟨fun h => (by rcases h with h | h <;> cases h), fun _ _ => ?_⟩
      simp only [Sys.stopClose] at hstep
      split at hstep
      · split at hstep <;> cases hstep <;> exact ⟨hrun, hdone⟩
      · cases hstep
    | stopWait =>
      refine ⟨fun h => (by rcases h with h | h <;> cases h), fun _ _ => ?_⟩
      simp only [Sys.stopWait] at hstep
      split at hstep
      · cases hstep; exact ⟨hrun, hdone⟩
      · cases hstep
    | handler i pick =>
      refine ⟨fun h => (by rcases h with h | h <;> cases h), fun _ _ => ?_⟩
      obtain ⟨h1, h2, _⟩ := Sys.handlerStep_frame c i pick hstep
      exact ⟨h1.trans hrun, h2.trans hdone⟩

/-- Witness of C9: after one submission, the next iteration of `Run` dispatches
the task and stays in the loop. -/
theorem Run_returns_only_when_closed_or_cancelled_witness :
    (Step.runRecv = .runRecv ∨ Step.runRecv = .runCtxDone →
      (Step.runRecv = .runRecv ∧ stateSubmit.tasks.closed = true ∧
        stateSubmit.tasks.buf = [] ∧
        (Sys.dispatch exTask { stateSubmit with tasks := { stateSubmit.tasks with buf := [] } }).run
          = .returned ∧
        (Sys.dispatch exTask { stateSubmit with tasks := { stateSubmit.tasks with buf := [] } }).done
          = true ∧
        (Sys.dispatch exTask
          { stateSubmit with tasks := { stateSubmit.tasks with buf := [] } }).handlers
          = stateSubmit.handlers ∧
        (Sys.dispatch exTask
          { stateSubmit with tasks := { stateSubmit.tasks with buf := [] } }).events
          = stateSubmit.events ++
            [.log "Reminder worker stopped, channel closed", .doneClosed, .runReturned]) ∨
      (Step.runRecv = .runCtxDone ∧ stateSubmit.cancelled = true ∧
        (Sys.dispatch exTask { stateSubmit with tasks := { stateSubmit.tasks with buf := [] } }).run
          = .returned ∧
        (Sys.dispatch exTask { stateSubmit with tasks := { stateSubmit.tasks with buf := [] } }).done
          = true ∧
        (Sys.dispatch exTask
          { stateSubmit with tasks := { stateSubmit.tasks with buf := [] } }).handlers
          = stateSubmit.handlers ∧
        (Sys.dispatch exTask
          { stateSubmit with tasks := { stateSubmit.tasks with buf := [] } }).tasks.buf
          = stateSubmit.tasks.buf ∧
        (Sys.dispatch exTask
          { stateSubmit with tasks := { stateSubmit.tasks with buf := [] } }).events
          = stateSubmit.events ++
            [.log "Reminder worker stopped by context", .doneClosed, .runReturned]) ∨
      (Step.runRecv = .runRecv ∧ ∃ t rest, stateSubmit.tasks.buf = t :: rest ∧
        (Sys.dispatch exTask
          { stateSubmit with tasks := { stateSubmit.tasks with buf := [] } }).tasks.buf = rest ∧
        (Sys.dispatch exTask
          { stateSubmit with tasks := { stateSubmit.tasks with buf := [] } }).handlers
          = stateSubmit.handlers ++ [{ task := t, prog := handleTask t }] ∧
        (Sys.dispatch exTask
          { stateSubmit with tasks := { stateSubmit.tasks with buf := [] } }).events
          = stateSubmit.events ++ [.dispatched t] ∧
        (Sys.dispatch exTask { stateSubmit with tasks := { stateSubmit.tasks with buf := [] } }).run
          = .looping ∧
        (Sys.dispatch exTask { stateSubmit with tasks := { stateSubmit.tasks with buf := [] } }).done
          = false)) ∧
    (Step.runRecv ≠ .runRecv → Step.runRecv ≠ .runCtxDone →
      (Sys.dispatch exTask { stateSubmit with tasks := { stateSubmit.tasks with buf := [] } }).run
        = .looping ∧
      (Sys.dispatch exTask { stateSubmit with tasks := { stateSubmit.tasks with buf := [] } }).done
        = false) :=
  Run_returns_only_when_closed_or_cancelled okCollab () 1 200 schedSubmit stateSubmit
    (Sys.dispatch exTask { stateSubmit with tasks := { stateSubmit.tasks with buf := [] } })
    .runRecv exec_schedSubmit rfl rfl


/-- C8, as stated, fails: in the shutdown of `main` (the context is cancelled,
`Run` leaves its loop through `<-ctx.Done()`, then `Stop` is called) `Stop`
returns while the task submitted before it is still in the intake channel, and
no handler was ever started for it. -/
theorem Stop_returns_with_task_queued_after_cancel :
    (Sys.exec okCollab (Sys.init () 1 200) schedCancel).map (Sys.view 0) =
      some (.returned, .returned, true, true, true, [exTask], [exTask], [], [], []) := rfl

/-- C8, amended: `Stop` closes the intake channel, and when `Stop` has returned
and `Run` did not leave its loop through the case `<-ctx.Done()`, the intake
channel is closed and empty, `Run` has closed `done` and returned, and the
tasks dispatched to handler goroutines are exactly the tasks submitted, in the
order of submission: none was discarded. -/
theorem Stop_returns_after_drain_unless_cancelled {σ : Type} (c : Collab σ) (store : σ)
    (buffer : Nat) (clock : Time) (sched : List Step) (s : Sys σ)
    (hreach : Sys.exec c (Sys.init store buffer clock) sched = some s)
    (hstop : s.stop = .returned) (hctx : stoppedByContext ∉ s.events) :
    s.tasks.closed = true ∧ s.tasks.buf = [] ∧ s.done = true ∧ s.run = .returned ∧
    dispatchedTasks s.events = submittedTasks s.events ∧
    s.handlers.map Handler.task = submittedTasks s.events := by
  have hinv : s.Inv := Sys.Inv.of_exec c sched (Sys.Inv.init store buffer clock) hreach
  have hdone : s.done = true := hinv.stop_done hstop
  have hrun : s.run = .returned := hinv.done_iff.1 hdone
  have hempty : s.tasks.closed = true ∧ s.tasks.buf = [] := by
    rcases hinv.ret_cases hrun with hm | hm
    · exact absurd hm hctx
    · exact hm
  have hcons := hinv.conserve
  rw [hempty.2, List.append_nil] at hcons
  exact ⟨hempty.1, hempty.2, hdone, hrun, hcons.symm, hinv.handlersOf.trans hcons.symm⟩

/-- Witness of C8, amended: the normal shutdown `schedDrain`. -/
theorem Stop_returns_after_drain_unless_cancelled_witness :
    stateDrain.tasks.closed = true ∧ stateDrain.tasks.buf = [] ∧ stateDrain.done = true ∧
    stateDrain.run = .returned ∧
    dispatchedTasks stateDrain.events = submittedTasks stateDrain.events ∧
    stateDrain.handlers.map Handler.task = submittedTasks stateDrain.events :=
  Stop_returns_after_drain_unless_cancelled okCollab () 1 200 schedDrain stateDrain
    exec_schedDrain rfl (by simp [stateDrain, stoppedByContext])


/-- The schedule `schedSent` leads to `stateSent`. -/
theorem exec_schedSent :
    Sys.exec okCollab (Sys.init () 1 200) schedSent = some stateSent := rfl

/-- The lookups of `okCollab` succeed. -/
theorem okCollab_lookupsSucceed : okCollab.lookupsSucceed :=
  ⟨fun _ _ _ => ⟨_, rfl⟩, fun _ _ _ => ⟨_, rfl⟩⟩

/-- C7, as stated, fails: one task due in the past (100, with the clock at 200)
is submitted, then `Stop` is called and returns, with successful collaborators
and no cancellation, and at that point the handler goroutine of the task has
not performed a single operation: no `Send` has been attempted. -/
theorem Stop_returns_before_send_attempted :
    (Sys.exec okCollab (Sys.init () 1 200) schedDrain).map (Sys.view 1) =
      some (.returned, .returned, true, true, false, [], [exTask], [exTask], [exTask],
            [[]]) ∧
    exTask.RemindAt ≤ 200 :=
  ⟨rfl, by decide⟩

/-- C7, amended: when every task submitted was due at the time of its submission
(`fireAt` at or before the clock), the lookups succeed, `Stop` has returned and
`Run` did not leave its loop through `<-ctx.Done()`, then every submitted task
has its own handler goroutine, in the order of submission; none of these
goroutines has created a timer or blocked in a `select`; and each of them that
has run to its end has attempted `Send`. The goroutines that have not yet run
have attempted nothing. -/
theorem Stop_returns_with_due_tasks_dispatched {σ : Type} (c : Collab σ)
    (hc : c.lookupsSucceed) (store : σ) (buffer : Nat) (clock : Time) (sched : List Step)
    (s : Sys σ)
    (hreach : Sys.exec c (Sys.init store buffer clock) sched = some s)
    (hstop : s.stop = .returned) (hctx : stoppedByContext ∉ s.events)
    (hdue : ∀ t now, Ev.submitted t now ∈ s.events → t.RemindAt ≤ now) :
    s.handlers.map Handler.task = submittedTasks s.events ∧
    ∀ (i : Nat) (h : Handler), s.handlers[i]? = some h →
      (∀ d, Op.after d ∉ ops (callsOf i s.events)) ∧
      (∀ tm, Op.select tm ∉ ops (callsOf i s.events)) ∧
      (h.prog = .ret () →
        ∃ sub msg rcpt r, (⟨.send sub msg rcpt, r⟩ : Call) ∈ callsOf i s.events) := by
  have hinv0 : (Sys.init store buffer clock).Inv := Sys.Inv.init store buffer clock
  have hinv : s.Inv := Sys.Inv.of_exec c sched hinv0 hreach
  have hgood0 : (Sys.init store buffer clock).Good :=
    ⟨by intro t now hmem; simp [Sys.init] at hmem,
     by intro i h hi; simp [Sys.init] at hi⟩
  have hgood : s.Good := Sys.Good.good_exec c hc sched hgood0 hinv0 hreach
  have hrun : s.run = .returned := hinv.done_iff.1 (hinv.stop_done hstop)
  have hempty : s.tasks.buf = [] := by
    rcases hinv.ret_cases hrun with hm | hm
    · exact absurd hm hctx
    · exact hm.2
  have hcons := hinv.conserve
  rw [hempty, List.append_nil] at hcons
  have hall : s.handlers.map Handler.task = submittedTasks s.events :=
    hinv.handlersOf.trans hcons.symm
  refine ⟨hall, ?_⟩
  intro i h hi
  exact handler_due_progress h.task (callsOf i s.events) h.prog h.task.RemindAt
    (hinv.paths i h hi)
    (fun call hmem => Call.good_of_goodFor h.task call hdue (hgood.2 i h hi call hmem))
    (le_refl _)

/-- Witness of C7, amended: the shutdown `schedSent`, in which the handler
goroutine has run to its end before `Stop` is called. -/
theorem Stop_returns_with_due_tasks_dispatched_witness :
    stateSent.handlers.map Handler.task = submittedTasks stateSent.events ∧
    ∀ (i : Nat) (h : Handler), stateSent.handlers[i]? = some h →
      (∀ d, Op.after d ∉ ops (callsOf i stateSent.events)) ∧
      (∀ tm, Op.select tm ∉ ops (callsOf i stateSent.events)) ∧
      (h.prog = .ret () →
        ∃ sub msg rcpt r, (⟨.send sub msg rcpt, r⟩ : Call) ∈ callsOf i stateSent.events) :=
  Stop_returns_with_due_tasks_dispatched okCollab okCollab_lookupsSucceed () 1 200 schedSent
    stateSent exec_schedSent rfl (by simp [stateSent, stoppedByContext])
    (by
      intro t now hmem
      simp only [stateSent, List.mem_cons, Ev.submitted.injEq, reduceCtorEq, List.mem_nil_iff,
        or_false, false_or] at hmem
      obtain ⟨rfl, rfl⟩ := hmem
      decide)

/-! ## The wait of a handler goroutine (C2) -/

/-- A list that ends with the only element of its kind is cut in one way only
at an element of that kind. -/
theorem append_cons_eq_snoc {α : Type} (P : α → Prop) (a b : α) (ha : P a) :
    ∀ (l3 l1 l2 : List α), (∀ x ∈ l3, ¬ P x) → l1 ++ a :: l2 = l3 ++ [b] →
      l1 = l3 ∧ a = b ∧ l2 = [] := by
  intro l3
  induction l3 with
  | nil =>
    intro l1 l2 _ h
    cases l1 with
    | nil =>
      simp at h
      exact ⟨rfl, h.1, h.2⟩
    | cons y l1 =>
      simp at h
  | cons x l3 ih =>
    intro l1 l2 hl3 h
    cases l1 with
    | nil =>
      simp at h
      exact absurd (h.1 ▸ ha) (hl3 x (by simp))
    | cons y l1 =>
      simp only [List.cons_append, List.cons.injEq] at h
      obtain ⟨h1, h2, h3⟩ := ih l1 l2 (fun z hz => hl3 z (by simp [hz])) h.2
      exact ⟨by rw [h.1, h1], h2, h3⟩

/-- The schedule `schedWaiting` leads to `stateWaiting`. -/
theorem exec_schedWaiting :
    Sys.exec okCollab (Sys.init () 1 0) schedWaiting = some stateWaiting := rfl

/-! ## The order of dispatch (C14) -/

/-- The schedule `schedTwo` leads to `stateTwo`. -/
theorem exec_schedTwo :
    Sys.exec okCollab (Sys.init () 2 200) schedTwo = some stateTwo := rfl

/-- C14: in every reachable state the tasks for which `Run` has started a handler
are an initial segment of the tasks submitted, in the order of submission, the
rest of the submitted tasks being those still queued, in order; and there is
exactly one handler goroutine per dispatched task, in the same order, so that
no dequeued task is dispatched twice or handed to two handlers. -/
theorem Run_dispatches_in_submission_order {σ : Type} (c : Collab σ) (store : σ)
    (buffer : Nat) (clock : Time) (sched : List Step) (s : Sys σ)
    (hreach : Sys.exec c (Sys.init store buffer clock) sched = some s) :
    dispatchedTasks s.events <+: submittedTasks s.events ∧
    submittedTasks s.events = dispatchedTasks s.events ++ s.tasks.buf ∧
    s.handlers.map Handler.task = dispatchedTasks s.events ∧
    s.handlers.length = (dispatchedTasks s.events).length := by
  have hinv : s.Inv := Sys.Inv.of_exec c sched (Sys.Inv.init store buffer clock) hreach
  refine ⟨⟨s.tasks.buf, hinv.conserve.symm⟩, hinv.conserve, hinv.handlersOf, ?_⟩
  rw [← hinv.handlersOf, List.length_map]

/-- Witness of C14: two tasks submitted, the first one dispatched. -/
theorem Run_dispatches_in_submission_order_witness :
    dispatchedTasks stateTwo.events <+: submittedTasks stateTwo.events ∧
    submittedTasks stateTwo.events = dispatchedTasks stateTwo.events ++ stateTwo.tasks.buf ∧
    stateTwo.handlers.map Handler.task = dispatchedTasks stateTwo.events ∧
    stateTwo.handlers.length = (dispatchedTasks stateTwo.events).length :=
  Run_dispatches_in_submission_order okCollab () 2 200 schedTwo stateTwo exec_schedTwo

/-! ## Paths of the handler goroutines -/

/-- A path that starts with a call starts with the first operation of the
program. -/
theorem Prog.Path.cons_inv {α : Type} {o : Op} {k : Res o → Prog α} {x : Call}
    {cs : List Call} {q : Prog α} (h : Prog.Path (.op o k) (x :: cs) q) :
    ∃ r : Res o, x = ⟨o, r⟩ ∧ Prog.Path (k r) cs q := by
  cases h with
  | cons _ _ r _ _ h1 => exact ⟨r, rfl, h1⟩

/-- A path from a program that has returned has no call. -/
theorem Prog.Path.ret_no_call {α : Type} {a : α} {x : Call} {cs : List Call} {q : Prog α}
    (h : Prog.Path (.ret a) (x :: cs) q) : False := by
  cases h

/-- Two paths from the same program that agree up to some point continue with
the same operation: what a program does next depends on the results it was
given and on nothing else. -/
theorem Prog.Path.same_op {α : Type} :
    ∀ (l : List Call) {p q q1 : Prog α} {x x1 : Call} {r r1 : List Call},
      Prog.Path p (l ++ x :: r) q → Prog.Path p (l ++ x1 :: r1) q1 → x.1 = x1.1 := by
  intro l
  induction l with
  | nil =>
    intro p q q1 x x1 r r1 h h1
    cases p with
    | ret a => exact (h.ret_no_call).elim
    | op o k =>
      obtain ⟨_, hx, _⟩ := h.cons_inv
      obtain ⟨_, hx1, _⟩ := h1.cons_inv
      rw [hx, hx1]
  | cons y l ih =>
    intro p q q1 x x1 r r1 h h1
    cases p with
    | ret a => exact (h.ret_no_call).elim
    | op o k =>
      obtain ⟨ry, hy, hp⟩ := Prog.Path.cons_inv (show Prog.Path (.op o k) (y :: (l ++ x :: r)) q from h)
      obtain ⟨ry1, hy1, hp1⟩ :=
        Prog.Path.cons_inv (show Prog.Path (.op o k) (y :: (l ++ x1 :: r1)) q1 from h1)
      have hr : ry = ry1 := by
        have := hy.symm.trans hy1
        simpa using this
      subst hr
      exact ih hp hp1

/-- What a step of a handler goroutine is made of: the operation its body is
at, what the operation does to the system, and the record of the call. -/
theorem Sys.handlerStep_inv {σ : Type} {s s1 : Sys σ} (c : Collab σ) (i : Nat)
    (pick : SelectResult) (hstep : Sys.handlerStep c s i pick = some s1) :
    ∃ (t : Task) (o : Op) (k : Res o → Prog Unit) (r : Res o) (s2 : Sys σ),
      s.handlers[i]? = some { task := t, prog := .op o k } ∧
      Sys.perform c s pick o = some (r, s2) ∧
      s1 = { s2 with handlers := s2.handlers.set i { task := t, prog := k r },
                     events := s2.events ++ [.call i ⟨o, r⟩] } := by
  unfold Sys.handlerStep at hstep
  cases hi : s.handlers[i]? with
  | none => rw [hi] at hstep; cases hstep
  | some hh =>
    rw [hi] at hstep
    obtain ⟨t, p⟩ := hh
    cases p with
    | ret a => cases hstep
    | op o k =>
      simp only at hstep
      cases hp : Sys.perform c s pick o with
      | none => rw [hp] at hstep; cases hstep
      | some rs =>
        obtain ⟨r, s2⟩ := rs
        rw [hp] at hstep
        cases hstep
        exact ⟨t, o, k, r, s2, rfl, hp, rfl⟩

/-- No run of `handleTask` sends on the intake channel. -/
theorem handleTask_trace_no_submit {σ : Type} (env : Env σ) (task : Task) (s : σ) (t : Task) :
    Op.submit t ∉ ops ((handleTask task).trace env s) := by
  obtain ⟨t1, s1, h⟩ := handleTask_trace_cases env task s
  have hl := lookupAndSend_trace_cases env task s1
  rcases h with ⟨_, h⟩ | ⟨_, tm1, h⟩ | ⟨hd, tm1, h⟩
  · rw [h]
    rcases hl with ⟨e, hl⟩ | ⟨u, e, hl⟩ | ⟨u, ev, e, hl⟩ | ⟨u, ev, e, hl⟩ | ⟨u, ev, hl⟩ <;>
      rw [hl] <;> simp [ops]
  · rw [h]
    rcases hl with ⟨e, hl⟩ | ⟨u, e, hl⟩ | ⟨u, ev, e, hl⟩ | ⟨u, ev, e, hl⟩ | ⟨u, ev, hl⟩ <;>
      rw [hl] <;> simp [ops]
  · rw [h]
    simp [ops]

/-- The body of a handler goroutine is never at a send on the intake channel. -/
theorem handleTask_path_no_submit (task : Task) (cs : List Call) (o : Op)
    (k : Res o → Prog Unit) (h : Prog.Path (handleTask task) cs (.op o k)) (t : Task) :
    o ≠ .submit t := by
  intro ho
  have hpath := h.snoc (Res.default o)
  obtain ⟨ds, a, hq⟩ := Prog.Path.complete (k (Res.default o))
  have htr := (hpath.trans hq).trace_replay a rfl
  have hno := handleTask_trace_no_submit replayEnv task
    (cs ++ [⟨o, Res.default o⟩] ++ ds) t
  rw [htr] at hno
  apply hno
  simp [ops, ho]

/-- An operation other than a send on the intake channel changes the store at
most. -/
theorem Sys.perform_store_only {σ : Type} {s s1 : Sys σ} (c : Collab σ)
    (pick : SelectResult) (o : Op) (r : Res o) (hno : ∀ t, o ≠ .submit t)
    (hp : Sys.perform c s pick o = some (r, s1)) :
    s1.tasks = s.tasks ∧ s1.handlers = s.handlers ∧ s1.events = s.events ∧
    s1.done = s.done ∧ s1.run = s.run ∧ s1.stop = s.stop := by
  cases o with
  | now => simp [Sys.perform] at hp; obtain ⟨_, rfl⟩ := hp; simp
  | log l m => simp [Sys.perform] at hp; subst hp; simp
  | after d => simp [Sys.perform] at hp; obtain ⟨_, rfl⟩ := hp; simp
  | select tm =>
    cases pick <;> simp [Sys.perform] at hp <;> obtain ⟨_, _, rfl⟩ := hp <;> simp
  | getUserByID id => simp [Sys.perform] at hp; obtain ⟨_, rfl⟩ := hp; simp
  | getEventByID id => simp [Sys.perform] at hp; obtain ⟨_, rfl⟩ := hp; simp
  | send a b d => simp [Sys.perform] at hp; obtain ⟨_, rfl⟩ := hp; simp
  | markReminderSent id => simp [Sys.perform] at hp; obtain ⟨_, rfl⟩ := hp; simp
  | submit t => exact absurd rfl (hno t)

/-! ## The wait of a handler goroutine, to its end (C11) -/

/-- A path between two different operations starts with a call of the first. -/
theorem Prog.Path.step_of_ne {α : Type} {o o1 : Op} {K : Res o → Prog α}
    {k : Res o1 → Prog α} {cs : List Call} (hne : o ≠ o1)
    (h : Prog.Path (.op o K) cs (.op o1 k)) :
    ∃ (r : Res o) (cs1 : List Call), cs = ⟨o, r⟩ :: cs1 ∧ Prog.Path (K r) cs1 (.op o1 k) := by
  cases cs with
  | nil =>
    have heq := h.of_nil rfl
    simp only [Prog.op.injEq] at heq
    exact absurd heq.1 hne
  | cons x cs1 =>
    obtain ⟨r, hx, hp⟩ := h.cons_inv
    exact ⟨r, cs1, by rw [hx], hp⟩

/-- From a program that has returned no operation is reached. -/
theorem Prog.Path.ret_ne_op {α : Type} {a : α} {o : Op} {k : Res o → Prog α}
    {cs : List Call} (h : Prog.Path (.ret a) cs (.op o k)) : False := by
  have := h.of_ret.2
  cases this

/-- The part of `handleTask` after the wait never blocks in a `select`. -/
theorem lookupAndSend_no_select (task : Task) (cs : List Call) (tm : Timer)
    (k : Res (.select tm) → Prog Unit)
    (h : Prog.Path (lookupAndSend task) cs (.op (.select tm) k)) : False := by
  unfold lookupAndSend at h
  obtain ⟨_, cs1, _, h1⟩ := h.step_of_ne (by simp)
  obtain ⟨ru, cs2, _, h2⟩ := h1.step_of_ne (by simp)
  cases ru with
  | error e =>
    obtain ⟨_, cs3, _, h3⟩ := Prog.Path.step_of_ne (by simp) h2
    exact h3.ret_ne_op
  | ok user =>
    obtain ⟨rev, cs3, _, h3⟩ := Prog.Path.step_of_ne (by simp) h2
    cases rev with
    | error e =>
      obtain ⟨_, cs4, _, h4⟩ := Prog.Path.step_of_ne (by simp) h3
      exact h4.ret_ne_op
    | ok event =>
      obtain ⟨rs, cs4, _, h4⟩ := Prog.Path.step_of_ne (by simp) h3
      cases rs with
      | some e =>
        obtain ⟨_, cs5, _, h5⟩ := Prog.Path.step_of_ne (by simp) h4
        exact h5.ret_ne_op
      | none =>
        obtain ⟨rm, cs5, _, h5⟩ := Prog.Path.step_of_ne (by simp) h4
        cases rm with
        | some e =>
          obtain ⟨_, cs6, _, h6⟩ := Prog.Path.step_of_ne (by simp) h5
          exact h6.ret_ne_op
        | none => exact Prog.Path.ret_ne_op h5

/-- A handler goroutine blocked in a `select` is in the wait of `handleTask`: it
has read the clock twice, logged, and made the timer with
`time.After(delay)`, the delay being positive; what follows is `afterSelect`. -/
theorem handler_at_select (task : Task) (cs : List Call) (tm : Timer)
    (k : Res (.select tm) → Prog Unit)
    (h : Prog.Path (handleTask task) cs (.op (.select tm) k)) :
    ∃ t0 t1 : Time,
      cs = [⟨.now, t0⟩, ⟨.now, t1⟩, ⟨.log .info "Sending reminder...", ()⟩,
            ⟨.after (timeUntil task.RemindAt t0), tm⟩] ∧
      0 < timeUntil task.RemindAt t0 ∧ k = afterSelect task := by
  unfold handleTask at h
  obtain ⟨t0, cs1, rfl, h1⟩ := h.step_of_ne (by simp)
  simp only at h1
  obtain ⟨t1, cs2, rfl, h2⟩ := h1.step_of_ne (by simp)
  obtain ⟨_, cs3, rfl, h3⟩ := h2.step_of_ne (by simp)
  by_cases hd : 0 < timeUntil task.RemindAt t0
  · simp only [hd, if_true] at h3
    obtain ⟨tm1, cs4, rfl, h4⟩ := h3.step_of_ne (by simp)
    cases cs4 with
    | nil =>
      have heq := h4.of_nil rfl
      simp only [Prog.op.injEq, Op.select.injEq] at heq
      obtain ⟨htm, hk⟩ := heq
      subst htm
      exact ⟨t0, t1, rfl, hd, (eq_of_heq hk).symm⟩
    | cons x cs5 =>
      obtain ⟨r, _, h5⟩ := h4.cons_inv
      cases r with
      | timer => exact (lookupAndSend_no_select task _ tm k h5).elim
      | ctxDone => exact (Prog.Path.ret_ne_op h5).elim
  · simp only [hd, if_false] at h3
    exact (lookupAndSend_no_select task _ tm k h3).elim

/-- A list with one more element at its end, cut at some element: the cut is at
the new element, or inside the old list. -/
theorem snoc_eq_append_cons {α : Type} (l pre post : List α) (c a : α)
    (h : l ++ [c] = pre ++ a :: post) :
    (post = [] ∧ l = pre ∧ c = a) ∨ ∃ post1, post = post1 ++ [c] ∧ l = pre ++ a :: post1 := by
  rcases List.eq_nil_or_concat post with hp | ⟨post1, b, hp⟩
  · subst hp
    have h2 := List.append_inj_left' h (by simp)
    have h3 := List.append_inj_right' h (by simp)
    simp only [List.cons.injEq, and_true] at h3
    exact Or.inl ⟨rfl, h2, h3⟩
  · rw [List.concat_eq_append] at hp
    subst hp
    have h1 : l ++ [c] = (pre ++ a :: post1) ++ [b] := by simpa using h
    have h2 := List.append_inj_left' h1 (by simp)
    have h3 := List.append_inj_right' h1 (by simp)
    simp only [List.cons.injEq, and_true] at h3
    subst h3
    exact Or.inr ⟨post1, rfl, h2⟩

/-- The clock readings and timers are as they should be when the worker starts. -/
theorem Sys.Timed.timed_init {σ : Type} (store : σ) (buffer : Nat) (clock : Time) :
    (Sys.init store buffer clock).Timed := by
  constructor
  · intro i t hmem
    simp [Sys.init] at hmem
  · intro i pre post d tm hcs
    simp [Sys.init] at hcs

/-- A quiet step keeps the clock readings and timers as they should be. -/
theorem Sys.Timed.timed_quiet {σ : Type} {s s1 : Sys σ} (h : s.Timed) (hq : s.Quiet s1) :
    s1.Timed := by
  obtain ⟨hclock, _, _, hcalls, _⟩ := hq
  constructor
  · intro i t hmem
    rw [hcalls i] at hmem
    exact le_trans (h.1 i t hmem) hclock
  · intro i pre post d tm hcs
    rw [hcalls i] at hcs
    exact h.2 i pre post d tm hcs

/-- What the clock and a new timer answer to a handler. -/
theorem Sys.perform_timed {σ : Type} {s s1 : Sys σ} (c : Collab σ) (pick : SelectResult)
    (o : Op) (r : Res o) (hp : Sys.perform c s pick o = some (r, s1)) :
    (∀ t : Time, (⟨o, r⟩ : Call) = ⟨.now, t⟩ → t = s.clock) ∧
    (∀ (d : Duration) (tm : Timer), (⟨o, r⟩ : Call) = ⟨.after d, tm⟩ →
      tm.deadline = s.clock + d) := by
  cases o with
  | now =>
    simp [Sys.perform] at hp
    obtain ⟨rfl, _⟩ := hp
    exact ⟨fun t ht => by simpa using ht.symm, fun d tm ht => by simp at ht⟩
  | after d0 =>
    simp [Sys.perform] at hp
    obtain ⟨rfl, _⟩ := hp
    refine ⟨fun t ht => by simp at ht, fun d tm ht => ?_⟩
    simp only [Sigma.mk.inj_iff, Op.after.injEq] at ht
    obtain ⟨hd, htm⟩ := ht
    subst hd
    rw [← eq_of_heq htm]
  | log l m => exact ⟨fun t ht => by simp at ht, fun d tm ht => by simp at ht⟩
  | select tm0 => exact ⟨fun t ht => by simp at ht, fun d tm ht => by simp at ht⟩
  | getUserByID id => exact ⟨fun t ht => by simp at ht, fun d tm ht => by simp at ht⟩
  | getEventByID id => exact ⟨fun t ht => by simp at ht, fun d tm ht => by simp at ht⟩
  | send a b e => exact ⟨fun t ht => by simp at ht, fun d tm ht => by simp at ht⟩
  | markReminderSent id => exact ⟨fun t ht => by simp at ht, fun d tm ht => by simp at ht⟩
  | submit t0 => exact ⟨fun t ht => by simp at ht, fun d tm ht => by simp at ht⟩

/-- Recording a call of handler goroutine `i` keeps the clock readings and timers
as they should be, when a clock reading is the clock and a new timer delivers
after its duration. -/
theorem Sys.Timed.timed_record {σ : Type} {s : Sys σ} (h : s.Timed) (i : Nat)
    (hs : List Handler) (x : Call)
    (hnow : ∀ t : Time, x = ⟨.now, t⟩ → t = s.clock)
    (hafter : ∀ (d : Duration) (tm : Timer), x = ⟨.after d, tm⟩ →
      tm.deadline = s.clock + d) :
    Sys.Timed { s with handlers := hs, events := s.events ++ [.call i x] } := by
  have hcalls : ∀ j, callsOf j (s.events ++ [Ev.call i x]) =
      callsOf j s.events ++ (if i = j then [x] else []) := by
    intro j
    by_cases hij : i = j <;> simp [Ev.callOf, hij]
  constructor
  · intro j t hmem
    show t ≤ s.clock
    have hmem1 : (⟨.now, t⟩ : Call) ∈ callsOf j (s.events ++ [Ev.call i x]) := hmem
    rw [hcalls j, List.mem_append] at hmem1
    rcases hmem1 with hm | hm
    · exact h.1 j t hm
    · by_cases hij : i = j
      · simp only [hij, if_true, List.mem_singleton] at hm
        exact le_of_eq (hnow t hm.symm)
      · simp [hij] at hm
  · intro j pre post d tm hcs
    have hcs1 : callsOf j (s.events ++ [Ev.call i x]) = pre ++ ⟨.after d, tm⟩ :: post := hcs
    rw [hcalls j] at hcs1
    by_cases hij : i = j
    · simp only [hij, if_true] at hcs1
      rcases snoc_eq_append_cons _ _ _ _ _ hcs1 with ⟨_, hpre, hx⟩ | ⟨post1, _, hold⟩
      · intro t hmem
        rw [← hpre] at hmem
        have h1 := h.1 j t hmem
        have h2 := hafter d tm hx
        rw [h2]
        exact add_le_add_right h1 d
      · exact h.2 j pre post1 d tm hold
    · simp only [hij, if_false, List.append_nil] at hcs1
      exact h.2 j pre post d tm hcs1

/-- Every step keeps the clock readings and timers as they should be. -/
theorem Sys.Timed.timed_step {σ : Type} {s s1 : Sys σ} (c : Collab σ) (h : s.Timed)
    (l : Step) (hstep : Sys.step c s l = some s1) : s1.Timed := by
  have hcr : s.crashed = false := by
    cases hb : s.crashed with
    | false => rfl
    | true => simp [Sys.step, hb] at hstep
  simp only [Sys.step, hcr, Bool.false_eq_true, if_false] at hstep
  cases l with
  | submit t => exact h.timed_quiet (Sys.chanSend_quiet t hstep)
  | cancel =>
    simp only [Option.some.injEq] at hstep
    subst hstep
    exact h.timed_quiet (Sys.Quiet.of_append _ _ [.cancelled] (le_refl _) rfl (by simp)
      (by simp [Ev.callOf]) (fun _ _ hi => Or.inl hi))
  | tick d =>
    simp only [Option.some.injEq] at hstep
    subst hstep
    exact h.timed_quiet (Sys.Quiet.of_append _ _ []
      (le_add_of_nonneg_right (Int.ofNat_nonneg d)) (by simp) (by simp) (by simp)
      (fun _ _ hi => Or.inl hi))
  | runRecv => exact h.timed_quiet (Sys.runRecv_quiet hstep)
  | runCtxDone => exact h.timed_quiet (Sys.runCtxDone_quiet hstep)
  | stopClose => exact h.timed_quiet (Sys.stopClose_quiet hstep)
  | stopWait => exact h.timed_quiet (Sys.stopWait_quiet hstep)
  | handler i pick =>
    obtain ⟨t, o, k, r, s2, _, hperf, rfl⟩ := Sys.handlerStep_inv c i pick hstep
    have hq := Sys.perform_quiet c pick o r hperf
    have hclock : s2.clock = s.clock := (Sys.perform_frame c pick o r hperf).2.2.2.1
    obtain ⟨hnow, hafter⟩ := Sys.perform_timed c pick o r hperf
    exact (h.timed_quiet hq).timed_record i _ ⟨o, r⟩
      (fun t0 ht => by rw [hclock]; exact hnow t0 ht)
      (fun d tm ht => by rw [hclock]; exact hafter d tm ht)

/-- The clock readings and timers are as they should be after every schedule. -/
theorem Sys.Timed.timed_exec {σ : Type} (c : Collab σ) (sched : List Step) :
    ∀ {s s1 : Sys σ}, s.Timed → Sys.exec c s sched = some s1 → s1.Timed := by
  induction sched with
  | nil =>
    intro s s1 h hexec
    cases hexec
    exact h
  | cons l ls ih =>
    intro s s1 h hexec
    simp only [Sys.exec] at hexec
    cases hstep : Sys.step c s l with
    | none => rw [hstep] at hexec; cases hexec
    | some s2 =>
      rw [hstep] at hexec
      exact ih (h.timed_step c l hstep) hexec

/-- The step of a handler goroutine whose next operation can be performed. -/
theorem Sys.step_handler_eq {σ : Type} {s s2 : Sys σ} (c : Collab σ) (i : Nat)
    (pick : SelectResult) (t : Task) (o : Op) (k : Res o → Prog Unit) (r : Res o)
    (hcr : s.crashed = false) (hi : s.handlers[i]? = some { task := t, prog := .op o k })
    (hp : Sys.perform c s pick o = some (r, s2)) :
    Sys.step c s (.handler i pick) =
      some { s2 with handlers := s2.handlers.set i { task := t, prog := k r },
                     events := s2.events ++ [.call i ⟨o, r⟩] } := by
  simp [Sys.step, Sys.handlerStep, hcr, hi, hp]

/-- Three steps in a row. -/
theorem Sys.exec_three {σ : Type} {s s1 s2 s3 : Sys σ} {c : Collab σ} {a b d : Step}
    (h1 : Sys.step c s a = some s1) (h2 : Sys.step c s1 b = some s2)
    (h3 : Sys.step c s2 d = some s3) : Sys.exec c s [a, b, d] = some s3 := by
  simp [Sys.exec, h1, h2, h3]

/-- The schedule `schedTimer` leads to `stateTimer`. -/
theorem exec_schedTimer :
    Sys.exec okCollab (Sys.init () 1 0) schedTimer = some stateTimer := rfl

/-! ## What the handler uses of the fetched event (C30) -/

/-- The changed world answers `GetEventByID` with the changed event. -/
theorem Env.mapEvent_getEvent {σ : Type} (env : Env σ) (f : Event → Event) (id : UUID)
    (s : σ) :
    (env.mapEvent f).answer (.getEventByID id) s =
      (Except.map f (env.answer (.getEventByID id) s).1,
       (env.answer (.getEventByID id) s).2) := rfl

/-- The changed world reads the clock as before. -/
theorem Env.mapEvent_now {σ : Type} (env : Env σ) (f : Event → Event) (s : σ) :
    (env.mapEvent f).answer .now s = env.answer .now s := rfl

/-- The changed world logs as before. -/
theorem Env.mapEvent_log {σ : Type} (env : Env σ) (f : Event → Event) (l : Level)
    (m : String) (s : σ) :
    (env.mapEvent f).answer (.log l m) s = env.answer (.log l m) s := rfl

/-- The changed world makes timers as before. -/
theorem Env.mapEvent_after {σ : Type} (env : Env σ) (f : Event → Event) (d : Duration)
    (s : σ) :
    (env.mapEvent f).answer (.after d) s = env.answer (.after d) s := rfl

/-- The changed world answers a `select` as before. -/
theorem Env.mapEvent_select {σ : Type} (env : Env σ) (f : Event → Event) (tm : Timer)
    (s : σ) :
    (env.mapEvent f).answer (.select tm) s = env.answer (.select tm) s := rfl

/-- The changed world answers every other operation as before. -/
theorem Env.mapEvent_other {σ : Type} (env : Env σ) (f : Event → Event) (o : Op) (s : σ)
    (ho : ∀ id, o ≠ .getEventByID id) :
    (env.mapEvent f).answer o s = env.answer o s := by
  cases o with
  | getEventByID id => exact absurd rfl (ho id)
  | _ => rfl

/-- The part of the handler after the wait, when the fetched event is changed
without changing its description: the same calls with the same results, but for
the event fetched. -/
theorem lookupAndSend_mapEvent {σ : Type} (env : Env σ) (f : Event → Event) (task : Task)
    (s : σ) (hf : ∀ e, (f e).Description = e.Description) :
    (lookupAndSend task).trace (env.mapEvent f) s =
      ((lookupAndSend task).trace env s).map (Call.mapEvent f) := by
  have hlog : ∀ l m (st : σ), (env.mapEvent f).answer (.log l m) st = env.answer (.log l m) st :=
    fun l m st => rfl
  have huser : ∀ id (st : σ),
      (env.mapEvent f).answer (.getUserByID id) st = env.answer (.getUserByID id) st :=
    fun id st => rfl
  have hsend : ∀ a b c (st : σ),
      (env.mapEvent f).answer (.send a b c) st = env.answer (.send a b c) st :=
    fun a b c st => rfl
  have hmark : ∀ id (st : σ),
      (env.mapEvent f).answer (.markReminderSent id) st = env.answer (.markReminderSent id) st :=
    fun id st => rfl
  simp only [lookupAndSend, Prog.trace_op, hlog, huser]
  generalize (env.answer (.log .info "Sending reminder...") s).2 = s1
  rcases hu : env.answer (.getUserByID task.UserID) s1 with ⟨ru, s2⟩
  cases ru with
  | error e => simp [Call.mapEvent, hlog]
  | ok u =>
    simp only [Prog.trace_op, Env.mapEvent_getEvent]
    rcases hev : env.answer (.getEventByID task.EventID) s2 with ⟨rev, s3⟩
    cases rev with
    | error e => simp [Call.mapEvent, Except.map, hlog]
    | ok ev =>
      simp only [Except.map, Prog.trace_op, hsend]
      have hd := hf ev
      generalize (f ev).Description = d at hd ⊢
      subst hd
      rcases hs : env.answer
        (.send "Event reminder" (reminderMessage ev.Description) u.Email) s3 with ⟨rs, s4⟩
      cases rs with
      | some e => simp [Call.mapEvent, Except.map, hlog]
      | none =>
        simp only [Prog.trace_op, hmark]
        rcases hm : env.answer (.markReminderSent task.EventID) s4 with ⟨rm, s5⟩
        cases rm with
        | some e => simp [Call.mapEvent, Except.map, hlog]
        | none => simp [Call.mapEvent, Except.map]


/-- Changing the event a call fetched does not change its operation. -/
theorem Call.mapEvent_fst (f : Event → Event) (c : Call) : (Call.mapEvent f c).1 = c.1 := by
  rcases c with ⟨o, r⟩
  cases o <;> rfl

/-- The operations of a trace do not depend on the events fetched. -/
theorem ops_map_mapEvent (f : Event → Event) (tr : List Call) :
    ops (tr.map (Call.mapEvent f)) = ops tr := by
  simp [ops, List.map_map, Function.comp_def, Call.mapEvent_fst]

/-- C30: the handler run in two worlds that differ only in the event
`GetEventByID` returns, the one being the other changed by any `f` that keeps
the description (so `Sent`, `RemindAt`, `Date`, the timestamps and the
identifiers may all differ). The calls are the same, with the same arguments and
the same results, but for the event fetched: in particular the same `Send`, with
the message made of the description, and the same `MarkReminderSent`, also when
the fetched event has `Sent` set or another `RemindAt` than the task. -/
theorem handleTask_uses_description_only {σ : Type} (env : Env σ) (f : Event → Event)
    (task : Task) (s : σ) (hf : ∀ e, (f e).Description = e.Description) :
    (handleTask task).trace (env.mapEvent f) s =
      ((handleTask task).trace env s).map (Call.mapEvent f) ∧
    ops ((handleTask task).trace (env.mapEvent f) s) = ops ((handleTask task).trace env s) ∧
    collabCalls ((handleTask task).trace (env.mapEvent f) s) =
      collabCalls ((handleTask task).trace env s) := by
  have htrace : (handleTask task).trace (env.mapEvent f) s =
      ((handleTask task).trace env s).map (Call.mapEvent f) := by
    simp only [handleTask, Prog.trace_op]
    dsimp only [Env.mapEvent_now, Env.mapEvent_log]
    by_cases hd : 0 < timeUntil task.RemindAt (env.answer .now s).1
    · simp only [hd, if_true, Prog.trace_op]
      dsimp only [Env.mapEvent_after, Env.mapEvent_select]
      cases hpick : (env.answer (.select (env.answer (.after
          (timeUntil task.RemindAt (env.answer .now s).1))
          (env.answer (.log .info "Sending reminder...")
            (env.answer .now (env.answer .now s).2).2).2).1)
          (env.answer (.after (timeUntil task.RemindAt (env.answer .now s).1))
            (env.answer (.log .info "Sending reminder...")
              (env.answer .now (env.answer .now s).2).2).2).2).1 with
      | timer => simp [afterSelect, lookupAndSend_mapEvent env f task _ hf, Call.mapEvent]
      | ctxDone => simp [afterSelect, Call.mapEvent]
    · simp only [hd, if_false]
      simp [lookupAndSend_mapEvent env f task _ hf, Call.mapEvent]
  refine ⟨htrace, ?_, ?_⟩
  · rw [htrace, ops_map_mapEvent]
  · have h := ops_map_mapEvent f ((handleTask task).trace env s)
    rw [htrace]
    simp only [ops] at h
    simp only [collabCalls, h]

/-- Witness of C30: in the world of `exScript` with the fetched event changed to
one whose reminder was already sent, the handler sends the same reminder. -/
theorem handleTask_uses_description_only_witness :
    collabCalls ((handleTask exTask).trace (exScript.env.mapEvent alreadySent) ()) =
      collabCalls ((handleTask exTask).trace exScript.env ()) ∧
    collabCalls ((handleTask exTask).trace (exScript.env.mapEvent alreadySent) ()) =
      [.getUserByID 3, .getEventByID 7,
       .send "Event reminder" (reminderMessage "standup") "ann@example.com",
       .markReminderSent 7] :=
  ⟨(handleTask_uses_description_only exScript.env alreadySent exTask ()
      (fun _ => rfl)).2.2, rfl⟩

/-! ## The channel `done` is closed once (C28) -/

/-- At the start `done` is open and nothing has happened. -/
theorem Sys.Once.once_init {σ : Type} (store : σ) (buffer : Nat) (clock : Time) :
    (Sys.init store buffer clock).Once := by
  simp [Sys.Once, Sys.init]

/-- Events that are none of `close(w.done)`, an exit of `Run`, a double close
and, once `done` is closed, a dispatch, keep what holds of `done`. -/
theorem Sys.Once.once_append {σ : Type} {s s1 : Sys σ} (h : s.Once) (extra : List Ev)
    (hev : s1.events = s.events ++ extra) (hdone : s1.done = s.done)
    (h1 : extra.countP Ev.isDoneClosed = 0) (h2 : extra.countP Ev.isRunExit = 0)
    (h3 : extra.countP Ev.isDoubleClose = 0)
    (h4 : s.done = true → dispatchedTasks extra = []) : s1.Once := by
  obtain ⟨a, b, d, e⟩ := h
  refine ⟨?_, ?_, ?_, ?_⟩
  · rw [hev, hdone, List.countP_append, a, h1, Nat.add_zero]
  · rw [hev, hdone, List.countP_append, b, h2, Nat.add_zero]
  · rw [hev, List.countP_append, d, h3]
  · intro hd
    rw [hdone] at hd
    obtain ⟨pre, post, hp, hq⟩ := e hd
    refine ⟨pre, post ++ extra, ?_, ?_⟩
    · rw [hev, hp]
      simp
    · rw [dispatchedTasks_append, hq, h4 hd]
      rfl

/-- Leaving the loop of `Run` closes `done`, which was open, once. -/
theorem Sys.Once.once_runReturn {σ : Type} {s : Sys σ} (h : s.Once) (msg : String)
    (hmsg : Ev.isRunExit (.log msg) = true) (hdone : s.done = false) :
    (Sys.runReturn msg s).Once := by
  obtain ⟨a, b, d, _⟩ := h
  rw [Sys.runReturn_open msg s hdone]
  simp only [hdone, Bool.false_eq_true, if_false] at a b
  refine ⟨?_, ?_, ?_, ?_⟩
  · simp [List.countP_append, a, Ev.isDoneClosed, List.countP_cons]
  · have hno : Ev.isRunExit .doneClosed = false ∧ Ev.isRunExit .runReturned = false :=
      ⟨rfl, rfl⟩
    simp [List.countP_append, b, hmsg, List.countP_cons, hno.1, hno.2]
  · simp [List.countP_append, d, Ev.isDoubleClose, List.countP_cons]
  · intro _
    exact ⟨s.events ++ [.log msg], [.runReturned], by simp, rfl⟩

/-- A send on the intake channel keeps what holds of `done`. -/
theorem Sys.Once.once_chanSend {σ : Type} {s s1 : Sys σ} (h : s.Once) (hinv : s.Inv)
    (t : Task) (hstep : Sys.chanSend t s = some s1) : s1.Once := by
  unfold Sys.chanSend at hstep
  split at hstep
  · cases hstep
    exact h.once_append [.panicked "send on closed channel"] rfl rfl rfl rfl
      (by decide) (fun _ => rfl)
  · split at hstep
    · cases hstep
      exact h.once_append [.submitted t s.clock] rfl rfl rfl rfl rfl (fun _ => rfl)
    · split at hstep
      · rename_i hrecv
        cases hstep
        refine h.once_append [.submitted t s.clock, .dispatched t] ?_ rfl rfl rfl rfl ?_
        · simp [Sys.dispatch]
        · intro hd
          have hret := hinv.done_iff.1 hd
          rw [hrecv.2] at hret
          cases hret
      · cases hstep

/-- While `Run` is in its loop, `done` is open. -/
theorem Sys.Inv.done_open {σ : Type} {s : Sys σ} (h : s.Inv) (hrun : s.run = .looping) :
    s.done = false := by
  cases hd : s.done with
  | false => rfl
  | true =>
    have hret := h.done_iff.1 hd
    rw [hrun] at hret
    cases hret

/-- Every step keeps what holds of `done`. -/
theorem Sys.Once.once_step {σ : Type} {s s1 : Sys σ} (c : Collab σ) (h : s.Once)
    (hinv : s.Inv) (l : Step) (hstep : Sys.step c s l = some s1) : s1.Once := by
  unfold Sys.step at hstep
  split at hstep
  · cases hstep
  · cases l with
    | submit t => exact h.once_chanSend hinv t hstep
    | cancel =>
      cases hstep
      exact h.once_append [.cancelled] rfl rfl rfl rfl rfl (fun _ => rfl)
    | tick d =>
      cases hstep
      exact h.once_append [] (by simp) rfl rfl rfl rfl (fun _ => rfl)
    | runRecv =>
      simp only [Sys.runRecv] at hstep
      split at hstep
      · rename_i hrun
        have hopen := hinv.done_open hrun
        split at hstep
        · rename_i t rest _
          cases hstep
          refine h.once_append [.dispatched t] (by simp [Sys.dispatch]) rfl rfl rfl rfl ?_
          intro hd
          rw [hopen] at hd
          cases hd
        · split at hstep
          · cases hstep
            exact h.once_runReturn _ (by decide) hopen
          · cases hstep
      · cases hstep
    | runCtxDone =>
      simp only [Sys.runCtxDone] at hstep
      split at hstep
      · rename_i hrun
        cases hstep
        exact h.once_runReturn _ (by decide) (hinv.done_open hrun.1)
      · cases hstep
    | stopClose =>
      simp only [Sys.stopClose] at hstep
      split at hstep
      · rename_i hidle
        split at hstep
        · rename_i hclosed
          exact absurd hidle (hinv.closed_iff.1 hclosed)
        · cases hstep
          exact h.once_append [.tasksClosed] rfl rfl rfl rfl rfl (fun _ => rfl)
      · cases hstep
    | stopWait =>
      simp only [Sys.stopWait] at hstep
      split at hstep
      · cases hstep
        exact h.once_append [.log "Reminder worker fully stopped", .stopReturned] rfl rfl rfl
          (by decide) rfl (fun _ => rfl)
      · cases hstep
    | handler i pick =>
      obtain ⟨t, o, k, r, s2, hi, hp, rfl⟩ := Sys.handlerStep_inv c i pick hstep
      have hno : ∀ t1, o ≠ .submit t1 :=
        handleTask_path_no_submit t _ o k (hinv.paths i _ hi)
      obtain ⟨_, _, hev, hd, _, _⟩ := Sys.perform_store_only c pick o r hno hp
      exact h.once_append [.call i ⟨o, r⟩] (by simp [hev]) hd rfl rfl rfl (fun _ => rfl)

/-- What holds of `done` holds after every schedule. -/
theorem Sys.Once.once_exec {σ : Type} (c : Collab σ) (sched : List Step) :
    ∀ {s s1 : Sys σ}, s.Once → s.Inv → Sys.exec c s sched = some s1 → s1.Once := by
  induction sched with
  | nil =>
    intro s s1 h _ hexec
    cases hexec
    exact h
  | cons l ls ih =>
    intro s s1 h hinv hexec
    simp only [Sys.exec] at hexec
    cases hstep : Sys.step c s l with
    | none => rw [hstep] at hexec; cases hexec
    | some s2 =>
      rw [hstep] at hexec
      exact ih (h.once_step c hinv l hstep) (hinv.of_step c l hstep) hexec

/-- C28: in every state the worker can reach, `close(w.done)` has been executed
at most once, and no goroutine has panicked closing a closed channel. Once `Run`
has returned, `done` has been closed exactly once, after exactly one of the two
exit log entries (closed channel or cancelled context), no task has been
dispatched since, and no iteration of the loop of `Run` can follow: neither the
case `<-w.tasks` nor the case `<-ctx.Done()` is a possible step. -/
theorem Run_closes_done_once {σ : Type} (c : Collab σ) (store : σ) (buffer : Nat)
    (clock : Time) (sched : List Step) (s : Sys σ)
    (hreach : Sys.exec c (Sys.init store buffer clock) sched = some s) :
    s.events.countP Ev.isDoneClosed ≤ 1 ∧
    s.events.countP Ev.isDoubleClose = 0 ∧
    (s.run = .returned →
      s.events.countP Ev.isDoneClosed = 1 ∧
      s.events.countP Ev.isRunExit = 1 ∧
      (∃ pre post, s.events = pre ++ Ev.doneClosed :: post ∧
        pre.countP Ev.isDoneClosed = 0 ∧ post.countP Ev.isDoneClosed = 0 ∧
        dispatchedTasks post = []) ∧
      Sys.step c s .runRecv = none ∧ Sys.step c s .runCtxDone = none) := by
  have hinv : s.Inv := Sys.Inv.of_exec c sched (Sys.Inv.init store buffer clock) hreach
  have honce : s.Once :=
    Sys.Once.once_exec c sched (Sys.Once.once_init store buffer clock)
      (Sys.Inv.init store buffer clock) hreach
  obtain ⟨a, b, d, e⟩ := honce
  refine ⟨?_, d, ?_⟩
  · rw [a]
    split <;> simp
  · intro hret
    have hd : s.done = true := hinv.done_iff.2 hret
    simp only [hd, if_true] at a b
    obtain ⟨pre, post, hp, hq⟩ := e hd
    have hcount := a
    rw [hp, List.countP_append, List.countP_cons] at hcount
    simp only [Ev.isDoneClosed, if_true] at hcount
    refine ⟨a, b, ⟨pre, post, hp, by omega, by omega, hq⟩, ?_, ?_⟩
    · simp [Sys.step, Sys.runRecv, hret]
    · simp [Sys.step, Sys.runCtxDone, hret]

/-- Witness of C28: the normal shutdown `schedDrain`. -/
theorem Run_closes_done_once_witness :
    stateDrain.events.countP Ev.isDoneClosed = 1 ∧
    stateDrain.events.countP Ev.isDoubleClose = 0 ∧
    Sys.step okCollab stateDrain .runRecv = none :=
  have h := Run_closes_done_once okCollab () 1 200 schedDrain stateDrain exec_schedDrain
  ⟨(h.2.2 rfl).1, h.2.1, (h.2.2 rfl).2.2.2.1⟩

/-! ## A task that is not due yet waits (C2, C11) -/

/-- The paths of `handleTask` for a task that is not due at the first reading of
the clock: the two readings, the log entry, the timer of the delay, the
`select`, and after the case of the timer the part after the wait; after the
case `<-ctx.Done()` the handler has returned. -/
theorem handleTask_path_prefix (task : Task) (cs : List Call) (q : Prog Unit) (t0 : Time)
    (rest : List Call) (h : Prog.Path (handleTask task) cs q)
    (hcs : cs = ⟨.now, t0⟩ :: rest) (hd : 0 < timeUntil task.RemindAt t0) :
    cs = [⟨.now, t0⟩] ∨
    (∃ t1 : Time, cs = [⟨.now, t0⟩, ⟨.now, t1⟩]) ∨
    (∃ t1 : Time, cs = [⟨.now, t0⟩, ⟨.now, t1⟩, ⟨.log .info "Sending reminder...", ()⟩]) ∨
    (∃ (t1 : Time) (tm : Timer),
      cs = [⟨.now, t0⟩, ⟨.now, t1⟩, ⟨.log .info "Sending reminder...", ()⟩,
            ⟨.after (timeUntil task.RemindAt t0), tm⟩] ∧
      q = .op (.select tm) (afterSelect task)) ∨
    (∃ (t1 : Time) (tm : Timer),
      cs = [⟨.now, t0⟩, ⟨.now, t1⟩, ⟨.log .info "Sending reminder...", ()⟩,
            ⟨.after (timeUntil task.RemindAt t0), tm⟩, ⟨.select tm, .ctxDone⟩] ∧
      q = .ret ()) ∨
    (∃ (t1 : Time) (tm : Timer) (tail : List Call),
      cs = [⟨.now, t0⟩, ⟨.now, t1⟩, ⟨.log .info "Sending reminder...", ()⟩,
            ⟨.after (timeUntil task.RemindAt t0), tm⟩, ⟨.select tm, .timer⟩] ++ tail ∧
      Prog.Path (lookupAndSend task) tail q) := by
  subst hcs
  unfold handleTask at h
  obtain ⟨r0, hx, h1⟩ := h.cons_inv
  cases hx
  simp only at h1
  cases rest with
  | nil => exact Or.inl rfl
  | cons x1 rest1 =>
    obtain ⟨t1, rfl, h2⟩ := h1.cons_inv
    cases rest1 with
    | nil => exact Or.inr (Or.inl ⟨t1, rfl⟩)
    | cons x2 rest2 =>
      obtain ⟨_, rfl, h3⟩ := h2.cons_inv
      simp only [hd, if_true] at h3
      cases rest2 with
      | nil => exact Or.inr (Or.inr (Or.inl ⟨t1, rfl⟩))
      | cons x3 rest3 =>
        obtain ⟨tm, rfl, h4⟩ := h3.cons_inv
        cases rest3 with
        | nil => exact Or.inr (Or.inr (Or.inr (Or.inl ⟨t1, tm, rfl, (h4.of_nil rfl).symm⟩)))
        | cons x4 rest4 =>
          obtain ⟨r, rfl, h5⟩ := h4.cons_inv
          cases r with
          | timer =>
            exact Or.inr (Or.inr (Or.inr (Or.inr (Or.inr ⟨t1, tm, rest4, rfl, h5⟩))))
          | ctxDone =>
            obtain ⟨hnil, hq⟩ := Prog.Path.of_ret h5
            subst hnil
            exact Or.inr (Or.inr (Or.inr (Or.inr (Or.inl ⟨t1, tm, rfl, hq⟩))))

/-- A call taken from a list that starts with calls that are no collaborator
calls, when it is one, comes after all of them. -/
theorem collab_after_prefix (P tail pre post : List Call) (x : Call)
    (hP : ∀ y ∈ P, y.1.isCollab = false) (hx : x.1.isCollab = true)
    (h : P ++ tail = pre ++ x :: post) :
    ∃ mid, pre = P ++ mid ∧ tail = mid ++ x :: post := by
  induction P generalizing pre with
  | nil => exact ⟨pre, rfl, h⟩
  | cons y P ih =>
    cases pre with
    | nil =>
      simp only [List.cons_append, List.nil_append, List.cons.injEq] at h
      have := hP y (by simp)
      rw [h.1, hx] at this
      cases this
    | cons z pre1 =>
      simp only [List.cons_append, List.cons.injEq] at h
      obtain ⟨mid, hm, ht⟩ := ih pre1 (fun w hw => hP w (by simp [hw])) h.2
      exact ⟨mid, by rw [h.1, hm]; rfl, ht⟩

/-- A path through a call: before the call the program is at its operation. -/
theorem Prog.Path.split {α : Type} :
    ∀ (a : List Call) {p q : Prog α} {x : Call} {b : List Call},
      Prog.Path p (a ++ x :: b) q →
        ∃ (o : Op) (k : Res o → Prog α) (r : Res o),
          x = ⟨o, r⟩ ∧ Prog.Path p a (.op o k) ∧ Prog.Path (k r) b q := by
  intro a
  induction a with
  | nil =>
    intro p q x b h
    cases p with
    | ret v => exact (h.ret_no_call).elim
    | op o k =>
      obtain ⟨r, hx, h1⟩ := h.cons_inv
      exact ⟨o, k, r, hx, .nil _, h1⟩
  | cons y a ih =>
    intro p q x b h
    cases p with
    | ret v => exact (h.ret_no_call).elim
    | op o k =>
      obtain ⟨r, hy, h1⟩ := h.cons_inv
      obtain ⟨o1, k1, r1, hx, hp, hq⟩ := ih h1
      exact ⟨o1, k1, r1, hx, by rw [hy]; exact .cons o k r _ _ hp, hq⟩

/-- The part of `handleTask` after the wait makes no call of `select`. -/
theorem lookupAndSend_path_no_select (task : Task) (cs : List Call) (q : Prog Unit)
    (h : Prog.Path (lookupAndSend task) cs q) (tm : Timer) (r : SelectResult) :
    (⟨.select tm, r⟩ : Call) ∉ cs := by
  intro hmem
  obtain ⟨a, b, hab⟩ := List.append_of_mem hmem
  rw [hab] at h
  obtain ⟨o, k, r1, hx, hp, _⟩ := Prog.Path.split a h
  have ho : o = .select tm := by
    have := congrArg Sigma.fst hx
    exact this.symm
  subst ho
  exact lookupAndSend_no_select task a tm k hp

/-- A handler whose task is not due at its first reading of the clock: after
its fourth call it is blocked in the `select` of the wait of that delay; it
makes a collaborator call only after the two readings, the log entry, the timer
of the delay and the case of the timer in the `select`; and when its `select`
has taken the case `<-ctx.Done()` it has returned without a collaborator
call. -/
theorem handler_waits (task : Task) (cs : List Call) (q : Prog Unit) (t0 : Time)
    (rest : List Call) (h : Prog.Path (handleTask task) cs q)
    (hcs : cs = ⟨.now, t0⟩ :: rest) (hd : 0 < timeUntil task.RemindAt t0) :
    (cs.length = 4 →
      ∃ (t1 : Time) (tm : Timer),
        cs = [⟨.now, t0⟩, ⟨.now, t1⟩, ⟨.log .info "Sending reminder...", ()⟩,
              ⟨.after (timeUntil task.RemindAt t0), tm⟩] ∧
        q = .op (.select tm) (afterSelect task)) ∧
    (∀ (pre post : List Call) (x : Call), cs = pre ++ x :: post → x.1.isCollab = true →
      ∃ (t1 : Time) (tm : Timer),
        pre.take 5 = [⟨.now, t0⟩, ⟨.now, t1⟩, ⟨.log .info "Sending reminder...", ()⟩,
                      ⟨.after (timeUntil task.RemindAt t0), tm⟩, ⟨.select tm, .timer⟩]) ∧
    (∀ tm : Timer, (⟨.select tm, .ctxDone⟩ : Call) ∈ cs →
      collabCalls cs = [] ∧ q = .ret ()) := by
  rcases handleTask_path_prefix task cs q t0 rest h hcs hd with
    h1 | ⟨t1, h1⟩ | ⟨t1, h1⟩ | ⟨t1, tm, h1, hq⟩ | ⟨t1, tm, h1, hq⟩ | ⟨t1, tm, tail, h1, hp⟩
  · refine ⟨fun hl => ?_, fun pre post x hx hc => ?_, fun tm hm => ?_⟩
    · rw [h1] at hl; simp at hl
    · rw [h1] at hx
      obtain ⟨mid, _, hm⟩ := collab_after_prefix [⟨.now, t0⟩] [] pre post x
        (by simp [Op.isCollab]) hc (by simpa using hx)
      simp at hm
    · rw [h1] at hm; simp at hm
  · refine ⟨fun hl => ?_, fun pre post x hx hc => ?_, fun tm hm => ?_⟩
    · rw [h1] at hl; simp at hl
    · rw [h1] at hx
      obtain ⟨mid, _, hm⟩ := collab_after_prefix [⟨.now, t0⟩, ⟨.now, t1⟩] [] pre post x
        (by simp [Op.isCollab]) hc (by simpa using hx)
      simp at hm
    · rw [h1] at hm; simp at hm
  · refine ⟨fun hl => ?_, fun pre post x hx hc => ?_, fun tm hm => ?_⟩
    · rw [h1] at hl; simp at hl
    · rw [h1] at hx
      obtain ⟨mid, _, hm⟩ := collab_after_prefix
        [⟨.now, t0⟩, ⟨.now, t1⟩, ⟨.log .info "Sending reminder...", ()⟩] [] pre post x
        (by simp [Op.isCollab]) hc (by simpa using hx)
      simp at hm
    · rw [h1] at hm; simp at hm
  · refine ⟨fun _ => ⟨t1, tm, h1, hq⟩, fun pre post x hx hc => ?_, fun tm1 hm => ?_⟩
    · rw [h1] at hx
      obtain ⟨mid, _, hm⟩ := collab_after_prefix
        [⟨.now, t0⟩, ⟨.now, t1⟩, ⟨.log .info "Sending reminder...", ()⟩,
         ⟨.after (timeUntil task.RemindAt t0), tm⟩] [] pre post x
        (by simp [Op.isCollab]) hc (by simpa using hx)
      simp at hm
    · rw [h1] at hm; simp at hm
  · refine ⟨fun hl => ?_, fun pre post x hx hc => ?_, fun tm1 _ => ?_⟩
    · rw [h1] at hl; simp at hl
    · rw [h1] at hx
      obtain ⟨mid, _, hm⟩ := collab_after_prefix
        [⟨.now, t0⟩, ⟨.now, t1⟩, ⟨.log .info "Sending reminder...", ()⟩,
         ⟨.after (timeUntil task.RemindAt t0), tm⟩, ⟨.select tm, .ctxDone⟩] [] pre post x
        (by simp [Op.isCollab]) hc (by simpa using hx)
      simp at hm
    · rw [h1]
      exact ⟨by simp [collabCalls, Op.isCollab], hq⟩
  · refine ⟨fun hl => ?_, fun pre post x hx hc => ?_, fun tm1 hm => ?_⟩
    · rw [h1] at hl; simp at hl
    · rw [h1] at hx
      obtain ⟨mid, hpre, _⟩ := collab_after_prefix
        [⟨.now, t0⟩, ⟨.now, t1⟩, ⟨.log .info "Sending reminder...", ()⟩,
         ⟨.after (timeUntil task.RemindAt t0), tm⟩, ⟨.select tm, .timer⟩] tail pre post x
        (by simp [Op.isCollab]) hc hx
      exact ⟨t1, tm, by rw [hpre]; rfl⟩
    · rw [h1] at hm
      have hno := lookupAndSend_path_no_select task tail q hp tm1 .ctxDone
      simp at hm
      exact absurd hm hno

/-- A handler goroutine blocked in the `select` of its wait, in a reachable state
in which the context is cancelled and the clock is still before the deadline of
the timer: the case of the timer cannot be taken; the case `<-ctx.Done()` is
taken, after which the goroutine has returned without a collaborator call. -/
theorem handler_select_cancelled {σ : Type} (c : Collab σ) (store : σ)
    (buffer : Nat) (clock : Time) (sched : List Step) (s : Sys σ) (i : Nat) (h : Handler)
    (tm : Timer) (k : Res (.select tm) → Prog Unit)
    (hreach : Sys.exec c (Sys.init store buffer clock) sched = some s)
    (halive : s.crashed = false)
    (hi : s.handlers[i]? = some h) (hwait : h.prog = .op (.select tm) k)
    (hcancel : s.cancelled = true) (hearly : s.clock < tm.deadline) :
    Sys.step c s (.handler i .timer) = none ∧
    ∃ s1, Sys.step c s (.handler i .ctxDone) = some s1 ∧
      s1.handlers[i]? = some { task := h.task, prog := .ret () } ∧
      collabCalls (callsOf i s1.events) = [] ∧
      ∃ t0, (callsOf i s1.events).head? = some ⟨.now, t0⟩ ∧ t0 < h.task.RemindAt := by
  have hinv : s.Inv := Sys.Inv.of_exec c sched (Sys.Inv.init store buffer clock) hreach
  obtain ⟨t, p⟩ := h
  simp only at hwait
  subst hwait
  have hlt : i < s.handlers.length := (List.getElem?_eq_some_iff.1 hi).1
  constructor
  · simp [Sys.step, halive, Sys.handlerStep, hi, Sys.perform, not_le.2 hearly]
  · refine ⟨{ s with handlers := s.handlers.set i { task := t, prog := k .ctxDone },
                     events := s.events ++ [.call i ⟨.select tm, .ctxDone⟩] }, ?_, ?_⟩
    · simp [Sys.step, halive, Sys.handlerStep, hi, Sys.perform, hcancel]
    · have hpath := (hinv.paths i _ hi).snoc SelectResult.ctxDone
      obtain ⟨ds, a, hq⟩ := Prog.Path.complete (k .ctxDone)
      have hfull := hpath.trans hq
      have htr := hfull.trace_replay a rfl
      generalize hdef : callsOf i s.events ++ [⟨.select tm, .ctxDone⟩] ++ ds = full at htr
      have hmem : (⟨.select tm, .ctxDone⟩ : Call) ∈ (handleTask t).trace replayEnv full := by
        rw [htr, ← hdef]; simp
      obtain ⟨⟨t1, d, hshape⟩, hpos⟩ := handleTask_trace_cancelled replayEnv t full tm hmem
      generalize (replayEnv.answer .now full).1 = t0 at hshape hpos
      rw [htr, ← hdef, List.append_assoc, List.singleton_append] at hshape
      obtain ⟨hcs, _, hds⟩ := append_cons_eq_snoc (fun x : Call => ∃ tm1, x.1 = .select tm1)
        _ _ ⟨tm, rfl⟩ _ _ _ (by simp) hshape
      subst hds
      have hk : k .ctxDone = .ret () := hq.of_nil rfl
      have hcalls : callsOf i (s.events ++ [.call i ⟨.select tm, .ctxDone⟩]) =
          [⟨.now, t0⟩, ⟨.now, t1⟩, ⟨.log .info "Sending reminder...", ()⟩, ⟨.after d, tm⟩,
           ⟨.select tm, .ctxDone⟩] := by
        rw [callsOf_append, hcs]
        simp [Ev.callOf]
      rw [hk]
      refine ⟨by simp [List.getElem?_set_self hlt], ?_, ?_⟩
      · show collabCalls (callsOf i (s.events ++ [.call i ⟨.select tm, .ctxDone⟩])) = []
        rw [hcalls]
        simp [collabCalls, Op.isCollab]
      · refine ⟨t0, ?_, hpos⟩
        show (callsOf i (s.events ++ [.call i ⟨.select tm, .ctxDone⟩])).head? = _
        rw [hcalls]
        rfl

/-- A handler goroutine blocked in the `select` of its wait, in a reachable state
in which the context is not cancelled: it has made the two clock readings, the
log entry and the timer of its delay, which does not deliver before the delay
has passed; before the deadline it cannot take a step; at the deadline it takes
the case of the timer, logs, and calls `GetUserByID(task.UserID)`. -/
theorem handler_select_progress {σ : Type} (c : Collab σ) (store : σ)
    (buffer : Nat) (clock : Time) (sched : List Step) (s : Sys σ) (i : Nat) (h : Handler)
    (tm : Timer) (k : Res (.select tm) → Prog Unit)
    (hreach : Sys.exec c (Sys.init store buffer clock) sched = some s)
    (halive : s.crashed = false)
    (hi : s.handlers[i]? = some h) (hwait : h.prog = .op (.select tm) k)
    (hctx : s.cancelled = false) :
    (∃ t0 t1 : Time,
      callsOf i s.events =
        [⟨.now, t0⟩, ⟨.now, t1⟩, ⟨.log .info "Sending reminder...", ()⟩,
         ⟨.after (timeUntil h.task.RemindAt t0), tm⟩] ∧
      0 < timeUntil h.task.RemindAt t0 ∧
      t0 + timeUntil h.task.RemindAt t0 ≤ tm.deadline) ∧
    (s.clock < tm.deadline → ∀ pick, Sys.step c s (.handler i pick) = none) ∧
    (tm.deadline ≤ s.clock →
      ∃ (s3 : Sys σ) (r : Except Err User),
        Sys.exec c s [.handler i .timer, .handler i .timer, .handler i .timer] = some s3 ∧
        callsOf i s3.events = callsOf i s.events ++
          [⟨.select tm, .timer⟩, ⟨.log .info "Sending reminder...", ()⟩,
           ⟨.getUserByID h.task.UserID, r⟩]) := by
  have hinv : s.Inv := Sys.Inv.of_exec c sched (Sys.Inv.init store buffer clock) hreach
  have htimed : s.Timed :=
    Sys.Timed.timed_exec c sched (Sys.Timed.timed_init store buffer clock) hreach
  obtain ⟨task, p⟩ := h
  simp only at hwait
  subst hwait
  have hlt : i < s.handlers.length := (List.getElem?_eq_some_iff.1 hi).1
  obtain ⟨t0, t1, hcs, hpos, hk⟩ := handler_at_select task _ tm k (hinv.paths i _ hi)
  subst hk
  refine ⟨⟨t0, t1, hcs, hpos, ?_⟩, ?_, ?_⟩
  · exact htimed.2 i [⟨.now, t0⟩, ⟨.now, t1⟩, ⟨.log .info "Sending reminder...", ()⟩] []
      _ tm (by rw [hcs]; rfl) t0 (by simp)
  · intro hearly pick
    cases pick <;>
      simp [Sys.step, halive, Sys.handlerStep, hi, Sys.perform, not_le.2 hearly, hctx]
  · intro hdue
    obtain ⟨K2, hK2⟩ : ∃ K2, lookupAndSend task =
        .op (.log .info "Sending reminder...") (fun _ =>
          .op (.getUserByID task.UserID) K2) := ⟨_, rfl⟩
    have hstep1 := @Sys.step_handler_eq σ s s c i .timer task (.select tm) (afterSelect task)
      SelectResult.timer halive hi (by simp [Sys.perform, hdue])
    have hi1 : ({ s with
          handlers := s.handlers.set i { task := task, prog := afterSelect task .timer },
          events := s.events ++ [.call i ⟨.select tm, .timer⟩] } : Sys σ).handlers[i]? =
        some { task := task, prog := .op (.log .info "Sending reminder...") (fun _ =>
          .op (.getUserByID task.UserID) K2) } := by
      simp only [List.getElem?_set_self hlt]
      rw [← hK2]
      rfl
    have hstep2 := Sys.step_handler_eq c i .timer task _ _ () (by exact halive) hi1 (by rfl)
    have hi2 : ({ s with
          handlers := (s.handlers.set i { task := task, prog := afterSelect task .timer }).set i
            { task := task, prog := .op (.getUserByID task.UserID) K2 },
          events := s.events ++ [.call i ⟨.select tm, .timer⟩] ++
            [.call i ⟨.log .info "Sending reminder...", ()⟩] } : Sys σ).handlers[i]? =
        some { task := task, prog := .op (.getUserByID task.UserID) K2 } := by
      simp [List.getElem?_set_self, hlt]
    have hstep3 := Sys.step_handler_eq c i .timer task _ _
      (c.GetUserByID s.cancelled task.UserID s.store).1 (by exact halive) hi2 (by rfl)
    exact ⟨_, (c.GetUserByID s.cancelled task.UserID s.store).1,
      Sys.exec_three hstep1 hstep2 hstep3, by simp [callsOf, Ev.callOf]⟩

/-- C2: a handler goroutine in a reachable state, whose task is not due at its
first reading `now` of the clock (`fireAt - now > 0`). After its fourth call it
is blocked in the `select` of its wait; and once its `select` has taken the case
`<-ctx.Done()` it has returned and has made no call to `GetUserByID`,
`GetEventByID`, `Send` or `MarkReminderSent`. While it is blocked in the
`select` with the context cancelled and the clock still before the deadline of
the timer, the case of the timer cannot be taken and the case `<-ctx.Done()` is
taken, after which the goroutine has returned without a collaborator call. -/
theorem handleTask_abandons_when_cancelled {σ : Type} (c : Collab σ) (store : σ)
    (buffer : Nat) (clock : Time) (sched : List Step) (s : Sys σ) (i : Nat) (h : Handler)
    (hreach : Sys.exec c (Sys.init store buffer clock) sched = some s)
    (hi : s.handlers[i]? = some h) :
    (∀ (t0 : Time) (rest : List Call), callsOf i s.events = ⟨.now, t0⟩ :: rest →
      0 < timeUntil h.task.RemindAt t0 →
        ((callsOf i s.events).length = 4 →
          ∃ (t1 : Time) (tm : Timer),
            callsOf i s.events =
              [⟨.now, t0⟩, ⟨.now, t1⟩, ⟨.log .info "Sending reminder...", ()⟩,
               ⟨.after (timeUntil h.task.RemindAt t0), tm⟩] ∧
            h.prog = .op (.select tm) (afterSelect h.task)) ∧
        (∀ tm : Timer, (⟨.select tm, .ctxDone⟩ : Call) ∈ callsOf i s.events →
          collabCalls (callsOf i s.events) = [] ∧ h.prog = .ret ())) ∧
    (∀ (tm : Timer) (k : Res (.select tm) → Prog Unit), h.prog = .op (.select tm) k →
      s.crashed = false → s.cancelled = true → s.clock < tm.deadline →
        Sys.step c s (.handler i .timer) = none ∧
        ∃ s1, Sys.step c s (.handler i .ctxDone) = some s1 ∧
          s1.handlers[i]? = some { task := h.task, prog := .ret () } ∧
          collabCalls (callsOf i s1.events) = [] ∧
          ∃ t0, (callsOf i s1.events).head? = some ⟨.now, t0⟩ ∧ t0 < h.task.RemindAt) := by
  have hinv : s.Inv := Sys.Inv.of_exec c sched (Sys.Inv.init store buffer clock) hreach
  refine ⟨?_, ?_⟩
  · intro t0 rest hcs hd
    obtain ⟨ha, _, hc⟩ := handler_waits h.task _ h.prog t0 rest (hinv.paths i h hi) hcs hd
    exact ⟨ha, hc⟩
  · intro tm k hwait halive hcancel hearly
    exact handler_select_cancelled c store buffer clock sched s i h tm k hreach halive hi
      hwait hcancel hearly

/-- Witness of C2: the handler of `stateWaiting`, whose task is due at 100 when
it reads the clock at 0, is blocked in its `select` after four calls; the
context is cancelled with the clock at 0, and the handler returns. -/
theorem handleTask_abandons_when_cancelled_witness :
    (∃ (t1 : Time) (tm : Timer),
      callsOf 0 stateWaiting.events =
        [⟨.now, (0 : Int)⟩, ⟨.now, t1⟩, ⟨.log .info "Sending reminder...", ()⟩,
         ⟨.after (timeUntil handlerWaiting.task.RemindAt 0), tm⟩] ∧
      handlerWaiting.prog = .op (.select tm) (afterSelect handlerWaiting.task)) ∧
    (Sys.step okCollab stateWaiting (.handler 0 .timer) = none ∧
     ∃ s1, Sys.step okCollab stateWaiting (.handler 0 .ctxDone) = some s1 ∧
      s1.handlers[0]? = some { task := handlerWaiting.task, prog := .ret () } ∧
      collabCalls (callsOf 0 s1.events) = [] ∧
      ∃ t0, (callsOf 0 s1.events).head? = some ⟨.now, t0⟩ ∧
        t0 < handlerWaiting.task.RemindAt) :=
  have h := handleTask_abandons_when_cancelled okCollab () 1 0 schedWaiting stateWaiting 0
    handlerWaiting exec_schedWaiting rfl
  ⟨(h.1 0 _ rfl (by decide)).1 rfl,
   h.2 ⟨100⟩ (afterSelect exTask) rfl rfl rfl (by decide)⟩

/-- C11: a handler goroutine in a reachable state, whose task is not due at its
first reading `now` of the clock (`delay = fireAt - now > 0`). After its fourth
call it is blocked in the `select` of its wait, on a timer that does not deliver
before `now + delay`; every collaborator call it has made comes after the two
clock readings, the log entry, `time.After(delay)` and the case of that timer
in the `select`. While it is blocked in the `select` with the context not
cancelled, it cannot take a step as long as the clock is before the deadline of
the timer; once the clock has reached it, the goroutine takes the case of the
timer, logs, and calls `GetUserByID(task.UserID)`. -/
theorem handleTask_waits_for_delay {σ : Type} (c : Collab σ) (store : σ)
    (buffer : Nat) (clock : Time) (sched : List Step) (s : Sys σ) (i : Nat) (h : Handler)
    (hreach : Sys.exec c (Sys.init store buffer clock) sched = some s)
    (hi : s.handlers[i]? = some h) :
    (∀ (t0 : Time) (rest : List Call), callsOf i s.events = ⟨.now, t0⟩ :: rest →
      0 < timeUntil h.task.RemindAt t0 →
        ((callsOf i s.events).length = 4 →
          ∃ (t1 : Time) (tm : Timer),
            callsOf i s.events =
              [⟨.now, t0⟩, ⟨.now, t1⟩, ⟨.log .info "Sending reminder...", ()⟩,
               ⟨.after (timeUntil h.task.RemindAt t0), tm⟩] ∧
            h.prog = .op (.select tm) (afterSelect h.task) ∧
            t0 + timeUntil h.task.RemindAt t0 ≤ tm.deadline) ∧
        (∀ (pre post : List Call) (x : Call), callsOf i s.events = pre ++ x :: post →
          x.1.isCollab = true →
            ∃ (t1 : Time) (tm : Timer),
              pre.take 5 =
                [⟨.now, t0⟩, ⟨.now, t1⟩, ⟨.log .info "Sending reminder...", ()⟩,
                 ⟨.after (timeUntil h.task.RemindAt t0), tm⟩, ⟨.select tm, .timer⟩] ∧
              t0 + timeUntil h.task.RemindAt t0 ≤ tm.deadline)) ∧
    (∀ (tm : Timer) (k : Res (.select tm) → Prog Unit), h.prog = .op (.select tm) k →
      s.crashed = false → s.cancelled = false →
        (∃ t0 t1 : Time,
          callsOf i s.events =
            [⟨.now, t0⟩, ⟨.now, t1⟩, ⟨.log .info "Sending reminder...", ()⟩,
             ⟨.after (timeUntil h.task.RemindAt t0), tm⟩] ∧
          0 < timeUntil h.task.RemindAt t0 ∧
          t0 + timeUntil h.task.RemindAt t0 ≤ tm.deadline) ∧
        (s.clock < tm.deadline → ∀ pick, Sys.step c s (.handler i pick) = none) ∧
        (tm.deadline ≤ s.clock →
          ∃ (s3 : Sys σ) (r : Except Err User),
            Sys.exec c s [.handler i .timer, .handler i .timer, .handler i .timer] =
              some s3 ∧
            callsOf i s3.events = callsOf i s.events ++
              [⟨.select tm, .timer⟩, ⟨.log .info "Sending reminder...", ()⟩,
               ⟨.getUserByID h.task.UserID, r⟩])) := by
  have hinv : s.Inv := Sys.Inv.of_exec c sched (Sys.Inv.init store buffer clock) hreach
  have htimed : s.Timed :=
    Sys.Timed.timed_exec c sched (Sys.Timed.timed_init store buffer clock) hreach
  refine ⟨?_, ?_⟩
  · intro t0 rest hcs hd
    obtain ⟨ha, hb, _⟩ := handler_waits h.task _ h.prog t0 rest (hinv.paths i h hi) hcs hd
    refine ⟨fun hl => ?_, fun pre post x hx hc => ?_⟩
    · obtain ⟨t1, tm, hshape, hq⟩ := ha hl
      refine ⟨t1, tm, hshape, hq, ?_⟩
      exact htimed.2 i [⟨.now, t0⟩, ⟨.now, t1⟩, ⟨.log .info "Sending reminder...", ()⟩] []
        _ tm (by rw [hshape]; rfl) t0 (by simp)
    · obtain ⟨t1, tm, htake⟩ := hb pre post x hx hc
      refine ⟨t1, tm, htake, ?_⟩
      have hsplit : callsOf i s.events = pre.take 5 ++ (pre.drop 5 ++ x :: post) := by
        rw [← List.append_assoc, List.take_append_drop]
        exact hx
      rw [htake] at hsplit
      exact htimed.2 i [⟨.now, t0⟩, ⟨.now, t1⟩, ⟨.log .info "Sending reminder...", ()⟩]
        (⟨.select tm, .timer⟩ :: (pre.drop 5 ++ x :: post)) _ tm
        (by rw [hsplit]; rfl) t0 (by simp)
  · intro tm k hwait halive hctx
    exact handler_select_progress c store buffer clock sched s i h tm k hreach halive hi
      hwait hctx

/-- Witness of C11: the handler of `stateTimer`, whose task is due at 100 when it
reads the clock at 0, is blocked in its `select` after four calls, on a timer
with its deadline at 100; with the clock at 100 it goes on to `GetUserByID`. -/
theorem handleTask_waits_for_delay_witness :
    (∃ (t1 : Time) (tm : Timer),
      callsOf 0 stateTimer.events =
        [⟨.now, (0 : Int)⟩, ⟨.now, t1⟩, ⟨.log .info "Sending reminder...", ()⟩,
         ⟨.after (timeUntil handlerWaiting.task.RemindAt 0), tm⟩] ∧
      handlerWaiting.prog = .op (.select tm) (afterSelect handlerWaiting.task) ∧
      (0 : Time) + timeUntil handlerWaiting.task.RemindAt 0 ≤ tm.deadline) ∧
    (∃ (s3 : Sys Unit) (r : Except Err User),
      Sys.exec okCollab stateTimer [.handler 0 .timer, .handler 0 .timer, .handler 0 .timer] =
        some s3 ∧
      callsOf 0 s3.events = callsOf 0 stateTimer.events ++
        [⟨.select ⟨100⟩, .timer⟩, ⟨.log .info "Sending reminder...", ()⟩,
         ⟨.getUserByID handlerWaiting.task.UserID, r⟩]) :=
  have h := handleTask_waits_for_delay okCollab () 1 0 schedTimer stateTimer 0
    handlerWaiting exec_schedTimer rfl
  ⟨(h.1 0 _ rfl (by decide)).1 rfl,
   (h.2 ⟨100⟩ (afterSelect exTask) rfl rfl rfl).2.2 (by decide)⟩

/-! ## Isolation of the handler goroutines (C15) -/

/-- What answers of `c` are under `Follows`. -/
theorem agreesWith_of_answeredBy {σ : Type} {c : Collab σ} {task : Task} {sc : Script}
    (hf : c.Follows task sc) (x : Call) (hx : answeredBy c x) : agreesWith task sc x := by
  obtain ⟨o, r⟩ := x
  obtain ⟨h1, h2, h3, h4⟩ := hf
  cases o with
  | getUserByID id =>
    obtain ⟨b, st, rfl⟩ := hx
    intro hid
    subst hid
    exact h1 b st
  | getEventByID id =>
    obtain ⟨b, st, rfl⟩ := hx
    intro hid
    subst hid
    exact h2 b st
  | send a b d =>
    obtain ⟨st, rfl⟩ := hx
    intro u ev hu hev ha hb hd
    subst ha hb hd
    exact h3 u ev st hu hev
  | markReminderSent id =>
    obtain ⟨b, st, rfl⟩ := hx
    intro hid
    subst hid
    exact h4 b st
  | now => trivial
  | log l m => trivial
  | after d => trivial
  | select tm => trivial
  | submit t => trivial

/-- A run of a program is a path of it. -/
theorem Prog.Path.of_trace {σ α : Type} (env : Env σ) (p : Prog α) :
    ∀ s : σ, Prog.Path p (p.trace env s) (.ret (p.run env s).1) := by
  induction p with
  | ret a => intro s; exact .nil _
  | op o k ih =>
    intro s
    rw [Prog.trace_op]
    exact .cons o k _ _ _ (ih _ _)

/-- In a run against a script every result is the one the script gives. -/
theorem Script.trace_agreesWith {α : Type} (task : Task) (sc : Script) (p : Prog α) :
    ∀ x ∈ p.trace sc.env (), agreesWith task sc x := by
  induction p with
  | ret a => intro x hx; simp [Prog.trace, Prog.run] at hx
  | op o k ih =>
    intro x hx
    rw [Prog.trace_op, List.mem_cons] at hx
    rcases hx with rfl | hx
    · cases o <;> simp [agreesWith, Script.env]
    · exact ih _ x hx

/-- The collaborator calls of a run of the part of `handleTask` after the wait,
when every result is the one a script gives, are those of the run against the
script. -/
theorem lookupAndSend_collab_of_agrees {σ : Type} (env : Env σ) (task : Task) (s : σ)
    (sc : Script)
    (h : ∀ x ∈ (lookupAndSend task).trace env s, agreesWith task sc x) :
    collabPart ((lookupAndSend task).trace env s) = expectedCalls task sc := by
  rcases lookupAndSend_trace_cases env task s with
    ⟨e, ht⟩ | ⟨u, e, ht⟩ | ⟨u, ev, e, ht⟩ | ⟨u, ev, e, ht⟩ | ⟨u, ev, ht⟩
  · rw [ht] at h ⊢
    have hu : Except.error e = sc.user := h ⟨.getUserByID task.UserID, .error e⟩ (by simp) rfl
    simp [expectedCalls, collabPart, lookupAndSend, Prog.trace_op, Script.env, ← hu,
      Op.isCollab, Prog.trace, Prog.run]
  · rw [ht] at h ⊢
    have hu : Except.ok u = sc.user := h ⟨.getUserByID task.UserID, .ok u⟩ (by simp) rfl
    have he : Except.error e = sc.event :=
      h ⟨.getEventByID task.EventID, .error e⟩ (by simp) rfl
    simp [expectedCalls, collabPart, lookupAndSend, Prog.trace_op, Script.env, ← hu, ← he,
      Op.isCollab, Prog.trace, Prog.run]
  · rw [ht] at h ⊢
    have hu : Except.ok u = sc.user := h ⟨.getUserByID task.UserID, .ok u⟩ (by simp) rfl
    have he : Except.ok ev = sc.event :=
      h ⟨.getEventByID task.EventID, .ok ev⟩ (by simp) rfl
    have hs : some e = sc.sendErr :=
      h ⟨.send "Event reminder" (reminderMessage ev.Description) u.Email, some e⟩ (by simp)
        u ev hu.symm he.symm rfl rfl rfl
    simp [expectedCalls, collabPart, lookupAndSend, Prog.trace_op, Script.env, ← hu, ← he,
      ← hs, Op.isCollab, Prog.trace, Prog.run]
  · rw [ht] at h ⊢
    have hu : Except.ok u = sc.user := h ⟨.getUserByID task.UserID, .ok u⟩ (by simp) rfl
    have he : Except.ok ev = sc.event :=
      h ⟨.getEventByID task.EventID, .ok ev⟩ (by simp) rfl
    have hs : none = sc.sendErr :=
      h ⟨.send "Event reminder" (reminderMessage ev.Description) u.Email, none⟩ (by simp)
        u ev hu.symm he.symm rfl rfl rfl
    have hm : some e = sc.markErr :=
      h ⟨.markReminderSent task.EventID, some e⟩ (by simp) rfl
    simp [expectedCalls, collabPart, lookupAndSend, Prog.trace_op, Script.env, ← hu, ← he,
      ← hs, ← hm, Op.isCollab, Prog.trace, Prog.run]
  · rw [ht] at h ⊢
    have hu : Except.ok u = sc.user := h ⟨.getUserByID task.UserID, .ok u⟩ (by simp) rfl
    have he : Except.ok ev = sc.event :=
      h ⟨.getEventByID task.EventID, .ok ev⟩ (by simp) rfl
    have hs : none = sc.sendErr :=
      h ⟨.send "Event reminder" (reminderMessage ev.Description) u.Email, none⟩ (by simp)
        u ev hu.symm he.symm rfl rfl rfl
    have hm : none = sc.markErr :=
      h ⟨.markReminderSent task.EventID, none⟩ (by simp) rfl
    simp [expectedCalls, collabPart, lookupAndSend, Prog.trace_op, Script.env, ← hu, ← he,
      ← hs, ← hm, Op.isCollab, Prog.trace, Prog.run]

/-- The collaborator calls of a prefix are a prefix of the collaborator calls. -/
theorem collabPart_prefix {cs ds : List Call} (h : cs <+: ds) :
    collabPart cs <+: collabPart ds := by
  obtain ⟨r, rfl⟩ := h
  exact ⟨collabPart r, by simp [collabPart]⟩

/-- The collaborator calls of a handler of `task`, when every result is the one
a script gives: they are the first of the collaborator calls of the run against
the script, and all of them once the handler has returned without having been
cancelled during its wait. -/
theorem handleTask_collab_prefix (task : Task) (sc : Script) (cs : List Call) (q : Prog Unit)
    (hp : Prog.Path (handleTask task) cs q) (ha : ∀ x ∈ cs, agreesWith task sc x) :
    collabPart cs <+: expectedCalls task sc ∧
    (q = .ret () → (∀ tm : Timer, (⟨.select tm, .ctxDone⟩ : Call) ∉ cs) →
      collabPart cs = expectedCalls task sc) := by
  have hfull : Prog.Path (handleTask task) (cs ++ q.trace sc.env ()) (.ret _) :=
    hp.trans (Prog.Path.of_trace sc.env q ())
  have hall : ∀ x ∈ cs ++ q.trace sc.env (), agreesWith task sc x := by
    intro x hx
    rcases List.mem_append.1 hx with h1 | h1
    · exact ha x h1
    · exact Script.trace_agreesWith task sc q x h1
  have htr := hfull.trace_replay _ rfl
  have hpre : cs <+: cs ++ q.trace sc.env () := List.prefix_append _ _
  have hret : q = .ret () → cs ++ q.trace sc.env () = cs := by
    intro hq
    subst hq
    simp [Prog.trace, Prog.run]
  generalize cs ++ q.trace sc.env () = full at hfull hall htr hpre hret
  obtain ⟨t1, s1, hc⟩ := handleTask_trace_cases replayEnv task full
  rw [htr] at hc
  rcases hc with ⟨_, hc⟩ | ⟨_, tm, hc⟩ | ⟨_, tm, hc⟩
  · have hl : collabPart full = expectedCalls task sc := by
      rw [hc]
      have := lookupAndSend_collab_of_agrees replayEnv task s1 sc
        (fun x hx => hall x (by rw [hc]; simp [hx]))
      simpa [collabPart, Op.isCollab] using this
    refine ⟨hl ▸ collabPart_prefix hpre, fun hq _ => ?_⟩
    rw [← hret hq]
    exact hl
  · have hl : collabPart full = expectedCalls task sc := by
      rw [hc]
      have := lookupAndSend_collab_of_agrees replayEnv task s1 sc
        (fun x hx => hall x (by rw [hc]; simp [hx]))
      simpa [collabPart, Op.isCollab] using this
    refine ⟨hl ▸ collabPart_prefix hpre, fun hq _ => ?_⟩
    rw [← hret hq]
    exact hl
  · have hl : collabPart full = [] := by
      rw [hc]
      simp [collabPart, Op.isCollab]
    have hcs : collabPart cs = [] := by
      have := collabPart_prefix hpre
      rw [hl] at this
      exact List.prefix_nil.1 this
    refine ⟨by rw [hcs]; exact List.nil_prefix, fun hq hno => ?_⟩
    exfalso
    apply hno tm
    rw [← hret hq, hc]
    simp

/-- The schedule `schedIsolated` leads to `stateIsolated`. -/
theorem exec_schedIsolated :
    Sys.exec lookupFails (Sys.init () 2 400) schedIsolated = some stateIsolated := rfl

/-- The collaborators `lookupFails` answer the calls made for `exTask` as
`okScript` says. -/
theorem lookupFails_follows : lookupFails.Follows exTask okScript :=
  ⟨fun _ _ => rfl, fun _ _ => rfl, fun _ _ _ _ _ => rfl, fun _ _ => rfl⟩

/-- The collaborators `okCollab` answer the calls made for `exTask` as `okScript`
says. -/
theorem okCollab_follows : okCollab.Follows exTask okScript :=
  ⟨fun _ _ => rfl, fun _ _ => rfl, fun _ _ _ _ _ => rfl, fun _ _ => rfl⟩

/-- What a handler goroutine gets from a collaborator operation is an answer of
the collaborators. -/
theorem Sys.perform_answered {σ : Type} {s s1 : Sys σ} (c : Collab σ) (pick : SelectResult)
    (o : Op) (r : Res o) (hp : Sys.perform c s pick o = some (r, s1)) :
    answeredBy c ⟨o, r⟩ := by
  cases o with
  | getUserByID id =>
    simp [Sys.perform] at hp
    obtain ⟨rfl, _⟩ := hp
    exact ⟨_, _, rfl⟩
  | getEventByID id =>
    simp [Sys.perform] at hp
    obtain ⟨rfl, _⟩ := hp
    exact ⟨_, _, rfl⟩
  | send a b d =>
    simp [Sys.perform] at hp
    obtain ⟨rfl, _⟩ := hp
    exact ⟨_, rfl⟩
  | markReminderSent id =>
    simp [Sys.perform] at hp
    obtain ⟨rfl, _⟩ := hp
    exact ⟨_, _, rfl⟩
  | now => trivial
  | log l m => trivial
  | after d => trivial
  | select tm => trivial
  | submit t => trivial

/-- A step that records no call of a handler keeps the results of the handlers
answers of the collaborators. -/
theorem Sys.Answered.answered_quiet {σ : Type} {c : Collab σ} {s s1 : Sys σ}
    (h : Sys.Answered c s) (hq : s.Quiet s1) : Sys.Answered c s1 := by
  intro i x hx
  rw [hq.2.2.2.1 i] at hx
  exact h i x hx

/-- Every step keeps the results of the handlers answers of the collaborators. -/
theorem Sys.Answered.answered_step {σ : Type} {s s1 : Sys σ} (c : Collab σ)
    (h : Sys.Answered c s) (l : Step) (hstep : Sys.step c s l = some s1) :
    Sys.Answered c s1 := by
  have hcr : s.crashed = false := by
    cases hb : s.crashed with
    | false => rfl
    | true => simp [Sys.step, hb] at hstep
  simp only [Sys.step, hcr, Bool.false_eq_true, if_false] at hstep
  cases l with
  | submit t => exact h.answered_quiet (Sys.chanSend_quiet t hstep)
  | cancel =>
    simp only [Option.some.injEq] at hstep
    subst hstep
    exact h.answered_quiet (Sys.Quiet.of_append _ _ [.cancelled] (le_refl _) rfl (by simp)
      (by simp [Ev.callOf]) (fun _ _ hi => Or.inl hi))
  | tick d =>
    simp only [Option.some.injEq] at hstep
    subst hstep
    exact h.answered_quiet (Sys.Quiet.of_append _ _ []
      (le_add_of_nonneg_right (Int.ofNat_nonneg d)) (by simp) (by simp) (by simp)
      (fun _ _ hi => Or.inl hi))
  | runRecv => exact h.answered_quiet (Sys.runRecv_quiet hstep)
  | runCtxDone => exact h.answered_quiet (Sys.runCtxDone_quiet hstep)
  | stopClose => exact h.answered_quiet (Sys.stopClose_quiet hstep)
  | stopWait => exact h.answered_quiet (Sys.stopWait_quiet hstep)
  | handler i pick =>
    obtain ⟨t, o, k, r, s2, _, hperf, rfl⟩ := Sys.handlerStep_inv c i pick hstep
    have hq := Sys.perform_quiet c pick o r hperf
    have ha := Sys.perform_answered c pick o r hperf
    intro j x hx
    have hx1 : x ∈ callsOf j (s2.events ++ [Ev.call i ⟨o, r⟩]) := hx
    have hcalls : callsOf j (s2.events ++ [Ev.call i ⟨o, r⟩]) =
        callsOf j s2.events ++ (if i = j then [⟨o, r⟩] else []) := by
      by_cases hij : i = j <;> simp [Ev.callOf, hij]
    rw [hcalls, List.mem_append] at hx1
    rcases hx1 with hm | hm
    · exact (h.answered_quiet hq) j x hm
    · by_cases hij : i = j
      · simp only [hij, if_true, List.mem_singleton] at hm
        rw [hm]
        exact ha
      · simp [hij] at hm

/-- After every schedule the results of the handlers are answers of the
collaborators. -/
theorem Sys.Answered.answered_exec {σ : Type} (c : Collab σ) (sched : List Step) :
    ∀ {s s1 : Sys σ}, Sys.Answered c s → Sys.exec c s sched = some s1 →
      Sys.Answered c s1 := by
  induction sched with
  | nil =>
    intro s s1 h hexec
    cases hexec
    exact h
  | cons l ls ih =>
    intro s s1 h hexec
    simp only [Sys.exec] at hexec
    cases hstep : Sys.step c s l with
    | none => rw [hstep] at hexec; cases hexec
    | some s2 =>
      rw [hstep] at hexec
      exact ih (h.answered_step c l hstep) hexec

/-- The collaborator calls of a handler goroutine of a reachable state, when the
collaborators answer the calls made for its task as a script says. -/
theorem Sys.collab_of_follows {σ : Type} (c : Collab σ) (store : σ) (buffer : Nat)
    (clock : Time) (sched : List Step) (s : Sys σ) (j : Nat) (hB : Handler) (sc : Script)
    (hreach : Sys.exec c (Sys.init store buffer clock) sched = some s)
    (hj : s.handlers[j]? = some hB) (hc : c.Follows hB.task sc) :
    collabPart (callsOf j s.events) <+: expectedCalls hB.task sc ∧
    (hB.prog = .ret () →
      (∀ tm : Timer, (⟨.select tm, .ctxDone⟩ : Call) ∉ callsOf j s.events) →
        collabPart (callsOf j s.events) = expectedCalls hB.task sc) := by
  have hinv : s.Inv := Sys.Inv.of_exec c sched (Sys.Inv.init store buffer clock) hreach
  have hans : Sys.Answered c s :=
    Sys.Answered.answered_exec c sched (fun i x hx => by simp [Sys.init, callsOf] at hx) hreach
  exact handleTask_collab_prefix hB.task sc _ _ (hinv.paths j hB hj)
    (fun x hx => agreesWith_of_answeredBy hc x (hans j x hx))

/-- C15: take a handler goroutine for a task B in a reachable state of a
worker, and a handler goroutine for the same task in a reachable state of
another run or another worker (other collaborators, other store, other
schedule, so other outcomes for every other task A), where the collaborators
of both answer the calls made for B as one script says and are free in
what they answer for other tasks. Then the collaborator calls made for B in
the two, with their arguments and results, are the first of the calls of the
run against the script, so those of one are the first of those of the other; they
are the same once both handlers have returned and neither was cancelled during
its wait. And a step of the goroutine of another task changes neither the
goroutine of B, nor its calls, nor the channels and the state of `Run` and
`Stop`. -/
theorem handleTask_isolated {σ σ1 : Type} (c : Collab σ) (c1 : Collab σ1) (store : σ)
    (store1 : σ1) (buffer buffer1 : Nat) (clock clock1 : Time) (sched sched1 : List Step)
    (s : Sys σ) (s1 : Sys σ1) (j j1 : Nat) (hB hB1 : Handler) (sc : Script)
    (hreach : Sys.exec c (Sys.init store buffer clock) sched = some s)
    (hreach1 : Sys.exec c1 (Sys.init store1 buffer1 clock1) sched1 = some s1)
    (hj : s.handlers[j]? = some hB) (hj1 : s1.handlers[j1]? = some hB1)
    (htask : hB.task = hB1.task)
    (hc : c.Follows hB.task sc) (hc1 : c1.Follows hB.task sc) :
    (collabPart (callsOf j s.events) <+: expectedCalls hB.task sc ∧
      collabPart (callsOf j1 s1.events) <+: expectedCalls hB.task sc) ∧
    (collabPart (callsOf j s.events) <+: collabPart (callsOf j1 s1.events) ∨
      collabPart (callsOf j1 s1.events) <+: collabPart (callsOf j s.events)) ∧
    (hB.prog = .ret () → hB1.prog = .ret () →
      (∀ tm : Timer, (⟨.select tm, .ctxDone⟩ : Call) ∉ callsOf j s.events) →
      (∀ tm : Timer, (⟨.select tm, .ctxDone⟩ : Call) ∉ callsOf j1 s1.events) →
        collabPart (callsOf j s.events) = expectedCalls hB.task sc ∧
        collabPart (callsOf j1 s1.events) = collabPart (callsOf j s.events)) ∧
    (∀ (i : Nat) (pick : SelectResult) (s2 : Sys σ), i ≠ j →
      Sys.step c s (.handler i pick) = some s2 →
        s2.handlers[j]? = some hB ∧ callsOf j s2.events = callsOf j s.events ∧
        s2.tasks = s.tasks ∧ s2.done = s.done ∧ s2.run = s.run ∧ s2.stop = s.stop) := by
  have hinv : s.Inv := Sys.Inv.of_exec c sched (Sys.Inv.init store buffer clock) hreach
  have h0 := Sys.collab_of_follows c store buffer clock sched s j hB sc hreach hj hc
  have h1 := Sys.collab_of_follows c1 store1 buffer1 clock1 sched1 s1 j1 hB1 sc hreach1 hj1
    (htask ▸ hc1)
  rw [← htask] at h1
  refine ⟨⟨h0.1, h1.1⟩, List.prefix_or_prefix_of_prefix h0.1 h1.1, ?_, ?_⟩
  · intro hr hr1 hno hno1
    exact ⟨h0.2 hr hno, by rw [h0.2 hr hno, h1.2 hr1 hno1]⟩
  · intro i pick s2 hij hstep
    have hcr : s.crashed = false := by
      cases hb : s.crashed with
      | false => rfl
      | true => simp [Sys.step, hb] at hstep
    simp only [Sys.step, hcr, Bool.false_eq_true, if_false] at hstep
    obtain ⟨t, o, k, r, s3, hi, hperf, rfl⟩ := Sys.handlerStep_inv c i pick hstep
    have hno := handleTask_path_no_submit t _ o k (hinv.paths i _ hi)
    obtain ⟨h1, h2, h3, h4, h5, h6⟩ := Sys.perform_store_only c pick o r hno hperf
    refine ⟨?_, ?_, h1, h4, h5, h6⟩
    · simp only [h2, List.getElem?_set_ne hij]
      exact hj
    · simp [h3, Ev.callOf, hij]

/-- Witness of C15: in one worker the owner lookup of `exTask2` fails before the
handler goroutine of `exTask` makes its collaborator calls. These calls are
the four that the handler goroutine of `exTask` makes in a run in which `exTask`
is the only task, and the step in which the handler goroutine of `exTask2` logs
its failure leaves them, and the goroutine of `exTask`, as they are. -/
theorem handleTask_isolated_witness :
    (⟨.getUserByID 4, .error "no rows"⟩ : Call) ∈ callsOf 0 stateIsolated.events ∧
    collabPart (callsOf 0 stateSent.events) = collabPart (callsOf 1 stateIsolated.events) ∧
    collabPart (callsOf 1 stateIsolated.events) =
      [⟨.getUserByID 3, (okCollab.GetUserByID false 3 ()).1⟩,
       ⟨.getEventByID 7, (okCollab.GetEventByID false 7 ()).1⟩,
       ⟨.send "Event reminder" "Event \"standup\" is coming up soon. 🔔" "user@example.com",
         none⟩,
       ⟨.markReminderSent 7, none⟩] ∧
    ∃ s2 : Sys Unit, Sys.step lookupFails stateIsolated (.handler 0 .timer) = some s2 ∧
      s2.handlers[0]? = some { task := exTask2, prog := .ret () } ∧
      callsOf 0 s2.events = callsOf 0 stateIsolated.events ++
        [⟨.log .error "failed to get user by id", ()⟩] ∧
      s2.handlers[1]? = some { task := exTask, prog := .ret () } ∧
      callsOf 1 s2.events = callsOf 1 stateIsolated.events ∧
      s2.tasks = stateIsolated.tasks ∧ s2.done = stateIsolated.done ∧
      s2.run = stateIsolated.run ∧ s2.stop = stateIsolated.stop :=
  have h := handleTask_isolated lookupFails okCollab () () 2 1 400 200 schedIsolated
    schedSent stateIsolated stateSent 1 0 { task := exTask, prog := .ret () }
    { task := exTask, prog := .ret () } okScript exec_schedIsolated exec_schedSent rfl rfl rfl
    lookupFails_follows okCollab_follows
  ⟨by simp [callsOf, stateIsolated, Ev.callOf],
   (h.2.2.1 rfl rfl (by intro tm; simp [callsOf, stateIsolated, Ev.callOf])
      (by intro tm; simp [callsOf, stateSent, Ev.callOf])).2,
   rfl,
   _, rfl, rfl, rfl, h.2.2.2 0 .timer _ (by decide) rfl⟩

end reminder

namespace service

open reminder

/-! ## The event service: creating an event (C12, C13) -/

/-- C12: when the repository's `CreateEvent` returns `(id, nil)`, the method
`Event.CreateEvent` returns `(id, nil)`; its operations are the call of the
repository followed by the sends of `tasksFor`: one send of
`Task{EventID: id, UserID: userID, RemindAt: *RemindAt}` when `RemindAt` is set
and not the zero time, none otherwise. The send blocks: in a system whose
intake channel is open and full, with no receiver to hand the task to, the
goroutine gets no further than the send (it returns nothing, so no error, and
the system is untouched), and a send that completes has queued the task. -/
theorem CreateEvent_submits_reminder {σ ρ : Type} (Wrap : String → Err → Err)
    (answer : (o : Op) → σ → Res o × σ) (st : σ) (event : CreateEventRequest)
    (userID id : UUID) (repoCreate : Event → ρ → Except Err UUID × ρ) (s : Sys ρ)
    (hrepo : (answer (.createEvent (createDomainEvent event userID)) st).1 = .ok id)
    (hcreate : (repoCreate (createDomainEvent event userID) s.store).1 = .ok id)
    (hopen : s.tasks.closed = false) :
    ((CreateEvent Wrap event userID).run answer st).1 = (id, none) ∧
    Proc.opsOf ((CreateEvent Wrap event userID).run answer st).2.2 =
      .createEvent (createDomainEvent event userID) ::
        (tasksFor event userID id).map Op.submit ∧
    (∀ remindAt : Time, event.RemindAt = some remindAt → remindAt ≠ zeroTime →
      tasksFor event userID id =
        [{ EventID := id, UserID := userID, RemindAt := remindAt }]) ∧
    (event.RemindAt = none ∨ event.RemindAt = some zeroTime →
      tasksFor event userID id = []) ∧
    (tasksFor event userID id ≠ [] → s.tasks.cap ≤ s.tasks.buf.length →
      ¬ (s.tasks.cap = 0 ∧ s.run = .looping) →
        runOn repoCreate (CreateEvent Wrap event userID) s = none) ∧
    (∀ (res : UUID × Option Err) (s1 : Sys ρ),
      runOn repoCreate (CreateEvent Wrap event userID) s = some (res, s1) →
        res = (id, none) ∧
        submittedTasks s1.events = submittedTasks s.events ++ tasksFor event userID id ∧
        s1.crashed = s.crashed ∧
        (s.tasks.buf.length < s.tasks.cap →
          s1.tasks.buf = s.tasks.buf ++ tasksFor event userID id)) := by
  refine ⟨?_, ?_, ?_, ?_, ?_, ?_⟩
  · cases hr : event.RemindAt with
    | none => simp [CreateEvent, Proc.run, hrepo, hr]
    | some remindAt =>
      by_cases hz : IsZero remindAt = true <;> simp [CreateEvent, Proc.run, hrepo, hr, hz]
  · cases hr : event.RemindAt with
    | none => simp [CreateEvent, Proc.run, Proc.opsOf, tasksFor, hrepo, hr]
    | some remindAt =>
      by_cases hz : IsZero remindAt = true <;>
        simp [CreateEvent, Proc.run, Proc.opsOf, tasksFor, hrepo, hr, hz]
  · intro remindAt hr hz
    simp [tasksFor, hr, IsZero, hz]
  · rintro (hr | hr) <;> simp [tasksFor, hr, IsZero]
  · intro hne hfull hrecv
    cases hr : event.RemindAt with
    | none => simp [tasksFor, hr] at hne
    | some remindAt =>
      by_cases hz : IsZero remindAt = true
      · simp [tasksFor, hr, hz] at hne
      · simp [runOn, CreateEvent, perform, hcreate, hr, hz, Sys.chanSend, hopen,
          not_lt.2 hfull, hrecv]
  · intro res s1 hrun
    cases hr : event.RemindAt with
    | none =>
      simp [runOn, CreateEvent, perform, hcreate, hr] at hrun
      obtain ⟨rfl, rfl⟩ := hrun
      simp [tasksFor, hr]
    | some remindAt =>
      by_cases hz : IsZero remindAt = true
      · simp [runOn, CreateEvent, perform, hcreate, hr, hz] at hrun
        obtain ⟨rfl, rfl⟩ := hrun
        simp [tasksFor, hr, hz]
      · simp only [runOn, CreateEvent, perform, hcreate, hr, hz, Bool.false_eq_true,
          ↓reduceIte] at hrun
        by_cases hroom : s.tasks.buf.length < s.tasks.cap
        · simp [Sys.chanSend, hopen, hroom, runOn] at hrun
          obtain ⟨rfl, rfl⟩ := hrun
          simp [tasksFor, hr, hz, submittedTasks, Ev.submittedTask, hroom]
        · by_cases hrecv : s.tasks.cap = 0 ∧ s.run = .looping
          · simp [Sys.chanSend, hopen, hroom, hrecv, runOn, Sys.dispatch] at hrun
            obtain ⟨rfl, rfl⟩ := hrun
            simp [tasksFor, hr, hz, submittedTasks, Ev.submittedTask, hroom]
          · simp [Sys.chanSend, hopen, hroom, hrecv, runOn] at hrun

/-- Witness of C12: the request `exRequest` of user 3, the repository answering
event 7, and the full intake channel of `stateFull`. -/
theorem CreateEvent_submits_reminder_witness :
    ((CreateEvent exWrap exRequest 3).run (fixedRepo (.ok 7)) ()).1 = (7, none) ∧
    Proc.opsOf ((CreateEvent exWrap exRequest 3).run (fixedRepo (.ok 7)) ()).2.2 =
      [.createEvent (createDomainEvent exRequest 3), .submit exTask] ∧
    runOn (fixedCreate (.ok 7)) (CreateEvent exWrap exRequest 3) stateFull = none :=
  have h := CreateEvent_submits_reminder exWrap (fixedRepo (.ok 7)) () exRequest 3 7
    (fixedCreate (.ok 7)) stateFull rfl rfl rfl
  ⟨h.1, h.2.1, h.2.2.2.2.1 (by decide) (by decide) (by decide)⟩

/-- C13: when the repository's `CreateEvent` returns an error, the method
`Event.CreateEvent` returns `uuid.Nil` and an error that is not nil (the error
of the repository, wrapped), whatever `RemindAt` is; the call of the repository
is its only operation, so nothing is sent on the intake channel, and the system
of the reminder worker is left as it was. -/
theorem CreateEvent_repo_error {σ ρ : Type} (Wrap : String → Err → Err)
    (answer : (o : Op) → σ → Res o × σ) (st : σ) (event : CreateEventRequest)
    (userID : UUID) (err : Err) (repoCreate : Event → ρ → Except Err UUID × ρ) (s : Sys ρ)
    (hrepo : (answer (.createEvent (createDomainEvent event userID)) st).1 = .error err)
    (hcreate : (repoCreate (createDomainEvent event userID) s.store).1 = .error err) :
    ((CreateEvent Wrap event userID).run answer st).1 =
      (uuidNil, some (Wrap "service.event.Create" err)) ∧
    Proc.opsOf ((CreateEvent Wrap event userID).run answer st).2.2 =
      [.createEvent (createDomainEvent event userID)] ∧
    (∀ t : Task, Op.submit t ∉ Proc.opsOf ((CreateEvent Wrap event userID).run answer st).2.2) ∧
    runOn repoCreate (CreateEvent Wrap event userID) s =
      some ((uuidNil, some (Wrap "service.event.Create" err)),
        { s with store := (repoCreate (createDomainEvent event userID) s.store).2 }) := by
  have hops : Proc.opsOf ((CreateEvent Wrap event userID).run answer st).2.2 =
      [.createEvent (createDomainEvent event userID)] := by
    simp [CreateEvent, Proc.run, Proc.opsOf, hrepo]
  refine ⟨?_, hops, ?_, ?_⟩
  · simp [CreateEvent, Proc.run, hrepo]
  · intro t
    rw [hops]
    simp
  · simp [runOn, CreateEvent, perform, hcreate]

/-- Witness of C13: the request `exRequest`, which has a reminder, and a
repository that fails. -/
theorem CreateEvent_repo_error_witness :
    ((CreateEvent exWrap exRequest 3).run (fixedRepo (.error "db down")) ()).1 =
      (uuidNil, some "service.event.Create: db down") ∧
    Proc.opsOf ((CreateEvent exWrap exRequest 3).run (fixedRepo (.error "db down")) ()).2.2 =
      [.createEvent (createDomainEvent exRequest 3)] ∧
    runOn (fixedCreate (.error "db down")) (CreateEvent exWrap exRequest 3) stateFull =
      some ((uuidNil, some "service.event.Create: db down"), stateFull) :=
  have h := CreateEvent_repo_error exWrap (fixedRepo (.error "db down")) () exRequest 3
    "db down" (fixedCreate (.error "db down")) stateFull rfl rfl
  ⟨h.1, h.2.1, h.2.2.2⟩

end service

namespace janitor

open reminder

/-! ## The janitor: one firing of the job (C19) -/

/-- C19: one firing of the job of the janitor, in any environment. With `t` the
reading of the clock by `context.WithTimeout` and `r` the result of
`ArchiveOldEvents`, the calls of the firing are: the log entry, the reading of
the clock, `ArchiveOldEvents` with a context whose deadline is `t + 20s`, the
error log entry when `r` is an error, and the deferred `cancel`. So
`ArchiveOldEvents` is called exactly once, whatever it returns, and the firing
runs to its end, returning nothing to the scheduler. -/
theorem job_archives_once {σ : Type} (answer : (o : Op) → σ → Res o × σ) (st : σ) :
    ∃ (t : Time) (r : Option Err),
      (job.run answer st).2.2 =
        [⟨.print "[JOB] Archiving old events...\n", ()⟩, ⟨.now, t⟩,
         ⟨.archiveOldEvents { deadline := t + 20 * second }, r⟩] ++
        (match r with
         | some err => [(⟨.logError err "[JOB] ArchiveOldEvents failed", ()⟩ : (o : Op) × Res o)]
         | none => []) ++
        [⟨.cancel { deadline := t + 20 * second }, ()⟩] ∧
      (Proc.opsOf (job.run answer st).2.2).countP Op.isArchive = 1 ∧
      20 * second = (20000000000 : Duration) := by
  refine ⟨(answer .now (answer (.print "[JOB] Archiving old events...\n") st).2).1,
    (answer (.archiveOldEvents { deadline :=
      (answer .now (answer (.print "[JOB] Archiving old events...\n") st).2).1 + 20 * second })
      (answer .now (answer (.print "[JOB] Archiving old events...\n") st).2).2).1, ?_⟩
  cases hr : (answer (.archiveOldEvents { deadline :=
      (answer .now (answer (.print "[JOB] Archiving old events...\n") st).2).1 + 20 * second })
      (answer .now (answer (.print "[JOB] Archiving old events...\n") st).2).2).1 with
  | none =>
    refine ⟨?_, ?_, rfl⟩
    · simp [job, Proc.run, hr]
    · simp [job, Proc.run, Proc.opsOf, hr, Op.isArchive]
  | some err =>
    refine ⟨?_, ?_, rfl⟩
    · simp [job, Proc.run, hr]
    · simp [job, Proc.run, Proc.opsOf, hr, Op.isArchive]

end janitor

namespace repo

open reminder

/-! ## The archive sweep: one transaction (C16, C17, C18) -/

/-- The tables after a sweep in which nothing failed: both statements applied,
in order. -/
theorem sweep_noFaults (Wrap : String → Err → Err) (today now : Time) (t : Tables) :
    (sweep Wrap noFaults today now t).1 = none ∧
    (sweep Wrap noFaults today now t).2.1.committed =
      Query.apply today now .deleteOld (Query.apply today now .archiveOld t) := by
  simp [sweep, ArchiveOldEvents, Proc.run, Db.answer, Faults.exec, noFaults]

/-- A sweep that returns nil met no fault. -/
theorem sweep_ok_noFaults (Wrap : String → Err → Err) (f : Faults) (today now : Time)
    (t : Tables) (hok : (sweep Wrap f today now t).1 = none) : f = noFaults := by
  rcases f with ⟨_ | b, _ | a, _ | d, _ | ⟨c, applied⟩⟩ <;>
    simp [sweep, ArchiveOldEvents, Proc.run, Db.answer, Faults.exec, noFaults] at hok ⊢

/-- C16, as stated, fails: the deadline of the context expires during `Commit`
after the server has applied the commit. `ArchiveOldEvents` relays the error of
`Commit`, so it returns an error that is not nil, and yet the transaction is
committed: the row dated 900 has left the live table and is in the archive. -/
theorem ArchiveOldEvents_commit_error_after_commit :
    (sweep service.exWrap commitLost 1000 1500 exTables).1 =
      some "failed to commit tx: context deadline exceeded" ∧
    (sweep service.exWrap commitLost 1000 1500 exTables).2.1.committed ≠ exTables ∧
    (sweep service.exWrap commitLost 1000 1500 exTables).2.1.committed.events =
      [rowAt 2 1000, rowAt 3 1200, rowAt 4 2000] ∧
    (sweep service.exWrap commitLost 1000 1500 exTables).2.1.committed.events_archive =
      [toArchive 1500 (rowAt 1 900)] := by
  decide

/-- C16, amended: one call of `ArchiveOldEvents`, the database returning any
errors (an expired deadline of the context is an error of the operation it
interrupts). `Commit` is called if and only if `Begin` and the two statements
succeeded. When `Begin` or a statement fails, the call returns an error that is
not nil, `Commit` is not called and the committed tables are those before the
call. When `Commit` fails, the call returns its error, wrapped, and the
committed tables are those before the call, or hold the whole sweep when the
server had applied the commit. When `Begin` succeeded the deferred `Rollback` is
called. In every case no transaction is left open, and the committed tables are
either untouched or have both the archived rows and the deletion. -/
theorem ArchiveOldEvents_atomic (Wrap : String → Err → Err) (f : Faults)
    (today now : Time) (t : Tables) :
    (Op.commit ∈ Proc.opsOf (sweep Wrap f today now t).2.2 ↔
      f.begin = none ∧ f.archive = none ∧ f.delete = none) ∧
    (f.begin ≠ none ∨ f.archive ≠ none ∨ f.delete ≠ none →
      (∃ err, (sweep Wrap f today now t).1 = some err) ∧
      (sweep Wrap f today now t).2.1.committed = t) ∧
    (∀ err applied, f.begin = none → f.archive = none → f.delete = none →
      f.commit = some (err, applied) →
        (sweep Wrap f today now t).1 = some (Wrap "failed to commit tx" err) ∧
        (sweep Wrap f today now t).2.1.committed =
          if applied then
            Query.apply today now .deleteOld (Query.apply today now .archiveOld t)
          else t) ∧
    (f.begin = none → Op.rollback ∈ Proc.opsOf (sweep Wrap f today now t).2.2) ∧
    (sweep Wrap f today now t).2.1.tx = none ∧
    ((sweep Wrap f today now t).2.1.committed = t ∨
      (sweep Wrap f today now t).2.1.committed =
        Query.apply today now .deleteOld (Query.apply today now .archiveOld t)) ∧
    (f.begin = none ∧ f.archive = none ∧ f.delete = none ∧ f.commit = none →
      (sweep Wrap f today now t).1 = none ∧
      (sweep Wrap f today now t).2.1.committed =
        Query.apply today now .deleteOld (Query.apply today now .archiveOld t)) := by
  rcases f with ⟨_ | b, _ | a, _ | d, _ | ⟨c, _ | _⟩⟩ <;>
    simp [sweep, ArchiveOldEvents, Proc.run, Proc.opsOf, Db.answer, Faults.exec]

/-- Witness of C16, amended: the `DELETE` fails after the `INSERT` succeeded; the
call returns an error and the tables are untouched, no row archived. -/
theorem ArchiveOldEvents_atomic_witness :
    (∃ err, (sweep service.exWrap deleteFails 1000 1500 exTables).1 = some err) ∧
    (sweep service.exWrap deleteFails 1000 1500 exTables).2.1.committed = exTables :=
  (ArchiveOldEvents_atomic service.exWrap deleteFails 1000 1500 exTables).2.1
    (Or.inr (Or.inr (by simp [deleteFails])))

/-- The committed tables after a sweep: untouched, or with both statements
applied. -/
theorem sweep_committed (Wrap : String → Err → Err) (f : Faults) (today now : Time)
    (t : Tables) :
    (sweep Wrap f today now t).2.1.committed = t ∨
    (sweep Wrap f today now t).2.1.committed =
      Query.apply today now .deleteOld (Query.apply today now .archiveOld t) := by
  rcases f with ⟨_ | b, _ | a, _ | d, _ | ⟨c, _ | _⟩⟩ <;>
    simp [sweep, ArchiveOldEvents, Proc.run, Db.answer, Faults.exec]

/-- C17, as stated, fails: with the current date at 1000 and the current time at
1500, a successful sweep of `exTables` archives the row dated 900 only. The rows
dated 1000 and 1200 stay in the live table, though they are not dated after the
current time (nor is the first dated after the current date), and the row dated
1200, which predates the current time, is not archived. -/
theorem ArchiveOldEvents_keeps_rows_not_after_now :
    (sweep service.exWrap noFaults 1000 1500 exTables).1 = none ∧
    (sweep service.exWrap noFaults 1000 1500 exTables).2.1.committed.events =
      [rowAt 2 1000, rowAt 3 1200, rowAt 4 2000] ∧
    (sweep service.exWrap noFaults 1000 1500 exTables).2.1.committed.events_archive =
      [toArchive 1500 (rowAt 1 900)] ∧
    ¬ (∀ e ∈ (sweep service.exWrap noFaults 1000 1500 exTables).2.1.committed.events,
        (1500 : Time) < e.Date) ∧
    ¬ (∀ e ∈ (sweep service.exWrap noFaults 1000 1500 exTables).2.1.committed.events,
        (1000 : Time) < e.Date) ∧
    ¬ (∀ e ∈ exTables.events, e.Date < (1500 : Time) →
        toArchive 1500 e ∈
          (sweep service.exWrap noFaults 1000 1500 exTables).2.1.committed.events_archive) := by
  decide

/-- C17, amended: a successful `ArchiveOldEvents` moves to the archive all and
only the live rows whose event date is before the current date (`event_date <
CURRENT_DATE`), each stamped with the current time, after the rows the archive
already held; afterwards the live table holds exactly the rows dated on or after
the current date, in their order. -/
theorem ArchiveOldEvents_moves_rows_before_current_date (Wrap : String → Err → Err)
    (f : Faults) (today now : Time) (t : Tables)
    (hok : (sweep Wrap f today now t).1 = none) :
    (sweep Wrap f today now t).2.1.committed.events_archive =
      t.events_archive ++
        (t.events.filter fun e => decide (e.Date < today)).map (toArchive now) ∧
    (sweep Wrap f today now t).2.1.committed.events =
      t.events.filter (fun e => decide (today ≤ e.Date)) ∧
    (∀ e, e ∈ (sweep Wrap f today now t).2.1.committed.events ↔
      e ∈ t.events ∧ today ≤ e.Date) ∧
    (∀ a, a ∈ (sweep Wrap f today now t).2.1.committed.events_archive ↔
      a ∈ t.events_archive ∨ ∃ e ∈ t.events, e.Date < today ∧ toArchive now e = a) := by
  have hf := sweep_ok_noFaults Wrap f today now t hok
  subst hf
  have hlive : (fun e : Event => !isOld today e) = fun e => decide (today ≤ e.Date) := by
    funext e
    by_cases h : e.Date < today
    · simp [isOld, h, not_le.2 h]
    · simp [isOld, h, not_lt.1 h]
  rw [(sweep_noFaults Wrap today now t).2]
  refine ⟨rfl, ?_, ?_, ?_⟩
  · show t.events.filter (fun e => !isOld today e) = _
    rw [hlive]
  · intro e
    show e ∈ t.events.filter (fun e => !isOld today e) ↔ _
    rw [hlive]
    simp [List.mem_filter]
  · intro a
    show a ∈ t.events_archive ++ (t.events.filter (isOld today)).map (toArchive now) ↔ _
    simp [List.mem_filter, isOld, and_assoc]

/-- Witness of C17, amended: the sweep of `exTables` with the current date at
1000 and the current time at 1500. -/
theorem ArchiveOldEvents_moves_rows_before_current_date_witness :
    (sweep service.exWrap noFaults 1000 1500 exTables).1 = none ∧
    (sweep service.exWrap noFaults 1000 1500 exTables).2.1.committed.events =
      exTables.events.filter (fun e => decide ((1000 : Time) ≤ e.Date)) :=
  ⟨rfl, (ArchiveOldEvents_moves_rows_before_current_date service.exWrap noFaults 1000 1500
    exTables rfl).2.1⟩

/-- After both statements no live row is before the current date. -/
theorem swept_no_old (today now : Time) (t : Tables) :
    (Query.apply today now .deleteOld (Query.apply today now .archiveOld t)).events.filter
      (isOld today) = [] := by
  simp [Query.apply, List.filter_filter]

/-- On tables with no live row before the current date both statements change
nothing. -/
theorem apply_of_no_old (today now : Time) (q : Query) (t : Tables)
    (h : t.events.filter (isOld today) = []) : Query.apply today now q t = t := by
  cases q with
  | archiveOld => simp [Query.apply, h]
  | deleteOld =>
    have hall : ∀ e ∈ t.events, (!isOld today e) = true := by
      intro e he
      cases hold : isOld today e with
      | false => rfl
      | true =>
        have hmem : e ∈ t.events.filter (isOld today) := List.mem_filter.2 ⟨he, hold⟩
        rw [h] at hmem
        cases hmem
    simp only [Query.apply]
    rw [List.filter_eq_self.2 hall]

/-- C18: after a successful `ArchiveOldEvents`, a second call with the same
current date and no write in between leaves the live rows and the archived rows
as the first call left them, whether it succeeds or fails: no live row is before
the current date any more, so its `INSERT` selects no row and its `DELETE`
deletes none. -/
theorem ArchiveOldEvents_idempotent (Wrap : String → Err → Err) (f f2 : Faults)
    (today now now2 : Time) (t : Tables)
    (hok : (sweep Wrap f today now t).1 = none) :
    (sweep Wrap f2 today now2 (sweep Wrap f today now t).2.1.committed).2.1.committed =
      (sweep Wrap f today now t).2.1.committed ∧
    (sweep Wrap f today now t).2.1.committed.events.filter (isOld today) = [] ∧
    Query.apply today now2 .archiveOld (sweep Wrap f today now t).2.1.committed =
      (sweep Wrap f today now t).2.1.committed ∧
    Query.apply today now2 .deleteOld (sweep Wrap f today now t).2.1.committed =
      (sweep Wrap f today now t).2.1.committed := by
  have hf := sweep_ok_noFaults Wrap f today now t hok
  subst hf
  have hnone : (sweep Wrap noFaults today now t).2.1.committed.events.filter
      (isOld today) = [] := by
    rw [(sweep_noFaults Wrap today now t).2]
    exact swept_no_old today now t
  have harch := apply_of_no_old today now2 .archiveOld _ hnone
  have hdel := apply_of_no_old today now2 .deleteOld _ hnone
  refine ⟨?_, hnone, harch, hdel⟩
  rcases sweep_committed Wrap f2 today now2 (sweep Wrap noFaults today now t).2.1.committed
    with h | h
  · exact h
  · rw [h, harch, hdel]

/-- Witness of C18: a second sweep of `exTables`, later the same day, changes
nothing. -/
theorem ArchiveOldEvents_idempotent_witness :
    (sweep service.exWrap noFaults 1000 1700
        (sweep service.exWrap noFaults 1000 1500 exTables).2.1.committed).2.1.committed =
      (sweep service.exWrap noFaults 1000 1500 exTables).2.1.committed :=
  (ArchiveOldEvents_idempotent service.exWrap noFaults noFaults 1000 1500 1700 exTables rfl).1

end repo

namespace errors

/-! ## Errors: what `errors.Is` says of the errors of the program -/

/-- An error made by `errors.New` matches itself. -/
theorem Is_new_self (name text : String) : Is (.new name text) (.new name text) = true := by
  simp [Is]

/-- The helper of the worked examples keeps the chain of the error it wraps. -/
theorem KeepsChain_wrapOp : KeepsChain wrapOp := by
  intro op err name text
  simp [wrapOp, Is]

end errors

namespace service

open reminder errors

/-! ## The event service: updating and deleting an event (C24, C29) -/

/-- What `UpdateEvent` returns, by the result of the repository. -/
theorem UpdateEvent_result {σ : Type} (Wrap : String → Error → Error)
    (answer : (o : EventOp) → σ → EventRes o × σ) (st : σ) (event : dto.UpdateEventRequest)
    (eventID userID : UUID) :
    ((UpdateEvent Wrap event eventID userID).run answer st).1 =
      match (answer (.updateEvent (updateDomainEvent event eventID userID)) st).1 with
      | none => none
      | some err =>
        if Is err repo.ErrEventNotFound then
          some (Wrap "service.event.Update" domain.ErrEventNotFound)
        else some (Wrap "service.event.Update" err) := by
  simp only [UpdateEvent, Proc.run]
  cases (answer (.updateEvent (updateDomainEvent event eventID userID)) st).1 with
  | none => rfl
  | some err => by_cases h : Is err repo.ErrEventNotFound = true <;> simp [h, Proc.run]

/-- What `DeleteEvent` returns, by the result of the repository. -/
theorem DeleteEvent_result {σ : Type} (Wrap : String → Error → Error)
    (answer : (o : EventOp) → σ → EventRes o × σ) (st : σ) (eventID userID : UUID) :
    ((DeleteEvent Wrap eventID userID).run answer st).1 =
      match (answer (.deleteEvent eventID userID) st).1 with
      | none => none
      | some err =>
        if Is err repo.ErrEventNotFound then
          some (Wrap "service.event.Delete" domain.ErrEventNotFound)
        else some (Wrap "service.event.Delete" err) := by
  simp only [DeleteEvent, Proc.run]
  cases (answer (.deleteEvent eventID userID) st).1 with
  | none => rfl
  | some err => by_cases h : Is err repo.ErrEventNotFound = true <;> simp [h, Proc.run]

/-- C24, as stated, fails: a repository error that does not match
`repo.ErrEventNotFound` is wrapped and returned, so when it is (or wraps)
`domain.ErrEventNotFound` the error of the service matches
`domain.ErrEventNotFound`. More than that, whatever the helper `errutils.Wrap`
does, the first and the third part of the claim cannot both hold: for the
repository errors `repo.ErrEventNotFound` and `domain.ErrEventNotFound`, the
second of which does not match the first, `UpdateEvent` returns the same
error. -/
theorem UpdateEvent_passes_matching_error_through :
    Is domain.ErrEventNotFound repo.ErrEventNotFound = false ∧
    ((UpdateEvent wrapOp exUpdate 7 3).run (fixedUpdate (some domain.ErrEventNotFound)) ()).1 =
      some (wrapOp "service.event.Update" domain.ErrEventNotFound) ∧
    Is (wrapOp "service.event.Update" domain.ErrEventNotFound) domain.ErrEventNotFound = true ∧
    ((DeleteEvent wrapOp 7 3).run (fixedUpdate (some domain.ErrEventNotFound)) ()).1 =
      some (wrapOp "service.event.Delete" domain.ErrEventNotFound) ∧
    Is (wrapOp "service.event.Delete" domain.ErrEventNotFound) domain.ErrEventNotFound = true ∧
    ∀ Wrap : String → Error → Error,
      ¬ ((∀ e, ((UpdateEvent Wrap exUpdate 7 3).run
              (fixedUpdate (some repo.ErrEventNotFound)) ()).1 = some e →
            Is e domain.ErrEventNotFound = true) ∧
         (∀ err, Is err repo.ErrEventNotFound = false →
            ∀ e, ((UpdateEvent Wrap exUpdate 7 3).run (fixedUpdate (some err)) ()).1 = some e →
              Is e domain.ErrEventNotFound = false)) := by
  refine ⟨by decide, by decide, by decide, by decide, by decide, ?_⟩
  rintro Wrap ⟨h1, h3⟩
  have ha := h1 (Wrap "service.event.Update" domain.ErrEventNotFound)
    (by rw [UpdateEvent_result]; rfl)
  have hb := h3 domain.ErrEventNotFound (by decide)
    (Wrap "service.event.Update" domain.ErrEventNotFound)
    (by rw [UpdateEvent_result]; rfl)
  rw [ha] at hb
  cases hb

/-- C24, amended: with a helper `errutils.Wrap` that keeps the chain of the error
it wraps, `UpdateEvent` and `DeleteEvent` return nil when the repository returns
nil; an error matching `domain.ErrEventNotFound` when the error of the
repository matches `repo.ErrEventNotFound`; and for any other error `err` of the
repository the error `Wrap(op, err)`, which is not nil and matches
`domain.ErrEventNotFound` exactly when `err` itself does. -/
theorem UpdateEvent_DeleteEvent_errors {σ : Type} (Wrap : String → Error → Error)
    (hWrap : KeepsChain Wrap) (answer : (o : EventOp) → σ → EventRes o × σ) (st : σ)
    (event : dto.UpdateEventRequest) (eventID userID : UUID) :
    ((answer (.updateEvent (updateDomainEvent event eventID userID)) st).1 = none →
      ((UpdateEvent Wrap event eventID userID).run answer st).1 = none) ∧
    (∀ err, (answer (.updateEvent (updateDomainEvent event eventID userID)) st).1 = some err →
      Is err repo.ErrEventNotFound = true →
        ∃ e, ((UpdateEvent Wrap event eventID userID).run answer st).1 = some e ∧
          Is e domain.ErrEventNotFound = true) ∧
    (∀ err, (answer (.updateEvent (updateDomainEvent event eventID userID)) st).1 = some err →
      Is err repo.ErrEventNotFound = false →
        ((UpdateEvent Wrap event eventID userID).run answer st).1 =
          some (Wrap "service.event.Update" err) ∧
        Is (Wrap "service.event.Update" err) domain.ErrEventNotFound =
          Is err domain.ErrEventNotFound) ∧
    ((answer (.deleteEvent eventID userID) st).1 = none →
      ((DeleteEvent Wrap eventID userID).run answer st).1 = none) ∧
    (∀ err, (answer (.deleteEvent eventID userID) st).1 = some err →
      Is err repo.ErrEventNotFound = true →
        ∃ e, ((DeleteEvent Wrap eventID userID).run answer st).1 = some e ∧
          Is e domain.ErrEventNotFound = true) ∧
    (∀ err, (answer (.deleteEvent eventID userID) st).1 = some err →
      Is err repo.ErrEventNotFound = false →
        ((DeleteEvent Wrap eventID userID).run answer st).1 =
          some (Wrap "service.event.Delete" err) ∧
        Is (Wrap "service.event.Delete" err) domain.ErrEventNotFound =
          Is err domain.ErrEventNotFound) := by
  have hdom : ∀ op, Is (Wrap op domain.ErrEventNotFound) domain.ErrEventNotFound = true := by
    intro op
    rw [domain.ErrEventNotFound, hWrap, Is_new_self]
  refine ⟨?_, ?_, ?_, ?_, ?_, ?_⟩
  · intro h
    rw [UpdateEvent_result, h]
  · intro err h hm
    refine ⟨_, ?_, hdom "service.event.Update"⟩
    rw [UpdateEvent_result, h]
    simp [hm]
  · intro err h hm
    refine ⟨?_, hWrap _ _ _ _⟩
    rw [UpdateEvent_result, h]
    simp [hm]
  · intro h
    rw [DeleteEvent_result, h]
  · intro err h hm
    refine ⟨_, ?_, hdom "service.event.Delete"⟩
    rw [DeleteEvent_result, h]
    simp [hm]
  · intro err h hm
    refine ⟨?_, hWrap _ _ _ _⟩
    rw [DeleteEvent_result, h]
    simp [hm]

/-- Witness of C24, amended: the repository reports that no row was affected. -/
theorem UpdateEvent_DeleteEvent_errors_witness :
    ∃ e, ((UpdateEvent wrapOp exUpdate 7 3).run
        (fixedUpdate (some repo.ErrEventNotFound)) ()).1 = some e ∧
      Is e domain.ErrEventNotFound = true :=
  (UpdateEvent_DeleteEvent_errors wrapOp KeepsChain_wrapOp
    (fixedUpdate (some repo.ErrEventNotFound)) () exUpdate 7 3).2.1
    repo.ErrEventNotFound rfl (by decide)

/-- C29: `UpdateEvent` and `DeleteEvent`, run by a goroutine in the process of
the reminder worker, for every request (an update that sets a new `RemindAt`
included), every repository and every state of the worker. Their only operation
is the one call of the repository, so they never send on the intake channel and
never block on it; they run to their end and leave the worker as it was but for
the store of the repository: the queue of the intake channel with the tasks in
it (and so the `RemindAt` of each), the channel itself, the handler goroutines
and the events recorded are unchanged. -/
theorem UpdateEvent_DeleteEvent_leave_queue {σ ρ : Type} (Wrap : String → Error → Error)
    (answer : (o : EventOp) → ρ → EventRes o × ρ) (st : ρ)
    (repository : (o : EventOp) → σ → EventRes o × σ) (s : Sys σ)
    (event : dto.UpdateEventRequest) (eventID userID : UUID) :
    Proc.opsOf ((UpdateEvent Wrap event eventID userID).run answer st).2.2 =
      [.updateEvent (updateDomainEvent event eventID userID)] ∧
    Proc.opsOf ((DeleteEvent Wrap eventID userID).run answer st).2.2 =
      [.deleteEvent eventID userID] ∧
    (∃ res, Proc.runIn (performEvent repository) (UpdateEvent Wrap event eventID userID) s =
      some (res, { s with store :=
        (repository (.updateEvent (updateDomainEvent event eventID userID)) s.store).2 })) ∧
    (∃ res, Proc.runIn (performEvent repository) (DeleteEvent Wrap eventID userID) s =
      some (res, { s with store := (repository (.deleteEvent eventID userID) s.store).2 })) ∧
    (∀ res s1,
      (Proc.runIn (performEvent repository) (UpdateEvent Wrap event eventID userID) s =
          some (res, s1) ∨
        Proc.runIn (performEvent repository) (DeleteEvent Wrap eventID userID) s =
          some (res, s1)) →
      s1.tasks = s.tasks ∧ s1.handlers = s.handlers ∧ s1.events = s.events ∧
      s1.done = s.done ∧ s1.run = s.run ∧ s1.stop = s.stop) := by
  have hu : ∃ res, Proc.runIn (performEvent repository)
      (UpdateEvent Wrap event eventID userID) s =
      some (res, { s with store :=
        (repository (.updateEvent (updateDomainEvent event eventID userID)) s.store).2 }) := by
    simp only [UpdateEvent, Proc.runIn, performEvent]
    cases (repository (.updateEvent (updateDomainEvent event eventID userID)) s.store).1 with
    | none => exact ⟨_, rfl⟩
    | some err =>
      by_cases h : Is err repo.ErrEventNotFound = true
      · exact ⟨some (Wrap "service.event.Update" domain.ErrEventNotFound),
          by simp [h, Proc.runIn]⟩
      · exact ⟨some (Wrap "service.event.Update" err), by simp [h, Proc.runIn]⟩
  have hd : ∃ res, Proc.runIn (performEvent repository) (DeleteEvent Wrap eventID userID) s =
      some (res, { s with store := (repository (.deleteEvent eventID userID) s.store).2 }) := by
    simp only [DeleteEvent, Proc.runIn, performEvent]
    cases (repository (.deleteEvent eventID userID) s.store).1 with
    | none => exact ⟨_, rfl⟩
    | some err =>
      by_cases h : Is err repo.ErrEventNotFound = true
      · exact ⟨some (Wrap "service.event.Delete" domain.ErrEventNotFound),
          by simp [h, Proc.runIn]⟩
      · exact ⟨some (Wrap "service.event.Delete" err), by simp [h, Proc.runIn]⟩
  refine ⟨?_, ?_, hu, hd, ?_⟩
  · simp only [UpdateEvent, Proc.run, Proc.opsOf]
    cases (answer (.updateEvent (updateDomainEvent event eventID userID)) st).1 with
    | none => rfl
    | some err => by_cases h : Is err repo.ErrEventNotFound = true <;> simp [h, Proc.run]
  · simp only [DeleteEvent, Proc.run, Proc.opsOf]
    cases (answer (.deleteEvent eventID userID) st).1 with
    | none => rfl
    | some err => by_cases h : Is err repo.ErrEventNotFound = true <;> simp [h, Proc.run]
  · rintro res s1 (h | h)
    · obtain ⟨res1, h1⟩ := hu
      rw [h1] at h
      cases h
      exact ⟨rfl, rfl, rfl, rfl, rfl, rfl⟩
    · obtain ⟨res1, h1⟩ := hd
      rw [h1] at h
      cases h
      exact ⟨rfl, rfl, rfl, rfl, rfl, rfl⟩

/-! ## The event service: the events of a day, a week, a month (C26) -/

/-- The loop of `domainToGetEventsResponse` appends the converted events to the
slice it started with. -/
theorem foldl_append_toDtoEvent (l : List Event) (acc : List dto.Event) :
    l.foldl (fun events e => Slice.append events (toDtoEvent e)) (some acc) =
      some (acc ++ l.map toDtoEvent) := by
  induction l generalizing acc with
  | nil => simp
  | cons e rest ih =>
    have hstep : Slice.append (some acc) (toDtoEvent e) = some (acc ++ [toDtoEvent e]) := rfl
    rw [List.foldl_cons, hstep, ih]
    simp

/-- The response of `domainToGetEventsResponse`: a slice that is not nil, with
the converted events in order. -/
theorem domainToGetEventsResponse_eq (domainEvents : Slice Event) :
    domainToGetEventsResponse domainEvents =
      { Events := some (domainEvents.elems.map toDtoEvent) } := by
  simp [domainToGetEventsResponse, foldl_append_toDtoEvent]

/-- C26: when the repository returns a list of domain events and no error,
`GetEventsForDay`, `GetEventsForWeek` and `GetEventsForMonth` return no error
and a response whose `Events` is a slice that is not nil, of the length of the
list of the repository, whose element `i` carries the `ID`, `UserID`, `Date` and
`Description` of domain event `i`; for a nil or empty list `Events` is empty and
not nil. -/
theorem GetEvents_converts_in_order {σ : Type} (Wrap : String → Error → Error)
    (answer : (o : EventOp) → σ → EventRes o × σ) (st : σ) (userID : UUID) (date : Time)
    (p : Proc EventOp EventRes (dto.GetEventsResponse × Option Error))
    (o : EventOp) (domainEvents : Slice Event)
    (hp : (p = GetEventsForDay Wrap userID date ∧ o = .getEventsForDay userID date ∧
            (answer (.getEventsForDay userID date) st).1 = .ok domainEvents) ∨
          (p = GetEventsForWeek Wrap userID date ∧ o = .getEventsForWeek userID date ∧
            (answer (.getEventsForWeek userID date) st).1 = .ok domainEvents) ∨
          (p = GetEventsForMonth Wrap userID date ∧ o = .getEventsForMonth userID date ∧
            (answer (.getEventsForMonth userID date) st).1 = .ok domainEvents)) :
    ∃ events : List dto.Event,
      (p.run answer st).1 = ({ Events := some events }, none) ∧
      Proc.opsOf (p.run answer st).2.2 = [o] ∧
      events.length = domainEvents.elems.length ∧
      (∀ (i : Nat) (e : Event), domainEvents.elems[i]? = some e →
        events[i]? = some { ID := e.ID, UserID := e.UserID, Date := e.Date,
                            Description := e.Description }) ∧
      (domainEvents = none ∨ domainEvents = some [] → events = []) := by
  refine ⟨domainEvents.elems.map toDtoEvent, ?_, ?_, by simp, ?_, ?_⟩
  · rcases hp with ⟨rfl, _, h⟩ | ⟨rfl, _, h⟩ | ⟨rfl, _, h⟩
    · simp [GetEventsForDay, Proc.run, h, domainToGetEventsResponse_eq]
    · simp [GetEventsForWeek, Proc.run, h, domainToGetEventsResponse_eq]
    · simp [GetEventsForMonth, Proc.run, h, domainToGetEventsResponse_eq]
  · rcases hp with ⟨rfl, rfl, h⟩ | ⟨rfl, rfl, h⟩ | ⟨rfl, rfl, h⟩
    · simp [GetEventsForDay, Proc.run, Proc.opsOf, h]
    · simp [GetEventsForWeek, Proc.run, Proc.opsOf, h]
    · simp [GetEventsForMonth, Proc.run, Proc.opsOf, h]
  · intro i e he
    simp [List.getElem?_map, he, toDtoEvent]
  · rintro (rfl | rfl) <;> rfl

/-- Witness of C26: the repository returns the two events `exEvent` and
`rowAt 2 1000` for a day. -/
theorem GetEvents_converts_in_order_witness :
    ∃ events : List dto.Event,
      ((GetEventsForDay wrapOp 3 500).run
        (fixedEvents (.ok (some [exEvent, repo.rowAt 2 1000]))) ()).1 =
          ({ Events := some events }, none) ∧
      events.length = 2 :=
  (GetEvents_converts_in_order wrapOp (fixedEvents (.ok (some [exEvent, repo.rowAt 2 1000]))) ()
    3 500 _ (.getEventsForDay 3 500) (some [exEvent, repo.rowAt 2 1000])
    (Or.inl ⟨rfl, rfl, rfl⟩)).imp fun _ h => ⟨h.1, h.2.2.1⟩

end service

namespace userservice

open reminder errors

/-! ## The user service: a login that fails (C25) -/

/-- C25: two logins with the same credentials, with a helper `errutils.Wrap` that
keeps the chain of the error it wraps. In the first the repository reports an
error matching `repo.ErrUserNotFound`; in the second it finds the user and the
comparison of the password with the stored hash fails. Both return the empty
token and the same error, which matches `domain.ErrInvalidCredentials`, so the
caller cannot tell them apart by what is returned; in neither is `NewToken`
called: the first calls the repository only, the second the repository and the
comparison. -/
theorem Login_hides_which_check_failed {σ ρ : Type} (Wrap : String → Error → Error)
    (hWrap : KeepsChain Wrap) (tokenTTL : Duration) (creds : LoginUser)
    (answerA : (o : Op) → σ → Res o × σ) (stA : σ)
    (answerB : (o : Op) → ρ → Res o × ρ) (stB : ρ)
    (err errB : Error) (user : User)
    (hA : (answerA (.getUserByEmail creds.Email) stA).1 = .error err)
    (hAm : Is err userrepo.ErrUserNotFound = true)
    (hB : (answerB (.getUserByEmail creds.Email) stB).1 = .ok user)
    (hBc : (answerB (.compareHashAndPassword user.PasswordHash creds.Password)
      (answerB (.getUserByEmail creds.Email) stB).2).1 = some errB) :
    ((Login Wrap tokenTTL creds).run answerA stA).1 =
      ("", some (Wrap "service.user.Login" domain.ErrInvalidCredentials)) ∧
    ((Login Wrap tokenTTL creds).run answerB stB).1 =
      ("", some (Wrap "service.user.Login" domain.ErrInvalidCredentials)) ∧
    Is (Wrap "service.user.Login" domain.ErrInvalidCredentials)
      domain.ErrInvalidCredentials = true ∧
    Proc.opsOf ((Login Wrap tokenTTL creds).run answerA stA).2.2 =
      [.getUserByEmail creds.Email] ∧
    Proc.opsOf ((Login Wrap tokenTTL creds).run answerB stB).2.2 =
      [.getUserByEmail creds.Email,
       .compareHashAndPassword user.PasswordHash creds.Password] ∧
    (Proc.opsOf ((Login Wrap tokenTTL creds).run answerA stA).2.2).countP Op.isNewToken = 0 ∧
    (Proc.opsOf ((Login Wrap tokenTTL creds).run answerB stB).2.2).countP Op.isNewToken = 0 := by
  have hopsA : Proc.opsOf ((Login Wrap tokenTTL creds).run answerA stA).2.2 =
      [.getUserByEmail creds.Email] := by
    simp [Login, Proc.run, Proc.opsOf, hA, hAm]
  have hopsB : Proc.opsOf ((Login Wrap tokenTTL creds).run answerB stB).2.2 =
      [.getUserByEmail creds.Email,
       .compareHashAndPassword user.PasswordHash creds.Password] := by
    simp [Login, Proc.run, Proc.opsOf, hB, hBc]
  refine ⟨?_, ?_, ?_, hopsA, hopsB, ?_, ?_⟩
  · simp [Login, Proc.run, hA, hAm]
  · simp [Login, Proc.run, hB, hBc]
  · rw [domain.ErrInvalidCredentials, hWrap, Is_new_self]
  · rw [hopsA]
    rfl
  · rw [hopsB]
    rfl

/-- Witness of C25: an unknown e-mail address, and a known one with a wrong
password. -/
theorem Login_hides_which_check_failed_witness :
    ((Login wrapOp 10000000000 exCreds).run
      (fixedWorld (.error (wrapOp "failed to get user" userrepo.ErrUserNotFound)) none
        (.ok "TOKEN_123")) ()).1 =
    ((Login wrapOp 10000000000 exCreds).run
      (fixedWorld (.ok exUser) (some ErrMismatchedHashAndPassword) (.ok "TOKEN_123")) ()).1 :=
  have h := Login_hides_which_check_failed wrapOp KeepsChain_wrapOp 10000000000 exCreds
    (fixedWorld (.error (wrapOp "failed to get user" userrepo.ErrUserNotFound)) none
      (.ok "TOKEN_123")) ()
    (fixedWorld (.ok exUser) (some ErrMismatchedHashAndPassword) (.ok "TOKEN_123")) ()
    (wrapOp "failed to get user" userrepo.ErrUserNotFound) ErrMismatchedHashAndPassword exUser
    rfl (by decide) rfl rfl
  h.1.trans h.2.1.symm

end userservice

namespace rest

open reminder errors

/-! ## The handler of `GET /event`: the period (C27) -/

/-- What follows a call of the service: 200 with the events, or a log entry and
500. -/
theorem respond_run {σ : Type} (answer : (o : Op) → σ → Res o × σ) (st : σ)
    (r : dto.GetEventsResponse × Option Error) :
    (r.2 = none → ((respond r).run answer st).1 = { status := 200, body := .events r.1 } ∧
      Proc.opsOf ((respond r).run answer st).2.2 = []) ∧
    (r.2 ≠ none → ((respond r).run answer st).1 = InternalServerError ∧
      Proc.opsOf ((respond r).run answer st).2.2 = [.logError "failed to update event"]) := by
  obtain ⟨resp, e⟩ := r
  cases e with
  | none => simp [respond, Proc.run, Proc.opsOf]
  | some err => simp [respond, Proc.run, Proc.opsOf]

/-- With a date and a user identifier that parse, `GetEvents` is its `switch`. -/
theorem GetEvents_valid (ToLower : String → String) (ParseDate : String → Except Error Time)
    (Parse : String → Except Error UUID) (req : Request) (date : Time) (userID : String)
    (uid : UUID) (hperiod : req.period ≠ "") (hdate : ParseDate req.date = .ok date)
    (huser : req.user_id = some userID) (hparse : Parse userID = .ok uid) :
    GetEvents ToLower ParseDate Parse req = dispatch (ToLower req.period) uid date := by
  simp [GetEvents, hperiod, hdate, getUserData, huser, hparse, Proc.bind]

/-- C27: a request whose date and user identifier parse. When the period is not
empty and is `day`, `week` or `month` in lower case, the handler calls the
corresponding method of the service, and no other, with the parsed user
identifier and date; it answers 200 with the events when the method returns no
error, and 500 when it returns one. For every other period, the empty one
included, it answers 400 and performs no operation at all. -/
theorem GetEvents_dispatches_on_period {σ : Type} (ToLower : String → String)
    (ParseDate : String → Except Error Time) (Parse : String → Except Error UUID)
    (answer : (o : Op) → σ → Res o × σ) (st : σ) (req : Request) (date : Time)
    (userID : String) (uid : UUID) (hdate : ParseDate req.date = .ok date)
    (huser : req.user_id = some userID) (hparse : Parse userID = .ok uid) :
    (req.period ≠ "" → ToLower req.period = "day" →
      (Proc.opsOf ((GetEvents ToLower ParseDate Parse req).run answer st).2.2).filter
        Op.isService = [.getEventsForDay uid date] ∧
      ((answer (.getEventsForDay uid date) st).1.2 = none →
        ((GetEvents ToLower ParseDate Parse req).run answer st).1 =
          { status := 200, body := .events (answer (.getEventsForDay uid date) st).1.1 }) ∧
      ((answer (.getEventsForDay uid date) st).1.2 ≠ none →
        ((GetEvents ToLower ParseDate Parse req).run answer st).1 =
          { status := 500,
            body := .error "INTERNAL_ERROR" "internal server error, try again later" })) ∧
    (req.period ≠ "" → ToLower req.period = "week" →
      (Proc.opsOf ((GetEvents ToLower ParseDate Parse req).run answer st).2.2).filter
        Op.isService = [.getEventsForWeek uid date] ∧
      ((answer (.getEventsForWeek uid date) st).1.2 = none →
        ((GetEvents ToLower ParseDate Parse req).run answer st).1 =
          { status := 200, body := .events (answer (.getEventsForWeek uid date) st).1.1 }) ∧
      ((answer (.getEventsForWeek uid date) st).1.2 ≠ none →
        ((GetEvents ToLower ParseDate Parse req).run answer st).1 =
          { status := 500,
            body := .error "INTERNAL_ERROR" "internal server error, try again later" })) ∧
    (req.period ≠ "" → ToLower req.period = "month" →
      (Proc.opsOf ((GetEvents ToLower ParseDate Parse req).run answer st).2.2).filter
        Op.isService = [.getEventsForMonth uid date] ∧
      ((answer (.getEventsForMonth uid date) st).1.2 = none →
        ((GetEvents ToLower ParseDate Parse req).run answer st).1 =
          { status := 200, body := .events (answer (.getEventsForMonth uid date) st).1.1 }) ∧
      ((answer (.getEventsForMonth uid date) st).1.2 ≠ none →
        ((GetEvents ToLower ParseDate Parse req).run answer st).1 =
          { status := 500,
            body := .error "INTERNAL_ERROR" "internal server error, try again later" })) ∧
    (req.period = "" ∨ (ToLower req.period ≠ "day" ∧ ToLower req.period ≠ "week" ∧
        ToLower req.period ≠ "month") →
      ((GetEvents ToLower ParseDate Parse req).run answer st).1.status = 400 ∧
      Proc.opsOf ((GetEvents ToLower ParseDate Parse req).run answer st).2.2 = []) := by
  refine ⟨?_, ?_, ?_, ?_⟩
  · intro hperiod hlow
    rw [GetEvents_valid ToLower ParseDate Parse req date userID uid hperiod hdate huser hparse]
    have hr := respond_run answer (answer (.getEventsForDay uid date) st).2
      (answer (.getEventsForDay uid date) st).1
    simp only [dispatch, hlow, if_true, Proc.run, Proc.opsOf, List.map_cons]
    refine ⟨?_, fun h => (hr.1 h).1, fun h => (hr.2 h).1⟩
    by_cases he : (answer (.getEventsForDay uid date) st).1.2 = none
    · have h2 := (hr.1 he).2
      simp only [Proc.opsOf] at h2
      simp [h2, Op.isService]
    · have h2 := (hr.2 he).2
      simp only [Proc.opsOf] at h2
      simp [h2, Op.isService]
  · intro hperiod hlow
    rw [GetEvents_valid ToLower ParseDate Parse req date userID uid hperiod hdate huser hparse]
    have hr := respond_run answer (answer (.getEventsForWeek uid date) st).2
      (answer (.getEventsForWeek uid date) st).1
    have h1 : ¬ ("week" = "day") := by decide
    simp only [dispatch, hlow, h1, if_true, if_false, Proc.run, Proc.opsOf, List.map_cons]
    refine ⟨?_, fun h => (hr.1 h).1, fun h => (hr.2 h).1⟩
    by_cases he : (answer (.getEventsForWeek uid date) st).1.2 = none
    · have h2 := (hr.1 he).2
      simp only [Proc.opsOf] at h2
      simp [h2, Op.isService]
    · have h2 := (hr.2 he).2
      simp only [Proc.opsOf] at h2
      simp [h2, Op.isService]
  · intro hperiod hlow
    rw [GetEvents_valid ToLower ParseDate Parse req date userID uid hperiod hdate huser hparse]
    have hr := respond_run answer (answer (.getEventsForMonth uid date) st).2
      (answer (.getEventsForMonth uid date) st).1
    have h1 : ¬ ("month" = "day") := by decide
    have h2 : ¬ ("month" = "week") := by decide
    simp only [dispatch, hlow, h1, h2, if_true, if_false, Proc.run, Proc.opsOf, List.map_cons]
    refine ⟨?_, fun h => (hr.1 h).1, fun h => (hr.2 h).1⟩
    by_cases he : (answer (.getEventsForMonth uid date) st).1.2 = none
    · have h3 := (hr.1 he).2
      simp only [Proc.opsOf] at h3
      simp [h3, Op.isService]
    · have h3 := (hr.2 he).2
      simp only [Proc.opsOf] at h3
      simp [h3, Op.isService]
  · rintro (hempty | ⟨hd, hw, hm⟩)
    · simp [GetEvents, hempty, Proc.run, Proc.opsOf, BadRequest]
    · by_cases hperiod : req.period = ""
      · simp [GetEvents, hperiod, Proc.run, Proc.opsOf, BadRequest]
      · rw [GetEvents_valid ToLower ParseDate Parse req date userID uid hperiod hdate huser
          hparse]
        simp [dispatch, hd, hw, hm, Proc.run, Proc.opsOf, BadRequest]

/-- Witness of C27: the period `WEEK`, in upper case, with a service that returns
no events and no error, and with a service that fails. -/
theorem GetEvents_dispatches_on_period_witness :
    (Proc.opsOf ((GetEvents asciiLower exParseDate exParse exRequest).run
        (fixedService ({ Events := some [] }, none)) ()).2.2).filter Op.isService =
      [.getEventsForWeek 3 1735689600] ∧
    ((GetEvents asciiLower exParseDate exParse exRequest).run
        (fixedService ({ Events := some [] }, none)) ()).1 =
      { status := 200, body := .events { Events := some [] } } ∧
    ((GetEvents asciiLower exParseDate exParse exRequest).run
        (fixedService ({ Events := none }, some (.new "boom" "boom"))) ()).1 =
      { status := 500,
        body := .error "INTERNAL_ERROR" "internal server error, try again later" } :=
  have h := (GetEvents_dispatches_on_period asciiLower exParseDate exParse
    (fixedService ({ Events := some [] }, none)) () exRequest 1735689600 "3" 3
    rfl rfl rfl).2.1 (by decide) (by decide)
  have he := (GetEvents_dispatches_on_period asciiLower exParseDate exParse
    (fixedService ({ Events := none }, some (.new "boom" "boom"))) () exRequest 1735689600
    "3" 3 rfl rfl rfl).2.1 (by decide) (by decide)
  ⟨h.1, h.2.1 rfl, he.2.2 (by decide)⟩

end rest

namespace app

open reminder

/-! ## The shutdown of the process: the order of the calls (C22) -/

/-- C22 does not hold of the code: in every run of the shutdown of `main`,
whatever `server.Shutdown` returns, the calls are, in this order, `DB.Close()`,
`janitorWorker.Stop()` and `reminderWorker.Stop()`, with neither `Stop` (and no
other `DB.Close()`) before them: the database pool is closed before either
worker has been asked to stop, not after both have returned. -/
theorem shutdown_closes_db_before_stops {σ : Type} (answer : (o : Op) → σ → Res o × σ)
    (st : σ) :
    ∃ pre post : List Op,
      Proc.opsOf (shutdown.run answer st).2.2 =
        pre ++ [.dbClose, .janitorStop, .reminderStop] ++ post ∧
      Op.dbClose ∉ pre ∧ Op.janitorStop ∉ pre ∧ Op.reminderStop ∉ pre ∧
      Op.dbClose ∉ post ∧ Op.janitorStop ∉ post ∧ Op.reminderStop ∉ post := by
  cases hr : (answer (.serverShutdown
      { deadline := (answer .now (answer .waitCtxDone st).2).1 + 3 * janitor.second })
      (answer .now (answer .waitCtxDone st).2).2).1 with
  | none =>
    refine ⟨[.waitCtxDone, .now, .serverShutdown
        { deadline := (answer .now (answer .waitCtxDone st).2).1 + 3 * janitor.second }],
      [.cancelTimeout
        { deadline := (answer .now (answer .waitCtxDone st).2).1 + 3 * janitor.second },
       .cancelSignal, .asyncLogStop], ?_, ?_⟩
    · simp [shutdown, release, Proc.run, Proc.opsOf, hr]
    · simp
  | some err =>
    refine ⟨[.waitCtxDone, .now, .serverShutdown
        { deadline := (answer .now (answer .waitCtxDone st).2).1 + 3 * janitor.second },
        .logError err "server shutdown failed"],
      [.cancelTimeout
        { deadline := (answer .now (answer .waitCtxDone st).2).1 + 3 * janitor.second },
       .cancelSignal, .asyncLogStop], ?_, ?_⟩
    · simp [shutdown, release, Proc.run, Proc.opsOf, hr]
    · simp

end app

namespace janitor

open reminder

/-! ## A tick of the janitor and the reminder worker (C23) -/

/-- C23, as stated, fails: the store holds a reminder that is due and not sent,
and after a tick of the janitor in which nothing fails the reminder worker is as
it was, with no task in its intake channel, no handler goroutine and no
submission recorded; the row is still in the live table. -/
theorem job_loads_no_pending_reminder :
    pendingRow ∈ exWorld.tables.events ∧ pendingRow.Sent = false ∧
    pendingRow.RemindAt = some 1400 ∧ (1400 : Time) ≤ exWorld.worker.clock ∧
    (job.run (World.answer service.exWrap repo.noFaults 1000) exWorld).2.1.worker.tasks.buf
      = [] ∧
    (job.run (World.answer service.exWrap repo.noFaults 1000)
      exWorld).2.1.worker.handlers.length = 0 ∧
    submittedTasks
      (job.run (World.answer service.exWrap repo.noFaults 1000) exWorld).2.1.worker.events
      = [] ∧
    (job.run (World.answer service.exWrap repo.noFaults 1000) exWorld).2.1.tables.events =
      [pendingRow] := by
  refine ⟨by decide, rfl, rfl, by decide, rfl, rfl, rfl, ?_⟩
  decide

/-- A tick of the janitor changes the tables as `ArchiveOldEvents` does and
leaves the reminder worker as it was. -/
theorem job_run_world {σ : Type} (Wrap : String → Err → Err) (f : repo.Faults) (today : Time)
    (w : World σ) :
    (job.run (World.answer Wrap f today) w).2.1 =
      { w with tables := (repo.sweep Wrap f today w.worker.clock w.tables).2.1.committed } := by
  simp only [job, Proc.run, World.answer]
  cases (repo.sweep Wrap f today w.worker.clock w.tables).1 with
  | none => rfl
  | some err => rfl

/-- C23, amended: a tick of the janitor, in any process, with any errors of the
database. It calls `ArchiveOldEvents` once and does nothing else to the store:
the tables afterwards are those `ArchiveOldEvents` leaves. It loads nothing into
the reminder worker, which is left exactly as it was. The tasks the worker has
handled or holds are those sent on its intake channel, in order: the tasks of
its handler goroutines followed by its queue are the submitted tasks. -/
theorem job_leaves_worker {σ : Type} (Wrap : String → Err → Err) (f : repo.Faults)
    (today : Time) (w : World σ) (c : Collab σ) (store : σ) (buffer : Nat) (clock : Time)
    (sched : List Step)
    (hreach : Sys.exec c (Sys.init store buffer clock) sched = some w.worker) :
    (job.run (World.answer Wrap f today) w).2.1.worker = w.worker ∧
    (job.run (World.answer Wrap f today) w).2.1.tables =
      (repo.sweep Wrap f today w.worker.clock w.tables).2.1.committed ∧
    (Proc.opsOf (job.run (World.answer Wrap f today) w).2.2).countP Op.isArchive = 1 ∧
    w.worker.handlers.map Handler.task ++ w.worker.tasks.buf =
      submittedTasks w.worker.events := by
  have hinv : w.worker.Inv :=
    Sys.Inv.of_exec c sched (Sys.Inv.init store buffer clock) hreach
  refine ⟨?_, ?_, ?_, ?_⟩
  · rw [job_run_world]
  · rw [job_run_world]
  · simp only [job, Proc.run, World.answer, Proc.opsOf]
    cases (repo.sweep Wrap f today w.worker.clock w.tables).1 with
    | none => rfl
    | some err => rfl
  · rw [hinv.handlersOf, hinv.conserve]

/-- Witness of C23, amended: a tick in the process `exWorld`, whose worker has
just been started. -/
theorem job_leaves_worker_witness :
    (job.run (World.answer service.exWrap repo.noFaults 1000) exWorld).2.1.worker =
      exWorld.worker :=
  (job_leaves_worker service.exWrap repo.noFaults 1000 exWorld okCollab () 100 1500 [] rfl).1

/-! ## The janitor: `Stop` (C21) -/

/-- The invariant of the janitor holds after `Start`. -/
theorem Cron.Inv.cron_init {σ : Type} (store : σ) : (Cron.init store).Inv := by
  refine ⟨fun h => absurd rfl h, fun h => ?_⟩
  cases h

/-- A goroutine that is a member of the list of firings is at some index. -/
theorem mem_of_jobs_getElem? {α : Type} {l : List α} {j : Nat} {p : α} (h : l[j]? = some p) :
    p ∈ l := by
  obtain ⟨hlt, rfl⟩ := List.getElem?_eq_some_iff.1 h
  exact List.getElem_mem hlt

/-- Every step keeps the invariant of the janitor. -/
theorem Cron.Inv.cron_step {σ : Type} {s s1 : Cron σ} (answer : (o : Op) → σ → Res o × σ)
    (h : s.Inv) (l : CronStep) (hstep : Cron.step answer s l = some s1) : s1.Inv := by
  obtain ⟨h1, h2⟩ := h
  cases l with
  | fire =>
    simp only [Cron.step] at hstep
    split at hstep
    · rename_i hrun
      cases hstep
      have hidle : s.stop = .idle := by
        by_contra hne
        rw [h1 hne] at hrun
        cases hrun
      refine ⟨h1, fun hret => ?_⟩
      simp only [hidle] at hret
      cases hret
    · cases hstep
  | job j =>
    simp only [Cron.step] at hstep
    split at hstep
    · rename_i o k hj
      cases hstep
      refine ⟨h1, fun hret => ?_⟩
      have hp := h2 hret _ (mem_of_jobs_getElem? hj)
      cases hp
    · cases hstep
  | stopCall =>
    simp only [Cron.step] at hstep
    split at hstep
    · cases hstep
      refine ⟨fun _ => rfl, fun hret => ?_⟩
      cases hret
    · cases hstep
  | stopWait =>
    simp only [Cron.step] at hstep
    split at hstep
    · rename_i hw
      cases hstep
      refine ⟨fun _ => h1 (by rw [hw.1]; decide), fun _ p hp => ?_⟩
      exact List.all_eq_true.1 hw.2 p hp
    · cases hstep

/-- The invariant of the janitor holds after every schedule. -/
theorem Cron.Inv.cron_exec {σ : Type} (answer : (o : Op) → σ → Res o × σ)
    (sched : List CronStep) :
    ∀ {s s1 : Cron σ}, s.Inv → Cron.exec answer s sched = some s1 → s1.Inv := by
  induction sched with
  | nil =>
    intro s s1 h hexec
    cases hexec
    exact h
  | cons l ls ih =>
    intro s s1 h hexec
    simp only [Cron.exec] at hexec
    cases hstep : Cron.step answer s l with
    | none => rw [hstep] at hexec; cases hexec
    | some s2 =>
      rw [hstep] at hexec
      exact ih (h.cron_step answer l hstep) hexec

/-- The schedule `schedStop` leads to `stateStop`. -/
theorem exec_schedStop :
    Cron.exec (fixedEnv 1500 none) (Cron.init ()) schedStop = some stateStop := rfl

/-- C21: the janitor after `Start`, in every state it can reach. Once `Stop` has
been called the scheduler is not running and no firing can start. The call of
`Stop` leaves the goroutines of the firings in progress and the store as they
are (it cancels nothing), and `Stop` gets past its wait only when every firing
has run to its end. Once `Stop` has returned every firing has run to its end
and no step is possible any more: no firing starts and no goroutine of the
janitor performs an operation, so `ArchiveOldEvents` is not called again. -/
theorem Stop_waits_for_firings {σ : Type} (answer : (o : Op) → σ → Res o × σ) (store : σ)
    (sched : List CronStep) (s : Cron σ)
    (hreach : Cron.exec answer (Cron.init store) sched = some s) :
    (s.stop ≠ .idle → s.running = false ∧ Cron.step answer s .fire = none) ∧
    (∀ s1, Cron.step answer s .stopCall = some s1 →
      s1.jobs = s.jobs ∧ s1.store = s.store ∧ s1.running = false) ∧
    (∀ s1, Cron.step answer s .stopWait = some s1 →
      s1.jobs = s.jobs ∧ s1.store = s.store ∧ ∀ p ∈ s.jobs, isRet p = true) ∧
    (s.stop = .returned →
      (∀ p ∈ s.jobs, isRet p = true) ∧ ∀ l, Cron.step answer s l = none) := by
  have hinv : s.Inv := Cron.Inv.cron_exec answer sched (Cron.Inv.cron_init store) hreach
  obtain ⟨h1, h2⟩ := hinv
  refine ⟨?_, ?_, ?_, ?_⟩
  · intro hne
    exact ⟨h1 hne, by simp [Cron.step, h1 hne]⟩
  · intro s1 hstep
    simp only [Cron.step] at hstep
    split at hstep
    · cases hstep
      exact ⟨rfl, rfl, rfl⟩
    · cases hstep
  · intro s1 hstep
    simp only [Cron.step] at hstep
    split at hstep
    · rename_i hw
      cases hstep
      exact ⟨rfl, rfl, fun p hp => List.all_eq_true.1 hw.2 p hp⟩
    · cases hstep
  · intro hret
    refine ⟨h2 hret, fun l => ?_⟩
    cases l with
    | fire => simp [Cron.step, h1 (by rw [hret]; decide)]
    | job j =>
      simp only [Cron.step]
      split
      · rename_i o k hj
        have hp := h2 hret _ (mem_of_jobs_getElem? hj)
        cases hp
      · rfl
    | stopCall => simp [Cron.step, hret]
    | stopWait => simp [Cron.step, hret]

/-- Witness of C21: `Stop` is called during a firing, which then calls
`ArchiveOldEvents` and runs to its end before `Stop` returns. -/
theorem Stop_waits_for_firings_witness :
    (∀ p ∈ stateStop.jobs, isRet p = true) ∧
    ∀ l, Cron.step (fixedEnv 1500 none) stateStop l = none :=
  (Stop_waits_for_firings (fixedEnv 1500 none) () schedStop stateStop exec_schedStop).2.2.2 rfl

/-! ## The janitor: firings are not serialized (C20) -/

/-- C20, as stated, fails: a first firing is at its call of `ArchiveOldEvents`
when the schedule is due again; the scheduler, which was made by
`cron.New(cron.WithSeconds())` with no wrapper that skips or delays a firing
while another runs, starts a second goroutine, which reaches its own call of
`ArchiveOldEvents` while the first has not returned from its call. -/
theorem firings_overlap :
    ∃ s0 s : Cron Unit,
      Cron.exec (fixedEnv 1500 none) (Cron.init ()) schedFiring = some s0 ∧
      s0.jobs.map atArchive = [true] ∧
      Cron.exec (fixedEnv 1500 none) s0 schedSecond = some s ∧
      s.jobs.map atArchive = [true, true] ∧ s.jobs.map isRet = [false, false] :=
  ⟨_, _, rfl, rfl, rfl, rfl, rfl⟩

/-- Until `Stop` is called the scheduler is running: one step. -/
theorem Cron.running_step {σ : Type} {s s1 : Cron σ} (answer : (o : Op) → σ → Res o × σ)
    (h : s.stop = .idle → s.running = true) (l : CronStep)
    (hstep : Cron.step answer s l = some s1) : s1.stop = .idle → s1.running = true := by
  cases l with
  | fire =>
    simp only [Cron.step] at hstep
    split at hstep
    · cases hstep; exact h
    · cases hstep
  | job j =>
    simp only [Cron.step] at hstep
    split at hstep
    · cases hstep; exact h
    · cases hstep
  | stopCall =>
    simp only [Cron.step] at hstep
    split at hstep
    · cases hstep
      intro hidle
      cases hidle
    · cases hstep
  | stopWait =>
    simp only [Cron.step] at hstep
    split at hstep
    · cases hstep
      intro hidle
      cases hidle
    · cases hstep

/-- Until `Stop` is called the scheduler is running, after every schedule. -/
theorem Cron.running_exec {σ : Type} (answer : (o : Op) → σ → Res o × σ)
    (sched : List CronStep) :
    ∀ {s s1 : Cron σ}, (s.stop = .idle → s.running = true) →
      Cron.exec answer s sched = some s1 → s1.stop = .idle → s1.running = true := by
  induction sched with
  | nil =>
    intro s s1 h hexec
    cases hexec
    exact h
  | cons l ls ih =>
    intro s s1 h hexec
    simp only [Cron.exec] at hexec
    cases hstep : Cron.step answer s l with
    | none => rw [hstep] at hexec; cases hexec
    | some s2 =>
      rw [hstep] at hexec
      exact ih (Cron.running_step answer h l hstep) hexec

/-- C20, amended: the janitor does not serialize its firings. In every state the
janitor can reach after `Start`, as long as `Stop` has not been called the
scheduler is running and a firing can start, whatever the firings in progress
are doing: the step starts one more goroutine, which runs the job from its
beginning, and leaves the others as they are. Each firing runs in its own
goroutine: a step of one firing changes no other firing. So a firing can start
while a previous one is still executing `ArchiveOldEvents`, and two sweeps can
run at the same time. -/
theorem firings_not_serialized {σ : Type} (answer : (o : Op) → σ → Res o × σ) (store : σ)
    (sched : List CronStep) (s : Cron σ)
    (hreach : Cron.exec answer (Cron.init store) sched = some s) :
    (s.stop = .idle → s.running = true) ∧
    (s.stop = .idle →
      Cron.step answer s .fire = some { s with jobs := s.jobs ++ [job] }) ∧
    (∀ (j : Nat) (s1 : Cron σ), Cron.step answer s (.job j) = some s1 →
      s1.jobs.length = s.jobs.length ∧ s1.running = s.running ∧ s1.stop = s.stop ∧
      ∀ i, i ≠ j → s1.jobs[i]? = s.jobs[i]?) := by
  have hrun : s.stop = .idle → s.running = true :=
    Cron.running_exec answer sched (fun _ => rfl) hreach
  refine ⟨hrun, ?_, ?_⟩
  · intro hidle
    simp [Cron.step, hrun hidle]
  · intro j s1 hstep
    simp only [Cron.step] at hstep
    split at hstep
    · cases hstep
      refine ⟨by simp, rfl, rfl, ?_⟩
      intro i hij
      simp [List.getElem?_set_ne (Ne.symm hij)]
    · cases hstep

/-- Witness of C20, amended: with a first firing at its call of
`ArchiveOldEvents`, a second firing starts. -/
theorem firings_not_serialized_witness :
    ∃ s0 : Cron Unit,
      Cron.exec (fixedEnv 1500 none) (Cron.init ()) schedFiring = some s0 ∧
      s0.jobs.map atArchive = [true] ∧
      Cron.step (fixedEnv 1500 none) s0 .fire = some { s0 with jobs := s0.jobs ++ [job] } :=
  ⟨_, rfl, rfl,
    (firings_not_serialized (fixedEnv 1500 none) () schedFiring _ rfl).2.1 rfl⟩

end janitor
